import Mathlib

/-!
BFit2Model: the analytic chain-population engine.

A shallow embedding of `BFit2Model.cxx` (namespace `BFitNamespace`) and the
properties of it that are proved here.

Conventions of the embedding.

* `Double_t` is an arbitrary linearly ordered field `K` with a floor function;
  the theorems instantiate `K` with the real numbers.  `TMath::Exp` is passed
  to every function as the argument `Exp`, and is `Real.exp` in the theorems.
* `Int_t` is `Int`; `TMath::Ceil` followed by the conversion to `Int_t` is
  `Ceil`, and `TMath::Power (Double_t, Int_t)` is `Power`.
* A parameter array `Double_t *a` is a function `Nat → K` from slot to value.
  The slot numbers (`nCyc`, `dt`, `rho`, ...) are declared in `BFit2Model.h`,
  which is not among the sources; they are the fields of `ParIndex`.
* The file-scope variables are the fields of two records: `CaseConsts` holds
  those that stay constant throughout a fit, `Globals` those that the model
  writes.  A function that writes a global, or the caller's array, returns
  the new record, or the new array, next to its result.
* A time argument `Double_t *t` is read only at `t[0]`, and is that number.
* Printing is left out.
-/

namespace BFitNamespace

/-- Slot numbers of the named parameters in a parameter array. -/
structure ParIndex where
  nCyc : Nat
  dt : Nat
  DC : Nat
  r1 : Nat
  r2 : Nat
  r3 : Nat
  p : Nat
  rho : Nat
  epsT : Nat
  epsV : Nat
  epsW : Nat
  epsZ : Nat
  epsX : Nat
  epsY : Nat
  gammaT1 : Nat
  gammaT2 : Nat
  gammaT3 : Nat
  gammaU1 : Nat
  gammaU2 : Nat
  gammaU3 : Nat
deriving DecidableEq, Repr

/-- The slots named by a layout, in the order of the fields. -/
def ParIndex.slots (ix : ParIndex) : List Nat :=
  [ix.nCyc, ix.dt, ix.DC, ix.r1, ix.r2, ix.r3, ix.p, ix.rho,
   ix.epsT, ix.epsV, ix.epsW, ix.epsZ, ix.epsX, ix.epsY,
   ix.gammaT1, ix.gammaT2, ix.gammaT3, ix.gammaU1, ix.gammaU2, ix.gammaU3]

/-- A layout is valid for arrays of `nPars` slots when its names stand for
different slots, all of them in range. -/
def ParIndex.Valid (ix : ParIndex) (nPars : Nat) : Prop :=
  ix.slots.Nodup ∧ ∀ i ∈ ix.slots, i < nPars

instance (ix : ParIndex) (nPars : Nat) : Decidable (ix.Valid nPars) := by
  unfold ParIndex.Valid
  exact inferInstance

/-- The globals that are constant throughout a fit. -/
structure CaseConsts (K : Type) where
  iota : K
  tCap : K
  tBac : K
  tCyc : K
  t1 : K
  t2 : K
  t3 : K
  b134sbFlag : Bool
  nPars : Nat

/-- The globals written by the model: the parameter-dependent values, the
last accepted parameter array and the count of parameter changes. -/
structure Globals (K : Type) where
  tT1 : K
  tT2 : K
  tT3 : K
  tU1 : K
  tU2 : K
  tU3 : K
  cT1 : K
  cU1 : K
  cU2 : K
  cZT2 : K
  cZU2 : K
  cZU3 : K
  cXT1 : K
  cXU2 : K
  cXU3 : K
  cYU1 : K
  cYU2 : K
  cYU3 : K
  ThetaU : K
  ThetaY : K
  ST1_1cap : K
  SW11_1cap : K
  SZ11_1cap : K
  ST2_1cap : K
  SW22_1cap : K
  SZ12_1cap : K
  SZ22_1cap : K
  ampT1 : K
  ampT2 : K
  ampT3 : K
  ampV1 : K
  ampV2 : K
  ampV3 : K
  ampW1 : K
  ampW2 : K
  ampW3 : K
  ampZ1 : K
  ampZ2 : K
  ampZ3 : K
  ampX2 : K
  ampX3 : K
  ampY2ptA : K
  ampY2ptB : K
  ampY3fromV2 : K
  ampY3fromW2 : K
  ampY3fromZ2 : K
  ampY3fromX2 : K
  ampY3fromY2_ST1 : K
  ampY3fromY2_SW11 : K
  ampY3fromY2_SZ11 : K
  eU1tCyc : K
  eU2tCyc : K
  eU3tCyc : K
  V10 : K
  V20 : K
  V30 : K
  W10 : K
  W20 : K
  W30 : K
  Z10 : K
  Z20 : K
  Z30 : K
  X20 : K
  X30 : K
  Y20 : K
  Y30 : K
  U10 : K
  U20 : K
  U30 : K
  lastPar : Nat → K
  nParChanges : Int

/-- The assignment `V10 = v`. -/
def Globals.setV10 {K : Type} (g : Globals K) (v : K) : Globals K :=
  { g with V10 := v }

/-- The assignment `V20 = v`. -/
def Globals.setV20 {K : Type} (g : Globals K) (v : K) : Globals K :=
  { g with V20 := v }

/-- The assignment `V30 = v`. -/
def Globals.setV30 {K : Type} (g : Globals K) (v : K) : Globals K :=
  { g with V30 := v }

/-- The assignment `W10 = v`. -/
def Globals.setW10 {K : Type} (g : Globals K) (v : K) : Globals K :=
  { g with W10 := v }

/-- The assignment `W20 = v`. -/
def Globals.setW20 {K : Type} (g : Globals K) (v : K) : Globals K :=
  { g with W20 := v }

/-- The assignment `W30 = v`. -/
def Globals.setW30 {K : Type} (g : Globals K) (v : K) : Globals K :=
  { g with W30 := v }

/-- The assignment `Z10 = v`. -/
def Globals.setZ10 {K : Type} (g : Globals K) (v : K) : Globals K :=
  { g with Z10 := v }

/-- The assignment `Z20 = v`. -/
def Globals.setZ20 {K : Type} (g : Globals K) (v : K) : Globals K :=
  { g with Z20 := v }

/-- The assignment `Z30 = v`. -/
def Globals.setZ30 {K : Type} (g : Globals K) (v : K) : Globals K :=
  { g with Z30 := v }

/-- The assignment `X20 = v`. -/
def Globals.setX20 {K : Type} (g : Globals K) (v : K) : Globals K :=
  { g with X20 := v }

/-- The assignment `X30 = v`. -/
def Globals.setX30 {K : Type} (g : Globals K) (v : K) : Globals K :=
  { g with X30 := v }

/-- The assignment `Y20 = v`. -/
def Globals.setY20 {K : Type} (g : Globals K) (v : K) : Globals K :=
  { g with Y20 := v }

/-- The assignment `Y30 = v`. -/
def Globals.setY30 {K : Type} (g : Globals K) (v : K) : Globals K :=
  { g with Y30 := v }

/-- The assignment `U10 = v`. -/
def Globals.setU10 {K : Type} (g : Globals K) (v : K) : Globals K :=
  { g with U10 := v }

/-- The assignment `U20 = v`. -/
def Globals.setU20 {K : Type} (g : Globals K) (v : K) : Globals K :=
  { g with U20 := v }

/-- The assignment `lastPar = v`. -/
def Globals.setlastPar {K : Type} (g : Globals K) (v : Nat → K) : Globals K :=
  { g with lastPar := v }

/-- The assignment `nParChanges = v`. -/
def Globals.setnParChanges {K : Type} (g : Globals K) (v : Int) : Globals K :=
  { g with nParChanges := v }

/-- The slots that `ComputeParameterDependentVars` reads, after its special
case has been applied. -/
def ParIndex.readSlots (ix : ParIndex) : List Nat :=
  [ix.r1, ix.r2, ix.r3, ix.p, ix.rho,
   ix.gammaT1, ix.gammaT2, ix.gammaT3, ix.gammaU1, ix.gammaU2, ix.gammaU3]

/-- The globals `g` with the four fields that `ComputeParameterDependentVars`
leaves alone replaced. -/
def Globals.withUnassigned {K : Type} (g : Globals K) (thetaY u30 : K) (lastPar : Nat → K)
    (nParChanges : Int) : Globals K :=
  { g with ThetaY := thetaY, U30 := u30, lastPar := lastPar, nParChanges := nParChanges }

/-- The value `f t` converges to `L` as `t` decreases to `t0`: for every
`eps > 0` there is `delta > 0` with `|f t - L| < eps` for all
`t0 < t < t0 + delta`. -/
def ConvergesFromAbove {K : Type} [LinearOrderedField K] (f : K → K) (t0 L : K) : Prop :=
  ∀ eps : K, 0 < eps → ∃ delta : K, 0 < delta ∧
    ∀ t : K, t0 < t → t < t0 + delta → |f t - L| < eps

section Model

variable {K : Type} [LinearOrderedField K] [FloorRing K]

/-- The value of `TMath::Ceil` as it is stored in an `Int_t`. -/
def Ceil (x : K) : Int := Int.ceil x

/-- The value of `TMath::Power (Double_t x, Int_t y)`. -/
def Power (x : K) (y : Int) : K := x ^ y

/-- The element count that `yAll` hands to `CompareParArrays`. -/
def sizeof_Double_t : Nat := 8

/-- The function `CompareParArrays`: true when the first `n` slots of the two arrays are
pairwise within `eps` of each other. -/
def CompareParArrays (par1 par2 : Nat → K) (n : Nat) (eps : K) : Bool :=
  (List.range n).all fun i => !decide (|par1 i - par2 i| > eps)

/-- The function `SigmaT (rho, tau, n)`. -/
def SigmaT (Exp : K → K) (c : CaseConsts K) (rho tau : K) (n : Int) : K :=
  let a := Exp (-c.tCap / tau)
  (1 - Power (rho * a) n) / (1 - rho * a)

/-- The function `SigmaW (rho, tT, tU, n)`. -/
def SigmaW (Exp : K → K) (c : CaseConsts K) (rho tT tU : K) (n : Int) : K :=
  let f : K := 0
  if n ≥ 2 then
    let expT := Exp (-c.tCap / tT)
    let expU := Exp (-c.tCap / tU)
    (1 + c.iota) / (rho * (expU - 1) + c.iota)
      * ( Power expU n * (Power (rho * expT / expU) n - rho * expT / expU + c.iota)
            / (rho * expT / expU - 1 + c.iota)
          - (Power (rho * expT) n - rho * expT + c.iota) / (rho * expT - 1 + c.iota) )
  else f

/-- The function `SigmaZ (rho, tT, tU, n)`. -/
def SigmaZ (Exp : K → K) (c : CaseConsts K) (rho tT tU : K) (n : Int) : K :=
  let f : K := 0
  if n ≥ 2 then
    let expT := Exp (-c.tCap / tT)
    let expU := Exp (-c.tCap / tU)
    (expU - expT) * Power expU (n - 1) / (1 - rho * expT)
      * ( (Power (1 / expU) n - 1 / expU) / (1 / expU - 1)
          - (Power (rho * expT / expU) n - rho * expT / expU)
              / (rho * expT / expU - 1 + c.iota) )
  else f

/-- The function `Ttot (i, a, tvar)`. -/
def Ttot (Exp : K → K) (c : CaseConsts K) (ix : ParIndex) (g : Globals K)
    (i : Int) (a : Nat → K) (tvar : K) : K :=
  let f : K := 0
  let n : Int := Ceil ((tvar - c.tBac) / c.tCap)
  if c.tBac ≤ tvar ∧ tvar ≤ c.tCyc then
    let f := if i = 1 then
      g.ampT1 * SigmaT Exp c (a ix.rho) g.tT1 n
        * Exp (-(tvar - c.tBac - ((n - 1 : Int) : K) * c.tCap) / g.tT1) else f
    let f := if i = 2 then
      g.ampT2 * SigmaT Exp c (a ix.rho) g.tT2 n
        * Exp (-(tvar - c.tBac - ((n - 1 : Int) : K) * c.tCap) / g.tT2) else f
    let f := if i = 3 then
      g.ampT3 * SigmaT Exp c (a ix.rho) g.tT3 n
        * Exp (-(tvar - c.tBac - ((n - 1 : Int) : K) * c.tCap) / g.tT3) else f
    f
  else f

/-- The function `Vcap (i, a, tvar)`. -/
def Vcap (Exp : K → K) (c : CaseConsts K) (g : Globals K)
    (i : Int) (_a : Nat → K) (tvar : K) : K :=
  let f : K := 0
  let n : Int := Ceil ((tvar - c.tBac) / c.tCap)
  let f := if i = 1 then
    g.ampV1 * SigmaT Exp c 1 g.tU1 n
      * Exp (-(tvar - c.tBac - ((n - 1 : Int) : K) * c.tCap) / g.tU1) else f
  let f := if i = 2 then
    g.ampV2 * SigmaT Exp c 1 g.tU2 n
      * Exp (-(tvar - c.tBac - ((n - 1 : Int) : K) * c.tCap) / g.tU2) else f
  let f := if i = 3 then
    g.ampV3 * SigmaT Exp c 1 g.tU3 n
      * Exp (-(tvar - c.tBac - ((n - 1 : Int) : K) * c.tCap) / g.tU3) else f
  f

/-- The function `Vtot (i, a, tvar)`. -/
def Vtot (Exp : K → K) (c : CaseConsts K) (g : Globals K)
    (i : Int) (a : Nat → K) (tvar : K) : K :=
  let f : K := 0
  let f := if 0 ≤ tvar ∧ tvar ≤ c.tCyc then
      let f := if i = 1 then f + g.V10 * Exp (-tvar / g.tU1) else f
      let f := if i = 2 then f + g.V20 * Exp (-tvar / g.tU2) else f
      let f := if i = 3 then f + g.V30 * Exp (-tvar / g.tU3) else f
      f
    else f
  let f := if c.tBac ≤ tvar ∧ tvar ≤ c.tCyc then f + Vcap Exp c g i a tvar else f
  f

/-- The function `Wcap (i, a, tvar)`. -/
def Wcap (Exp : K → K) (c : CaseConsts K) (ix : ParIndex) (g : Globals K)
    (i : Int) (a : Nat → K) (tvar : K) : K :=
  let f : K := 0
  let n : Int := Ceil ((tvar - c.tBac) / c.tCap)
  let f := if i = 1 then
    f + g.ampW1 * SigmaW Exp c (a ix.rho) g.tT1 g.tU1 n
      * Exp (-(tvar - c.tBac - ((n - 1 : Int) : K) * c.tCap) / g.tU1) else f
  let f := if i = 2 then
    f + g.ampW2 * SigmaW Exp c (a ix.rho) g.tT2 g.tU2 n
      * Exp (-(tvar - c.tBac - ((n - 1 : Int) : K) * c.tCap) / g.tU2) else f
  let f := if i = 3 then
    f + g.ampW3 * SigmaW Exp c (a ix.rho) g.tT3 g.tU3 n
      * Exp (-(tvar - c.tBac - ((n - 1 : Int) : K) * c.tCap) / g.tU3) else f
  f

/-- The function `Wtot (i, a, tvar)`. -/
def Wtot (Exp : K → K) (c : CaseConsts K) (ix : ParIndex) (g : Globals K)
    (i : Int) (a : Nat → K) (tvar : K) : K :=
  let f : K := 0
  let f := if 0 ≤ tvar ∧ tvar ≤ c.tCyc then
      let f := if i = 1 then f + g.W10 * Exp (-tvar / g.tU1) else f
      let f := if i = 2 then f + g.W20 * Exp (-tvar / g.tU2) else f
      let f := if i = 3 then f + g.W30 * Exp (-tvar / g.tU3) else f
      f
    else f
  let f := if c.tBac ≤ tvar ∧ tvar ≤ c.tCyc then f + Wcap Exp c ix g i a tvar else f
  f

/-- The function `Zcap (i, a, tvar)`. -/
def Zcap (Exp : K → K) (c : CaseConsts K) (ix : ParIndex) (g : Globals K)
    (i : Int) (a : Nat → K) (tvar : K) : K :=
  let f : K := 0
  let n : Int := Ceil ((tvar - c.tBac) / c.tCap)
  let f := if i = 1 then
    f + g.ampZ1 * ( (SigmaZ Exp c (a ix.rho) g.tT1 g.tU1 n + SigmaT Exp c (a ix.rho) g.tT1 n)
          * Exp (-(tvar - c.tBac - ((n - 1 : Int) : K) * c.tCap) / g.tU1)
        - SigmaT Exp c (a ix.rho) g.tT1 n
          * Exp (-(tvar - c.tBac - ((n - 1 : Int) : K) * c.tCap) / g.tT1) ) else f
  let f := if i = 2 then
    f + g.ampZ2 * ( (SigmaZ Exp c (a ix.rho) g.tT2 g.tU2 n + SigmaT Exp c (a ix.rho) g.tT2 n)
          * Exp (-(tvar - c.tBac - ((n - 1 : Int) : K) * c.tCap) / g.tU2)
        - SigmaT Exp c (a ix.rho) g.tT2 n
          * Exp (-(tvar - c.tBac - ((n - 1 : Int) : K) * c.tCap) / g.tT2) ) else f
  let f := if i = 3 then
    f + g.ampZ3 * ( (SigmaZ Exp c (a ix.rho) g.tT3 g.tU3 n + SigmaT Exp c (a ix.rho) g.tT3 n)
          * Exp (-(tvar - c.tBac - ((n - 1 : Int) : K) * c.tCap) / g.tU3)
        - SigmaT Exp c (a ix.rho) g.tT3 n
          * Exp (-(tvar - c.tBac - ((n - 1 : Int) : K) * c.tCap) / g.tT3) ) else f
  f

/-- The function `Ztot (i, a, tvar)`. -/
def Ztot (Exp : K → K) (c : CaseConsts K) (ix : ParIndex) (g : Globals K)
    (i : Int) (a : Nat → K) (tvar : K) : K :=
  let f : K := 0
  let f := if 0 ≤ tvar ∧ tvar ≤ c.tCyc then
      let f := if i = 1 then f + g.Z10 * Exp (-tvar / g.tU1) else f
      let f := if i = 2 then f + g.Z20 * Exp (-tvar / g.tU2) else f
      let f := if i = 3 then f + g.Z30 * Exp (-tvar / g.tU3) else f
      f
    else f
  let f := if c.tBac ≤ tvar ∧ tvar ≤ c.tCyc then f + Zcap Exp c ix g i a tvar else f
  f

/-- The function `Xcap (i, a, tvar)`. -/
def Xcap (Exp : K → K) (c : CaseConsts K) (ix : ParIndex) (g : Globals K)
    (i : Int) (a : Nat → K) (tvar : K) : K :=
  let f : K := 0
  let n : Int := Ceil ((tvar - c.tBac) / c.tCap)
  let f := if i = 2 then
    f + g.ampX2 * ( (SigmaZ Exp c (a ix.rho) g.tT1 g.tU2 n + SigmaT Exp c (a ix.rho) g.tT1 n)
          * Exp (-(tvar - c.tBac - ((n - 1 : Int) : K) * c.tCap) / g.tU2)
        - SigmaT Exp c (a ix.rho) g.tT1 n
          * Exp (-(tvar - c.tBac - ((n - 1 : Int) : K) * c.tCap) / g.tT1) ) else f
  let f := if i = 3 then
    f + g.ampX3 * ( (SigmaZ Exp c (a ix.rho) g.tT2 g.tU3 n + SigmaT Exp c (a ix.rho) g.tT2 n)
          * Exp (-(tvar - c.tBac - ((n - 1 : Int) : K) * c.tCap) / g.tU3)
        - SigmaT Exp c (a ix.rho) g.tT2 n
          * Exp (-(tvar - c.tBac - ((n - 1 : Int) : K) * c.tCap) / g.tT2) ) else f
  f

/-- The function `Xtot (i, a, tvar)`. -/
def Xtot (Exp : K → K) (c : CaseConsts K) (ix : ParIndex) (g : Globals K)
    (i : Int) (a : Nat → K) (tvar : K) : K :=
  let f : K := 0
  let f := if 0 ≤ tvar ∧ tvar ≤ c.tCyc then
      let f := if i = 2 then f + g.X20 * Exp (-tvar / g.tU2) else f
      let f := if i = 3 then f + g.X30 * Exp (-tvar / g.tU3) else f
      f
    else f
  let f := if c.tBac ≤ tvar ∧ tvar ≤ c.tCyc then f + Xcap Exp c ix g i a tvar else f
  f

/-- The function `Y2Background (u10, u20, tvar)`. -/
def Y2Background (Exp : K → K) (c : CaseConsts K) (g : Globals K)
    (u10 u20 tvar : K) : K :=
  u20 * Exp (-tvar / g.tU2)
    + u10 * g.tU1 / c.t1 * g.tU2 / (g.tU2 - g.tU1) * ( Exp (-tvar / g.tU2) - Exp (-tvar / g.tU1) )

/-- The function `Y3Background (u10, u20, u30, tvar)`. -/
def Y3Background (Exp : K → K) (c : CaseConsts K) (g : Globals K)
    (u10 u20 u30 tvar : K) : K :=
  u30 * Exp (-tvar / g.tU3)
    + u20 * g.tU2 / c.t2 * g.tU3 / (g.tU3 - g.tU2) * ( Exp (-tvar / g.tU3) - Exp (-tvar / g.tU2) )
    + u10 * g.tU1 / c.t1 * g.tU2 / c.t2 * g.tU3 / g.ThetaU
        * ( g.cYU1 * Exp (-tvar / g.tU1) - g.cYU2 * Exp (-tvar / g.tU2)
            + g.cYU3 * Exp (-tvar / g.tU3) )

/-- The function `Y2InitialValue (tvar, a, t0, y0)`. -/
def Y2InitialValue (Exp : K → K) (c : CaseConsts K) (ix : ParIndex) (g : Globals K)
    (tvar : K) (a : Nat → K) (t0 y0 : K) : K :=
  let tk := tvar - t0
  let A := g.ampY2ptA * g.ST1_1cap
    * (g.cT1 * Exp (-tk / g.tT1) - g.cU1 * Exp (-tk / g.tU1) + g.cU2 * Exp (-tk / g.tU2))
  let B := ( (1 - a ix.p) * SigmaT Exp c (a ix.rho) g.tT1 1
      + a ix.p * (1 - a ix.rho) * SigmaW Exp c (a ix.rho) g.tT1 g.tU1 1
      + a ix.p * (a ix.gammaT1 + c.iota) / (a ix.gammaT1 - a ix.gammaU1 + c.iota)
          * SigmaZ Exp c (a ix.rho) g.tT1 g.tU1 1 )
    * ( Exp (-tk / g.tU2) - Exp (-tk / g.tU1) )
  let f := g.ampY2ptB * (A + B)
  y0 * Exp (-tk / g.tU2) + f

/-- The function `Y3InitialValue (tvar, a, t0, y0)`. -/
def Y3InitialValue (Exp : K → K) (_c : CaseConsts K) (ix : ParIndex) (g : Globals K)
    (tvar : K) (a : Nat → K) (t0 _y0 : K) : K :=
  let tx := tvar - t0
  let eT1 := Exp (-tx / g.tT1)
  let eT2 := Exp (-tx / g.tT2)
  let eU1 := Exp (-tx / g.tU1)
  let eU2 := Exp (-tx / g.tU2)
  let eU3 := Exp (-tx / g.tU3)
  let V := g.ampY3fromV2 * g.ST2_1cap * (eU3 - eU2)
  let W := g.ampY3fromW2 * g.SW22_1cap * (eU3 - eU2)
  let Z := g.ampY3fromZ2
    * ( (g.ST2_1cap / g.cZU2) * ( g.cZT2 * eT2 - g.cZU2 * eU2 + g.cZU3 * eU3 ) )
  let X := g.ampY3fromX2
    * ( (g.ST1_1cap / g.cXU2) * ( g.cXT1 * eT1 - g.cXU2 * eU2 + g.cXU3 * eU3 ) )
  let Y := g.ampY3fromY2_ST1 * g.ST1_1cap * 0.001 * (
      - eT1 * g.tT1 * g.tT1 * (g.tU3 - g.tU2) * (g.tU3 - g.tU1) * (g.tU2 - g.tU1)
          * a ix.p * a ix.gammaT1
      + eU1 * g.tU1 * g.tU1 * (g.tU3 - g.tU2) * (g.tU3 - g.tT1) * (g.tU2 - g.tT1)
          * (a ix.gammaT1 - (1 - a ix.p) * a ix.gammaU1)
      - eU2 * g.tU2 * (g.tU3 - g.tU1) * (g.tU3 - g.tT1)
          * ( (a ix.gammaT1) * (g.tU1 * g.tU2 - g.tT1 * (a ix.p * g.tU2 + (1 - a ix.p) * g.tU1))
              - (a ix.gammaU1) * (1 - a ix.p) * g.tU1 * (g.tU2 - g.tT1) )
      + eU3 * g.tU3 * (g.tU2 - g.tU1) * (g.tU2 - g.tT1)
          * ( (a ix.gammaT1) * (g.tU1 * g.tU3 - g.tT1 * (a ix.p * g.tU3 + (1 - a ix.p) * g.tU1))
              - (a ix.gammaU1) * (1 - a ix.p) * g.tU1 * (g.tU3 - g.tT1) ) )
  V + W + X + Y + Z

/-- The local `W` of `Y3InitialValue (tvar, a, t0, y0)`: the feeding from the
W population of generation 2. -/
def Y3InitialValue_W (Exp : K → K) (g : Globals K) (tvar t0 : K) : K :=
  let tx := tvar - t0
  let eU2 := Exp (-tx / g.tU2)
  let eU3 := Exp (-tx / g.tU3)
  g.ampY3fromW2 * g.SW22_1cap * (eU3 - eU2)

/-- The loop `for (k=1; k<=n; k++) f += body (k)` of `Ycap`, entered with the
counter `k` and the sum `f` after `iters` iterations: the sum and the number
of iterations when the loop is left. -/
def Ycap_loop (body : Int → K) (n : Int) (k : Int) (f : K) (iters : Nat) : K × Nat :=
  if h : k ≤ n then Ycap_loop body n (k + 1) (f + body k) (iters + 1) else (f, iters)
termination_by (n + 1 - k).toNat
decreasing_by omega

/-- The function `Ycap (i, a, tvar)`: the loop `for (k=1; k<=n; k++)` runs over
`k = j + 1` for `j = 0, ..., n - 1`. -/
def Ycap (Exp : K → K) (c : CaseConsts K) (ix : ParIndex) (g : Globals K)
    (i : Int) (a : Nat → K) (tvar : K) : K :=
  let f : K := 0
  let n : Int := Ceil ((tvar - c.tBac) / c.tCap)
  let f := if i = 2 then
    (List.range n.toNat).foldl (fun f j =>
      let k : Int := (j : Int) + 1
      let tk := c.tBac + ((k - 1 : Int) : K) * c.tCap
      f + Y2InitialValue Exp c ix g tvar a tk 0) f
    else f
  let f := if i = 3 then
    (List.range n.toNat).foldl (fun f j =>
      let k : Int := (j : Int) + 1
      let tk := c.tBac + ((k - 1 : Int) : K) * c.tCap
      f + Y3InitialValue Exp c ix g tvar a tk 0) f
    else f
  f

/-- The function `Ytot (i, a, tvar)`. -/
def Ytot (Exp : K → K) (c : CaseConsts K) (ix : ParIndex) (g : Globals K)
    (i : Int) (a : Nat → K) (tvar : K) : K :=
  let f : K := 0
  let f := if 0 ≤ tvar ∧ tvar ≤ c.tCyc then
      let f := if i = 2 then f + Y2Background Exp c g g.U10 g.Y20 tvar else f
      let f := if i = 3 then f + Y3Background Exp c g g.U10 g.U20 g.Y30 tvar else f
      f
    else f
  let f := if c.tBac ≤ tvar ∧ tvar ≤ c.tCyc then f + Ycap Exp c ix g i a tvar else f
  f

/-- The function `Utot (i, a, tvar)`. -/
def Utot (Exp : K → K) (c : CaseConsts K) (ix : ParIndex) (g : Globals K)
    (i : Int) (a : Nat → K) (tvar : K) : K :=
  let f : K := 0
  if c.tBac ≤ tvar ∧ tvar ≤ c.tCyc then
    let f := if i = 1 then
      Vtot Exp c g 1 a tvar + Wtot Exp c ix g 1 a tvar + Ztot Exp c ix g 1 a tvar else f
    let f := if i = 2 then
      Vtot Exp c g 2 a tvar + Wtot Exp c ix g 2 a tvar + Ztot Exp c ix g 2 a tvar
        + Xtot Exp c ix g 2 a tvar + Ytot Exp c ix g 2 a tvar else f
    let f := if i = 3 then
      Vtot Exp c g 3 a tvar + Wtot Exp c ix g 3 a tvar + Ztot Exp c ix g 3 a tvar
        + Xtot Exp c ix g 3 a tvar + Ytot Exp c ix g 3 a tvar else f
    f
  else f

/-- The function `Ucap (i, a, tvar)`. -/
def Ucap (Exp : K → K) (c : CaseConsts K) (ix : ParIndex) (g : Globals K)
    (i : Int) (a : Nat → K) (tvar : K) : K :=
  let f : K := 0
  let f := if i = 1 then
    Vcap Exp c g 1 a tvar + Wcap Exp c ix g 1 a tvar + Zcap Exp c ix g 1 a tvar else f
  let f := if i = 2 then
    Vcap Exp c g 2 a tvar + Wcap Exp c ix g 2 a tvar + Zcap Exp c ix g 2 a tvar
      + Xcap Exp c ix g 2 a tvar + Ycap Exp c ix g 2 a tvar else f
  let f := if i = 3 then
    Vcap Exp c g 3 a tvar + Wcap Exp c ix g 3 a tvar + Zcap Exp c ix g 3 a tvar
      + Xcap Exp c ix g 3 a tvar + Ycap Exp c ix g 3 a tvar else f
  f

/-- The function `ComputeParameterDependentVars (a)`.  The values assigned on lines 89 to
152 of the source are computed in the order of the source, each from the
array, the case constants and the values assigned before it, and are then
stored together; the initial values, which are computed by calls that read
the globals, are stored one at a time (`g.setV10 v` is the assignment
`V10 = v`).  `ThetaY` and `U30` are declared in
the source but left unassigned.  The array comes back with the special case
of `b134sbFlag` applied. -/
def ComputeParameterDependentVars (Exp : K → K) (c : CaseConsts K) (ix : ParIndex)
    (g : Globals K) (a : Nat → K) : Globals K × (Nat → K) :=
  -- Special cases:
  let a : Nat → K := if c.b134sbFlag then Function.update a ix.gammaT3 (a ix.gammaT2) else a
  -- Modified lifetimes:
  let tT1 : K := 1 / ( 1 / c.t1 + a ix.gammaT1 / 1000 )
  let tT2 : K := 1 / ( 1 / c.t2 + a ix.gammaT2 / 1000 )
  let tT3 : K := 1 / ( 1 / c.t3 + a ix.gammaT3 / 1000 )
  let tU1 : K := 1 / ( 1 / c.t1 + a ix.gammaU1 / 1000 )
  let tU2 : K := 1 / ( 1 / c.t2 + a ix.gammaU2 / 1000 )
  let tU3 : K := 1 / ( 1 / c.t3 + a ix.gammaU3 / 1000 )
  let cT1 : K := tT1 * (tU2 - tU1)
  let cU1 : K := tU1 * (tU2 - tT1)
  let cU2 : K := tU2 * (tU1 - tT1)
  let cZT2 : K := tT2 * (tU3 - tU2)
  let cZU2 : K := tU2 * (tU3 - tT2)
  let cZU3 : K := tU3 * (tU2 - tT2)
  let cXT1 : K := tT1 * (tU3 - tU2)
  let cXU2 : K := tU2 * (tU3 - tT1)
  let cXU3 : K := tU3 * (tU2 - tT1)
  let cYU1 : K := tU1 * (tU3 - tU2)
  let cYU2 : K := tU2 * (tU3 - tU1)
  let cYU3 : K := tU3 * (tU2 - tU1)
  let ThetaU : K := (tU3 - tU2) * (tU3 - tU1) * (tU2 - tU1)
  let ST1_1cap : K := SigmaT Exp c (a ix.rho) tT1 1
  let ST2_1cap : K := SigmaT Exp c (a ix.rho) tT2 1
  let SW11_1cap : K := SigmaW Exp c (a ix.rho) tT1 tU1 1
  let SW22_1cap : K := SigmaW Exp c (a ix.rho) tT2 tU2 1
  let SZ11_1cap : K := SigmaZ Exp c (a ix.rho) tT1 tU1 1
  let SZ12_1cap : K := SigmaZ Exp c (a ix.rho) tT1 tU2 1
  let SZ22_1cap : K := SigmaZ Exp c (a ix.rho) tT2 tU2 1
  let ampT1 : K := a ix.r1 * c.tCap * a ix.p
  let ampT2 : K := a ix.r2 * c.tCap * a ix.p
  let ampT3 : K := a ix.r3 * c.tCap * a ix.p
  let ampV1 : K := a ix.r1 * c.tCap * (1 - a ix.p)
  let ampV2 : K := a ix.r2 * c.tCap * (1 - a ix.p)
  let ampV3 : K := a ix.r3 * c.tCap * (1 - a ix.p)
  let ampW1 : K := a ix.r1 * c.tCap * (1 - a ix.rho) * a ix.p
  let ampW2 : K := a ix.r2 * c.tCap * (1 - a ix.rho) * a ix.p
  let ampW3 : K := a ix.r3 * c.tCap * (1 - a ix.rho) * a ix.p
  let ampZ1 : K := a ix.r1 * c.tCap * a ix.p * (a ix.gammaT1 + c.iota)
    / ((a ix.gammaT1 - a ix.gammaU1) + c.iota)
  let ampZ2 : K := a ix.r2 * c.tCap * a ix.p * (a ix.gammaT2 + c.iota)
    / ((a ix.gammaT2 - a ix.gammaU2) + c.iota)
  let ampZ3 : K := a ix.r3 * c.tCap * a ix.p * (a ix.gammaT3 + c.iota)
    / ((a ix.gammaT3 - a ix.gammaU3) + c.iota)
  let ampX2 : K := a ix.r1 * c.tCap * a ix.p * (1 / c.t1) * (tT1 * tU2 / (tU2 - tT1))
  let ampX3 : K := a ix.r2 * c.tCap * a ix.p * (1 / c.t2) * (tT2 * tU3 / (tU3 - tT2))
  let ampY2ptA : K := a ix.p * (a ix.gammaT1 + c.iota) / (a ix.gammaT1 - a ix.gammaU1 + c.iota)
    / tU1 / (tU2 - tT1)
  let ampY2ptB : K := a ix.r1 * (c.tCap / c.t1) * tU1 * tU2 / (tU2 - tU1)
  let ampY3fromV2 : K := a ix.r2 * (c.tCap / c.t2) * tU2 * tU3 / (tU3 - tU2) * (1 - a ix.p)
  let ampY3fromW2 : K := a ix.r2 * (c.tCap / c.t2) * tU2 * tU3 / (tU3 - tU2) * a ix.p
    * (1 - a ix.rho)
  let ampY3fromZ2 : K := a ix.r2 * (c.tCap / c.t2) * tU2 * tU3 / (tU3 - tU2) * a ix.p
    * (a ix.gammaT2 + c.iota) / (a ix.gammaT2 - a ix.gammaU2 + c.iota)
  let ampY3fromX2 : K := a ix.r1 * (c.tCap / c.t2) * tU2 * tU3 / (tU3 - tU2) * a ix.p
    * tT1 * tU2 / (tU2 - tT1) / c.t1
  let ampY3fromY2_ST1 : K := a ix.r1 * (c.tCap / c.t2) * tU1 * tU2 * tU3 / ThetaU / c.t1
    * (a ix.gammaT1 + c.iota) / (a ix.gammaT1 - a ix.gammaU1 + c.iota) / tU1
    / (a ix.gammaT1 / 1000 + c.iota) / (tU3 - tT1) / (tU2 - tT1)
  let ampY3fromY2_SW11 : K := a ix.r1 * (c.tCap / c.t2) * tU1 * tU2 * tU3 / ThetaU / c.t1
    * a ix.p * (1 - a ix.rho)
  let ampY3fromY2_SZ11 : K := a ix.r1 * (c.tCap / c.t2) * tU1 * tU2 * tU3 / ThetaU / c.t1
    * a ix.p * (a ix.gammaT1 + c.iota) / (a ix.gammaT1 - a ix.gammaU1 + c.iota)
  let eU1tCyc : K := Exp (-c.tCyc / tU1)
  let eU2tCyc : K := Exp (-c.tCyc / tU2)
  let eU3tCyc : K := Exp (-c.tCyc / tU3)
  let g : Globals K :=
    { g with
      tT1 := tT1, tT2 := tT2, tT3 := tT3, tU1 := tU1, tU2 := tU2, tU3 := tU3,
      cT1 := cT1, cU1 := cU1, cU2 := cU2, cZT2 := cZT2, cZU2 := cZU2, cZU3 := cZU3,
      cXT1 := cXT1, cXU2 := cXU2, cXU3 := cXU3, cYU1 := cYU1, cYU2 := cYU2, cYU3 := cYU3,
      ThetaU := ThetaU,
      ST1_1cap := ST1_1cap, ST2_1cap := ST2_1cap, SW11_1cap := SW11_1cap,
      SW22_1cap := SW22_1cap, SZ11_1cap := SZ11_1cap, SZ12_1cap := SZ12_1cap,
      SZ22_1cap := SZ22_1cap,
      ampT1 := ampT1, ampT2 := ampT2, ampT3 := ampT3,
      ampV1 := ampV1, ampV2 := ampV2, ampV3 := ampV3,
      ampW1 := ampW1, ampW2 := ampW2, ampW3 := ampW3,
      ampZ1 := ampZ1, ampZ2 := ampZ2, ampZ3 := ampZ3,
      ampX2 := ampX2, ampX3 := ampX3,
      ampY2ptA := ampY2ptA, ampY2ptB := ampY2ptB,
      ampY3fromV2 := ampY3fromV2, ampY3fromW2 := ampY3fromW2,
      ampY3fromZ2 := ampY3fromZ2, ampY3fromX2 := ampY3fromX2,
      ampY3fromY2_ST1 := ampY3fromY2_ST1, ampY3fromY2_SW11 := ampY3fromY2_SW11,
      ampY3fromY2_SZ11 := ampY3fromY2_SZ11,
      eU1tCyc := eU1tCyc, eU2tCyc := eU2tCyc, eU3tCyc := eU3tCyc }
  -- Initial values of populations
  let g := g.setV10 (Vcap Exp c g 1 a c.tCyc / (1 - g.eU1tCyc))
  let g := g.setV20 (Vcap Exp c g 2 a c.tCyc / (1 - g.eU2tCyc))
  let g := g.setV30 (Vcap Exp c g 3 a c.tCyc / (1 - g.eU3tCyc))
  let g := g.setW10 (Wcap Exp c ix g 1 a c.tCyc / (1 - g.eU1tCyc))
  let g := g.setW20 (Wcap Exp c ix g 2 a c.tCyc / (1 - g.eU2tCyc))
  let g := g.setW30 (Wcap Exp c ix g 3 a c.tCyc / (1 - g.eU3tCyc))
  let g := g.setZ10 (Zcap Exp c ix g 1 a c.tCyc / (1 - g.eU1tCyc))
  let g := g.setZ20 (Zcap Exp c ix g 2 a c.tCyc / (1 - g.eU2tCyc))
  let g := g.setZ30 (Zcap Exp c ix g 3 a c.tCyc / (1 - g.eU3tCyc))
  let g := g.setX20 (Xcap Exp c ix g 2 a c.tCyc / (1 - g.eU2tCyc))
  let g := g.setX30 (Xcap Exp c ix g 3 a c.tCyc / (1 - g.eU3tCyc))
  let g := g.setU10 (( g.V10 + g.W10 + g.Z10 ))
  let g := g.setY20 (( Ycap Exp c ix g 2 a c.tCyc
      + g.U10 * g.tU1 / c.t1 * g.tU2 / (g.tU2 - g.tU1) * ( g.eU2tCyc - g.eU1tCyc ) )
    / ( 1 - g.eU2tCyc ))
  let g := g.setU20 (( g.V20 + g.W20 + g.Z20 + g.X20 + g.Y20 ))
  let g := g.setY30 (( Ycap Exp c ix g 3 a c.tCyc
      + g.U20 * g.tU2 / c.t2 * g.tU3 / (g.tU3 - g.tU2) * ( g.eU3tCyc - g.eU2tCyc )
      + g.U10 * g.tU1 / c.t1 * g.tU2 / c.t2 * g.tU3 / g.ThetaU
          * ( g.tU1 * (g.tU3 - g.tU2) * g.eU1tCyc - g.tU2 * (g.tU3 - g.tU1) * g.eU2tCyc
              + g.tU3 * (g.tU2 - g.tU1) * g.eU3tCyc ) )
    / ( 1 - g.eU3tCyc ))
  (g, a)

/-- The function `yDC (t, a)`. -/
def yDC (ix : ParIndex) (_t : K) (a : Nat → K) : K :=
  a ix.nCyc * a ix.dt * a ix.DC

/-- The function `yT (i, a, tvar)`. -/
def yT (Exp : K → K) (c : CaseConsts K) (ix : ParIndex) (g : Globals K)
    (i : Int) (a : Nat → K) (tvar : K) : K :=
  let f : K := 0
  let f := if i = 1 then a ix.nCyc * a ix.dt * a ix.epsT * Ttot Exp c ix g 1 a tvar / c.t1 else f
  let f := if i = 2 then a ix.nCyc * a ix.dt * a ix.epsT * Ttot Exp c ix g 2 a tvar / c.t2 else f
  let f := if i = 3 then a ix.nCyc * a ix.dt * a ix.epsT * Ttot Exp c ix g 3 a tvar / c.t3 else f
  f

/-- The function `yU (i, a, tvar)`. -/
def yU (Exp : K → K) (c : CaseConsts K) (ix : ParIndex) (g : Globals K)
    (i : Int) (a : Nat → K) (tvar : K) : K :=
  let f : K := 0
  let f := if i = 1 then
    a ix.nCyc * a ix.dt * ( a ix.epsV * Vtot Exp c g 1 a tvar + a ix.epsW * Wtot Exp c ix g 1 a tvar
      + a ix.epsZ * Ztot Exp c ix g 1 a tvar ) / c.t1 else f
  let f := if i = 2 then
    a ix.nCyc * a ix.dt * ( a ix.epsV * Vtot Exp c g 2 a tvar + a ix.epsW * Wtot Exp c ix g 2 a tvar
      + a ix.epsZ * Ztot Exp c ix g 2 a tvar + a ix.epsX * Xtot Exp c ix g 2 a tvar
      + a ix.epsY * Ytot Exp c ix g 2 a tvar ) / c.t2 else f
  let f := if i = 3 then
    a ix.nCyc * a ix.dt * ( a ix.epsV * Vtot Exp c g 3 a tvar + a ix.epsW * Wtot Exp c ix g 3 a tvar
      + a ix.epsZ * Ztot Exp c ix g 3 a tvar + a ix.epsX * Xtot Exp c ix g 3 a tvar
      + a ix.epsY * Ytot Exp c ix g 3 a tvar ) / c.t3 else f
  f

/-- The function `yT1 (t, a)`. -/
def yT1 (Exp : K → K) (c : CaseConsts K) (ix : ParIndex) (g : Globals K)
    (t : K) (a : Nat → K) : K := yT Exp c ix g 1 a t

/-- The function `yT2 (t, a)`. -/
def yT2 (Exp : K → K) (c : CaseConsts K) (ix : ParIndex) (g : Globals K)
    (t : K) (a : Nat → K) : K := yT Exp c ix g 2 a t

/-- The function `yT3 (t, a)`. -/
def yT3 (Exp : K → K) (c : CaseConsts K) (ix : ParIndex) (g : Globals K)
    (t : K) (a : Nat → K) : K := yT Exp c ix g 3 a t

/-- The function `yU1 (t, a)`. -/
def yU1 (Exp : K → K) (c : CaseConsts K) (ix : ParIndex) (g : Globals K)
    (t : K) (a : Nat → K) : K := yU Exp c ix g 1 a t

/-- The function `yU2 (t, a)`. -/
def yU2 (Exp : K → K) (c : CaseConsts K) (ix : ParIndex) (g : Globals K)
    (t : K) (a : Nat → K) : K := yU Exp c ix g 2 a t

/-- The function `yU3 (t, a)`. -/
def yU3 (Exp : K → K) (c : CaseConsts K) (ix : ParIndex) (g : Globals K)
    (t : K) (a : Nat → K) : K := yU Exp c ix g 3 a t

/-- The function `yAll (t, a)`: the value returned, the globals and the caller's array
after the call. -/
def yAll (Exp : K → K) (c : CaseConsts K) (ix : ParIndex) (g : Globals K)
    (t : K) (a : Nat → K) : K × Globals K × (Nat → K) :=
  -- When parameters change:
  let ga : Globals K × (Nat → K) :=
    if !CompareParArrays a g.lastPar sizeof_Double_t c.iota then
      let ga := ComputeParameterDependentVars Exp c ix g a
      let g := ga.1
      let a := ga.2
      let g := g.setlastPar (fun i => if i < c.nPars then a i else g.lastPar i)
      let g := g.setnParChanges (g.nParChanges + 1)
      (g, a)
    else (g, a)
  let g := ga.1
  let a := ga.2
  -- Always:
  let f := yDC ix t a + yT1 Exp c ix g t a + yT2 Exp c ix g t a + yT3 Exp c ix g t a
    + yU1 Exp c ix g t a + yU2 Exp c ix g t a + yU3 Exp c ix g t a
  (f, g, a)

/-- The function `rDC (t, a)`. -/
def rDC (ix : ParIndex) (_t : K) (a : Nat → K) : K := a ix.DC

/-- The function `rT1 (t, a)`. -/
def rT1 (Exp : K → K) (c : CaseConsts K) (ix : ParIndex) (g : Globals K)
    (t : K) (a : Nat → K) : K := a ix.epsT * Ttot Exp c ix g 1 a t / c.t1

/-- The function `rT2 (t, a)`. -/
def rT2 (Exp : K → K) (c : CaseConsts K) (ix : ParIndex) (g : Globals K)
    (t : K) (a : Nat → K) : K := a ix.epsT * Ttot Exp c ix g 2 a t / c.t2

/-- The function `rT3 (t, a)`. -/
def rT3 (Exp : K → K) (c : CaseConsts K) (ix : ParIndex) (g : Globals K)
    (t : K) (a : Nat → K) : K := a ix.epsT * Ttot Exp c ix g 3 a t / c.t3

/-- The function `rU1 (t, a)`. -/
def rU1 (Exp : K → K) (c : CaseConsts K) (ix : ParIndex) (g : Globals K)
    (t : K) (a : Nat → K) : K :=
  (a ix.epsV * Vtot Exp c g 1 a t + a ix.epsW * Wtot Exp c ix g 1 a t
    + a ix.epsZ * Ztot Exp c ix g 1 a t) / c.t1

/-- The function `rU2 (t, a)`. -/
def rU2 (Exp : K → K) (c : CaseConsts K) (ix : ParIndex) (g : Globals K)
    (t : K) (a : Nat → K) : K :=
  (a ix.epsV * Vtot Exp c g 2 a t + a ix.epsW * Wtot Exp c ix g 2 a t
    + a ix.epsZ * Ztot Exp c ix g 2 a t + a ix.epsX * Xtot Exp c ix g 2 a t
    + a ix.epsY * Ytot Exp c ix g 2 a t) / c.t2

/-- The function `rU3 (t, a)`. -/
def rU3 (Exp : K → K) (c : CaseConsts K) (ix : ParIndex) (g : Globals K)
    (t : K) (a : Nat → K) : K :=
  (a ix.epsV * Vtot Exp c g 3 a t + a ix.epsW * Wtot Exp c ix g 3 a t
    + a ix.epsZ * Ztot Exp c ix g 3 a t + a ix.epsX * Xtot Exp c ix g 3 a t
    + a ix.epsY * Ytot Exp c ix g 3 a t) / c.t3

/-- The function `rAll (t, a)`. -/
def rAll (Exp : K → K) (c : CaseConsts K) (ix : ParIndex) (g : Globals K)
    (t : K) (a : Nat → K) : K :=
  a ix.DC + rT1 Exp c ix g t a + rT2 Exp c ix g t a + rT3 Exp c ix g t a
    + rU1 Exp c ix g t a + rU2 Exp c ix g t a + rU3 Exp c ix g t a

/-- A layout of twenty slots: the names in the order `nCyc, dt, DC, r1, r2, r3,
p, rho`, the six efficiencies, the six rate shifts. -/
def demoLayout : ParIndex :=
  { nCyc := 0, dt := 1, DC := 2, r1 := 3, r2 := 4, r3 := 5, p := 6, rho := 7,
    epsT := 8, epsV := 9, epsW := 10, epsZ := 11, epsX := 12, epsY := 13,
    gammaT1 := 14, gammaT2 := 15, gammaT3 := 16,
    gammaU1 := 17, gammaU2 := 18, gammaU3 := 19 }

/-- Case constants with the timing of the case `137i07` (in ms), lifetimes of
3.6 s, 35.3 s and 330.5 s, and a small regularization constant. -/
def demoCase (K : Type) [LinearOrderedField K] : CaseConsts K :=
  { iota := 1 / 1000000, tCap := 6000, tBac := 101000, tCyc := 246000,
    t1 := 3600, t2 := 35300, t3 := 330500, b134sbFlag := false, nPars := 20 }

/-- The case constants `demoCase` with another nominal lifetime of the first
generation. -/
def demoCaseT1 (K : Type) [LinearOrderedField K] (t1 : K) : CaseConsts K :=
  { demoCase K with t1 := t1 }

/-- Globals as they are when the program starts: every number is zero. -/
def zeroGlobals (K : Type) [LinearOrderedField K] : Globals K :=
  { tT1 := 0, tT2 := 0, tT3 := 0, tU1 := 0, tU2 := 0, tU3 := 0,
    cT1 := 0, cU1 := 0, cU2 := 0, cZT2 := 0, cZU2 := 0, cZU3 := 0,
    cXT1 := 0, cXU2 := 0, cXU3 := 0, cYU1 := 0, cYU2 := 0, cYU3 := 0,
    ThetaU := 0, ThetaY := 0, ST1_1cap := 0, SW11_1cap := 0, SZ11_1cap := 0, ST2_1cap := 0,
    SW22_1cap := 0, SZ12_1cap := 0, SZ22_1cap := 0, ampT1 := 0, ampT2 := 0, ampT3 := 0,
    ampV1 := 0, ampV2 := 0, ampV3 := 0, ampW1 := 0, ampW2 := 0, ampW3 := 0,
    ampZ1 := 0, ampZ2 := 0, ampZ3 := 0, ampX2 := 0, ampX3 := 0, ampY2ptA := 0,
    ampY2ptB := 0, ampY3fromV2 := 0, ampY3fromW2 := 0, ampY3fromZ2 := 0, ampY3fromX2 := 0, ampY3fromY2_ST1 := 0,
    ampY3fromY2_SW11 := 0, ampY3fromY2_SZ11 := 0, eU1tCyc := 0, eU2tCyc := 0, eU3tCyc := 0, V10 := 0,
    V20 := 0, V30 := 0, W10 := 0, W20 := 0, W30 := 0, Z10 := 0,
    Z20 := 0, Z30 := 0, X20 := 0, X30 := 0, Y20 := 0, Y30 := 0,
    U10 := 0, U20 := 0, U30 := 0,
    lastPar := fun _ => 0, nParChanges := 0 }

/-- A parameter array on `demoLayout`: `nCyc = 1`, `dt = 1`, `DC = 0`,
production rates `1`, `p = 1 / 2`, `rho = 1 / 2`, efficiencies `1`, rate
shifts `0`. -/
def demoPar (K : Type) [LinearOrderedField K] : Nat → K := fun i =>
  if i < 2 then 1 else if i < 3 then 0 else if i < 6 then 1 else if i < 8 then 1 / 2
  else if i < 14 then 1 else 0

/-- A parameter array on `demoLayout` with `nCyc = 1`, `dt = 1`, `epsT = 1`
and every other slot `0`: no production, and only the trapped populations
are detected. -/
def quietPar (K : Type) [LinearOrderedField K] : Nat → K := fun i =>
  if i < 2 then 1 else if i = 8 then 1 else 0

end Model

end BFitNamespace

/-! ### The case table of `bdn_cases.cxx` -/

/-- Modelled from the spec: the record type `bdn_case_t` is declared in
`include/bdn_cases.h`, which is not among the sources.  Its fields are taken
from the comments with which the initializer of `bdn_cases` names them, in
that order; a `char *` is a string or the null pointer, and each half-life
is the pair of its value and its uncertainty. -/
structure bdn_case_t (K : Type) where
  code : Option String
  file : Option String
  species1 : Option String
  species2 : Option String
  species3 : Option String
  T_capt : K
  T_last : K
  T_bkgd : K
  T_cycle : K
  halflife1 : K × K
  halflife2 : K × K
  halflife3 : K × K

/-- The table `bdn_cases`: the case `137i07` and the null record that ends
the array. -/
def bdn_cases (K : Type) [LinearOrderedField K] : List (bdn_case_t K) :=
  [ { code := some "137i07",
      file := some "B_monte_carlo_feeding_lifetime_1.root",
      species1 := some "137-Te",
      species2 := some "137-I",
      species3 := some "137-Xe",
      T_capt := 6000.0,
      T_last := 1000.0,
      T_bkgd := 101000.0,
      T_cycle := 246000.0,
      halflife1 := (1000.0 * 2.49, 1000.0 * 0.05),
      halflife2 := (1000.0 * 24.5, 1000.0 * 0.20),
      halflife3 := (60.0 * 1000.0 * 3.818, 60.0 * 1000.0 * 0.013) },
    { code := none, file := none, species1 := none, species2 := none, species3 := none,
      T_capt := 0, T_last := 0, T_bkgd := 0, T_cycle := 0,
      halflife1 := (0, 0), halflife2 := (0, 0), halflife3 := (0, 0) } ]

namespace BFitNamespace

/-! ## Helper lemmas -/

theorem Power_natCast {K : Type} [LinearOrderedField K] (x : K) (n : Nat) :
    Power x (n : Int) = x ^ n := by
  simp [Power]

theorem SigmaT_natCast {K : Type} [LinearOrderedField K] (Exp : K → K) (c : CaseConsts K)
    (rho tau : K) (n : Nat) :
    SigmaT Exp c rho tau (n : Int)
      = (1 - (rho * Exp (-c.tCap / tau)) ^ n) / (1 - rho * Exp (-c.tCap / tau)) := by
  simp [SigmaT, Power]

theorem SigmaT_eq_geom_sum {K : Type} [LinearOrderedField K] (Exp : K → K) (c : CaseConsts K)
    (rho tau : K) (n : Nat) (h : rho * Exp (-c.tCap / tau) ≠ 1) :
    SigmaT Exp c rho tau (n : Int)
      = ∑ k in Finset.range n, (rho * Exp (-c.tCap / tau)) ^ k := by
  rw [SigmaT_natCast, geom_sum_eq h, ← neg_div_neg_eq]
  congr 1 <;> ring

/-! ### What `ComputeParameterDependentVars` stores -/

section Stored

variable {K : Type} [LinearOrderedField K] [FloorRing K]
  (Exp : K → K) (c : CaseConsts K) (ix : ParIndex) (g : Globals K) (a : Nat → K)

theorem CPDV_array :
    (ComputeParameterDependentVars Exp c ix g a).2
      = if c.b134sbFlag then Function.update a ix.gammaT3 (a ix.gammaT2) else a := rfl

theorem CPDV_tU1 :
    (ComputeParameterDependentVars Exp c ix g a).1.tU1
      = 1 / (1 / c.t1 + (ComputeParameterDependentVars Exp c ix g a).2 ix.gammaU1 / 1000) := rfl

theorem CPDV_tU2 :
    (ComputeParameterDependentVars Exp c ix g a).1.tU2
      = 1 / (1 / c.t2 + (ComputeParameterDependentVars Exp c ix g a).2 ix.gammaU2 / 1000) := rfl

theorem CPDV_tU3 :
    (ComputeParameterDependentVars Exp c ix g a).1.tU3
      = 1 / (1 / c.t3 + (ComputeParameterDependentVars Exp c ix g a).2 ix.gammaU3 / 1000) := rfl

/-- The initial values of the populations with a closed form, as the run
stores them, written with the globals and the array it leaves behind. -/
theorem CPDV_initial_values (g' : Globals K) (a' : Nat → K)
    (hrun : ComputeParameterDependentVars Exp c ix g a = (g', a')) :
    g'.V10 = Vcap Exp c g' 1 a' c.tCyc / (1 - Exp (-c.tCyc / g'.tU1))
    ∧ g'.V20 = Vcap Exp c g' 2 a' c.tCyc / (1 - Exp (-c.tCyc / g'.tU2))
    ∧ g'.V30 = Vcap Exp c g' 3 a' c.tCyc / (1 - Exp (-c.tCyc / g'.tU3))
    ∧ g'.W10 = Wcap Exp c ix g' 1 a' c.tCyc / (1 - Exp (-c.tCyc / g'.tU1))
    ∧ g'.W20 = Wcap Exp c ix g' 2 a' c.tCyc / (1 - Exp (-c.tCyc / g'.tU2))
    ∧ g'.W30 = Wcap Exp c ix g' 3 a' c.tCyc / (1 - Exp (-c.tCyc / g'.tU3))
    ∧ g'.Z10 = Zcap Exp c ix g' 1 a' c.tCyc / (1 - Exp (-c.tCyc / g'.tU1))
    ∧ g'.Z20 = Zcap Exp c ix g' 2 a' c.tCyc / (1 - Exp (-c.tCyc / g'.tU2))
    ∧ g'.Z30 = Zcap Exp c ix g' 3 a' c.tCyc / (1 - Exp (-c.tCyc / g'.tU3))
    ∧ g'.X20 = Xcap Exp c ix g' 2 a' c.tCyc / (1 - Exp (-c.tCyc / g'.tU2))
    ∧ g'.X30 = Xcap Exp c ix g' 3 a' c.tCyc / (1 - Exp (-c.tCyc / g'.tU3)) := by
  obtain rfl : g' = (ComputeParameterDependentVars Exp c ix g a).1 := by rw [hrun]
  obtain rfl : a' = (ComputeParameterDependentVars Exp c ix g a).2 := by rw [hrun]
  exact ⟨rfl, rfl, rfl, rfl, rfl, rfl, rfl, rfl, rfl, rfl, rfl⟩

/-- The initial values of the feeding populations, as the run stores them. -/
theorem CPDV_feeding_values (g' : Globals K) (a' : Nat → K)
    (hrun : ComputeParameterDependentVars Exp c ix g a = (g', a')) :
    g'.U10 = g'.V10 + g'.W10 + g'.Z10
    ∧ g'.Y20 = ( Ycap Exp c ix g' 2 a' c.tCyc
          + g'.U10 * g'.tU1 / c.t1 * g'.tU2 / (g'.tU2 - g'.tU1)
              * ( Exp (-c.tCyc / g'.tU2) - Exp (-c.tCyc / g'.tU1) ) )
        / ( 1 - Exp (-c.tCyc / g'.tU2) )
    ∧ g'.U20 = g'.V20 + g'.W20 + g'.Z20 + g'.X20 + g'.Y20
    ∧ g'.Y30 = ( Ycap Exp c ix g' 3 a' c.tCyc
          + g'.U20 * g'.tU2 / c.t2 * g'.tU3 / (g'.tU3 - g'.tU2)
              * ( Exp (-c.tCyc / g'.tU3) - Exp (-c.tCyc / g'.tU2) )
          + g'.U10 * g'.tU1 / c.t1 * g'.tU2 / c.t2 * g'.tU3 / g'.ThetaU
              * ( g'.cYU1 * Exp (-c.tCyc / g'.tU1) - g'.cYU2 * Exp (-c.tCyc / g'.tU2)
                  + g'.cYU3 * Exp (-c.tCyc / g'.tU3) ) )
        / ( 1 - Exp (-c.tCyc / g'.tU3) )
    ∧ g'.cYU1 = g'.tU1 * (g'.tU3 - g'.tU2)
    ∧ g'.cYU2 = g'.tU2 * (g'.tU3 - g'.tU1)
    ∧ g'.cYU3 = g'.tU3 * (g'.tU2 - g'.tU1) := by
  obtain rfl : g' = (ComputeParameterDependentVars Exp c ix g a).1 := by rw [hrun]
  obtain rfl : a' = (ComputeParameterDependentVars Exp c ix g a).2 := by rw [hrun]
  exact ⟨rfl, rfl, rfl, rfl, rfl, rfl, rfl⟩

end Stored

/-! ### The change check and the two branches of `yAll` -/

theorem CompareParArrays_eq_true_iff {K : Type} [LinearOrderedField K]
    (par1 par2 : Nat → K) (n : Nat) (eps : K) :
    CompareParArrays par1 par2 n eps = true ↔ ∀ i < n, |par1 i - par2 i| ≤ eps := by
  simp [CompareParArrays, List.all_eq_true]

theorem CompareParArrays_eq_false_iff {K : Type} [LinearOrderedField K]
    (par1 par2 : Nat → K) (n : Nat) (eps : K) :
    CompareParArrays par1 par2 n eps = false ↔ ∃ i < n, eps < |par1 i - par2 i| := by
  rw [← Bool.not_eq_true, CompareParArrays_eq_true_iff]
  push_neg
  rfl

theorem length_le_of_nodup_of_lt (l : List Nat) (n : Nat) (hl : l.Nodup) (h : ∀ i ∈ l, i < n) :
    l.length ≤ n := by
  have hsub : l.toFinset ⊆ Finset.range n := by
    intro i hi
    exact Finset.mem_range.2 (h i (List.mem_toFinset.1 hi))
  have := Finset.card_le_card hsub
  rwa [List.toFinset_card_of_nodup hl, Finset.card_range] at this

/-- An array that holds the twenty named slots has at least the eight
slots that the change check compares. -/
theorem ParIndex.Valid.sizeof_le (ix : ParIndex) (nPars : Nat) (h : ix.Valid nPars) :
    sizeof_Double_t ≤ nPars := by
  have := length_le_of_nodup_of_lt ix.slots nPars h.1 h.2
  simp [ParIndex.slots] at this
  unfold sizeof_Double_t
  omega

section Branches

variable {K : Type} [LinearOrderedField K] [FloorRing K]
  (Exp : K → K) (c : CaseConsts K) (ix : ParIndex)

theorem CPDV_lastPar (g : Globals K) (a : Nat → K) :
    (ComputeParameterDependentVars Exp c ix g a).1.lastPar = g.lastPar := rfl

theorem CPDV_nParChanges (g : Globals K) (a : Nat → K) :
    (ComputeParameterDependentVars Exp c ix g a).1.nParChanges = g.nParChanges := rfl

theorem CPDV_ThetaY (g : Globals K) (a : Nat → K) :
    (ComputeParameterDependentVars Exp c ix g a).1.ThetaY = g.ThetaY := rfl

theorem CPDV_U30 (g : Globals K) (a : Nat → K) :
    (ComputeParameterDependentVars Exp c ix g a).1.U30 = g.U30 := rfl

/-- When the change check succeeds, `yAll` leaves the globals and the array
as they are. -/
theorem yAll_of_hit (g : Globals K) (a : Nat → K) (t : K)
    (h : CompareParArrays a g.lastPar sizeof_Double_t c.iota = true) :
    (yAll Exp c ix g t a).2 = (g, a) := by
  simp [yAll, h]

/-- When the change check fails, `yAll` recomputes, copies the first `nPars`
slots of the array and counts the change. -/
theorem yAll_of_miss (g : Globals K) (a : Nat → K) (t : K)
    (h : CompareParArrays a g.lastPar sizeof_Double_t c.iota = false) :
    (yAll Exp c ix g t a).2
      = ((ComputeParameterDependentVars Exp c ix g a).1.withUnassigned g.ThetaY g.U30
            (fun i => if i < c.nPars then (ComputeParameterDependentVars Exp c ix g a).2 i
              else g.lastPar i)
            (g.nParChanges + 1),
          (ComputeParameterDependentVars Exp c ix g a).2) := by
  simp [yAll, h]
  rfl

/-- The values that `ComputeParameterDependentVars` stores depend on the
array only through the slots it reads, and not on the globals it starts
from. -/
theorem CPDV_congr (g1 g2 : Globals K) (a b : Nat → K)
    (h : ∀ i ∈ ix.readSlots,
      (ComputeParameterDependentVars Exp c ix g1 a).2 i
        = (ComputeParameterDependentVars Exp c ix g2 b).2 i) :
    (ComputeParameterDependentVars Exp c ix g1 a).1
      = (ComputeParameterDependentVars Exp c ix g2 b).1.withUnassigned
          g1.ThetaY g1.U30 g1.lastPar g1.nParChanges := by
  simp only [CPDV_array, ParIndex.readSlots, List.mem_cons, List.mem_singleton, forall_eq_or_imp,
    forall_eq, List.not_mem_nil, false_implies, implies_true, and_true] at h
  obtain ⟨h1, h2, h3, h4, h5, h6, h7, h8, h9, h10, h11⟩ := h
  simp only [ComputeParameterDependentVars, Globals.withUnassigned, Globals.setV10,
    Globals.setV20, Globals.setV30,
    Globals.setW10, Globals.setW20, Globals.setW30, Globals.setZ10, Globals.setZ20,
    Globals.setZ30, Globals.setX20, Globals.setX30, Globals.setU10, Globals.setY20,
    Globals.setU20, Globals.setY30, Vcap, Wcap, Zcap, Xcap, Ycap, Y2InitialValue,
    Y3InitialValue, h1, h2, h3, h4, h5, h6, h7, h8, h9, h10, h11]

/-- No evaluation reads `ThetaY`, `U30`, `lastPar` or `nParChanges`. -/
theorem rAll_withUnassigned (g : Globals K) (x y : K) (l : Nat → K) (n : Int)
    (t : K) (a : Nat → K) :
    rAll Exp c ix (g.withUnassigned x y l n) t a = rAll Exp c ix g t a := by
  simp only [rAll, rT1, rT2, rT3, rU1, rU2, rU3, Ttot, Vtot, Vcap, Wtot, Wcap, Ztot, Zcap,
    Xtot, Xcap, Ytot, Ycap, Y2Background, Y3Background, Y2InitialValue, Y3InitialValue,
    Globals.withUnassigned]

/-- The value of `yAll` is `rAll` on the globals and the array it leaves, times
`a[nCyc]` times `a[dt]`. -/
theorem yAll_value (g : Globals K) (a : Nat → K) (t : K) :
    (yAll Exp c ix g t a).1
      = rAll Exp c ix (yAll Exp c ix g t a).2.1 t (yAll Exp c ix g t a).2.2
          * (yAll Exp c ix g t a).2.2 ix.nCyc * (yAll Exp c ix g t a).2.2 ix.dt := by
  simp only [yAll, rAll, yDC, yT1, yT2, yT3, yU1, yU2, yU3, yT, yU, rT1, rT2, rT3, rU1, rU2, rU3]
  norm_num
  ring

end Branches

/-- A value that is `x / (1 - e)` reproduces itself after decaying by the
factor `e` and gaining `x`. -/
theorem fixed_point_of_div (x e v : ℝ) (he : e < 1) (hv : v = x / (1 - e)) :
    v * e + x = v := by
  have h1 : (1 - e) ≠ 0 := by linarith
  rw [hv]
  field_simp
  ring

theorem exp_neg_div_lt_one (T tau : ℝ) (hT : 0 < T) (htau : 0 < tau) :
    Real.exp (-T / tau) < 1 :=
  Real.exp_lt_one_iff.2 (div_neg_of_neg_of_pos (neg_neg_of_pos hT) htau)

theorem Y3Background_zero (c : CaseConsts ℝ) (g : Globals ℝ) (u10 u20 u30 : ℝ)
    (hc : g.cYU1 - g.cYU2 + g.cYU3 = 0) :
    Y3Background Real.exp c g u10 u20 u30 0 = u30 := by
  have h : g.cYU1 * 1 - g.cYU2 * 1 + g.cYU3 * 1 = 0 := by linarith
  unfold Y3Background
  simp only [neg_zero, zero_div, Real.exp_zero]
  rw [h]
  ring

/-! ## The two output conventions (C1) -/

/-- C1: the value returned by `yAll (t, a)` equals `rAll (t, a)`, evaluated on
the globals and the array that the call leaves behind, times `a[nCyc]` times
`a[dt]`. -/
theorem yAll_eq_rAll_mul_nCyc_mul_dt (c : CaseConsts ℝ) (ix : ParIndex) (g : Globals ℝ)
    (t : ℝ) (a : Nat → ℝ) :
    (yAll Real.exp c ix g t a).1
      = rAll Real.exp c ix (yAll Real.exp c ix g t a).2.1 t (yAll Real.exp c ix g t a).2.2
          * (yAll Real.exp c ix g t a).2.2 ix.nCyc * (yAll Real.exp c ix g t a).2.2 ix.dt :=
  yAll_value Real.exp c ix g a t

/-! ## The geometric sum `SigmaT` (C4) -/

/-- C4: for `n ≥ 0` and `rho * a ≠ 1`, where `a = exp (-tCap / tau)`,
`SigmaT (rho, tau, n)` is `(1 - (rho a)^n) / (1 - rho a)`, which is the sum of
`(rho a)^k` over `k < n`; it is `0` at `n = 0`, `1` at `n = 1`, and satisfies
`SigmaT (n + 1) = 1 + rho a SigmaT (n)`. -/
theorem SigmaT_geometric (c : CaseConsts ℝ) (rho tau : ℝ) (n : Nat)
    (h : rho * Real.exp (-c.tCap / tau) ≠ 1) :
    SigmaT Real.exp c rho tau (n : Int)
        = (1 - (rho * Real.exp (-c.tCap / tau)) ^ n) / (1 - rho * Real.exp (-c.tCap / tau))
      ∧ SigmaT Real.exp c rho tau (n : Int)
          = ∑ k in Finset.range n, (rho * Real.exp (-c.tCap / tau)) ^ k
      ∧ SigmaT Real.exp c rho tau 0 = 0
      ∧ SigmaT Real.exp c rho tau 1 = 1
      ∧ SigmaT Real.exp c rho tau ((n : Int) + 1)
          = 1 + rho * Real.exp (-c.tCap / tau) * SigmaT Real.exp c rho tau (n : Int) := by
  have h0 := SigmaT_eq_geom_sum Real.exp c rho tau 0 h
  have h1 := SigmaT_eq_geom_sum Real.exp c rho tau 1 h
  have hn := SigmaT_eq_geom_sum Real.exp c rho tau n h
  have hs := SigmaT_eq_geom_sum Real.exp c rho tau (n + 1) h
  refine ⟨SigmaT_natCast Real.exp c rho tau n, hn, ?_, ?_, ?_⟩
  · simpa using h0
  · simpa using h1
  · rw [hn]
    have : ((n : Int) + 1) = ((n + 1 : Nat) : Int) := by push_cast; ring
    rw [this, hs, Finset.sum_range_succ', Finset.mul_sum]
    simp only [pow_succ, pow_zero]
    rw [add_comm]
    congr 1
    apply Finset.sum_congr rfl
    intro k _
    ring

/-- Instance of C4 at `rho = 1 / 2`, `tau = 3600`, `n = 3` with the case
constants `demoCase`. -/
theorem SigmaT_geometric_witness :
    (1 / 2 : ℝ) * Real.exp (-(demoCase ℝ).tCap / 3600) ≠ 1
    ∧ SigmaT Real.exp (demoCase ℝ) (1 / 2) 3600 ((3 : Nat) : Int)
        = ∑ k in Finset.range 3, ((1 / 2 : ℝ) * Real.exp (-(demoCase ℝ).tCap / 3600)) ^ k
    ∧ SigmaT Real.exp (demoCase ℝ) (1 / 2) 3600 1 = 1 :=
  have h : (1 / 2 : ℝ) * Real.exp (-(demoCase ℝ).tCap / 3600) ≠ 1 := by
    have h1 : Real.exp (-(demoCase ℝ).tCap / 3600) < 1 :=
      exp_neg_div_lt_one _ _ (by norm_num [demoCase]) (by norm_num)
    have h2 : 0 < Real.exp (-(demoCase ℝ).tCap / 3600) := Real.exp_pos _
    intro h3
    linarith
  ⟨h, (SigmaT_geometric (demoCase ℝ) (1 / 2) 3600 3 h).2.1,
    (SigmaT_geometric (demoCase ℝ) (1 / 2) 3600 3 h).2.2.2.1⟩

/-! ## Periodicity of the untrapped populations (C2, C3) -/

/-- C2: with the globals `g'` and the array `a'` that
`ComputeParameterDependentVars (a)` leaves behind, `0 < tBac ≤ tCyc` and
positive `tU1, tU2, tU3`, each of `Vtot`, `Wtot`, `Ztot` (i = 1, 2, 3) and
`Xtot` (i = 2, 3) takes at `t = tCyc` and at `t = 0` its stored initial
value. -/
theorem closed_form_totals_periodic (c : CaseConsts ℝ) (ix : ParIndex) (g : Globals ℝ)
    (a : Nat → ℝ) (g' : Globals ℝ) (a' : Nat → ℝ)
    (hrun : ComputeParameterDependentVars Real.exp c ix g a = (g', a'))
    (hBac : 0 < c.tBac) (hBC : c.tBac ≤ c.tCyc) (hCyc : 0 < c.tCyc)
    (h1 : 0 < g'.tU1) (h2 : 0 < g'.tU2) (h3 : 0 < g'.tU3) :
    (Vtot Real.exp c g' 1 a' c.tCyc = g'.V10 ∧ Vtot Real.exp c g' 1 a' 0 = g'.V10)
    ∧ (Vtot Real.exp c g' 2 a' c.tCyc = g'.V20 ∧ Vtot Real.exp c g' 2 a' 0 = g'.V20)
    ∧ (Vtot Real.exp c g' 3 a' c.tCyc = g'.V30 ∧ Vtot Real.exp c g' 3 a' 0 = g'.V30)
    ∧ (Wtot Real.exp c ix g' 1 a' c.tCyc = g'.W10 ∧ Wtot Real.exp c ix g' 1 a' 0 = g'.W10)
    ∧ (Wtot Real.exp c ix g' 2 a' c.tCyc = g'.W20 ∧ Wtot Real.exp c ix g' 2 a' 0 = g'.W20)
    ∧ (Wtot Real.exp c ix g' 3 a' c.tCyc = g'.W30 ∧ Wtot Real.exp c ix g' 3 a' 0 = g'.W30)
    ∧ (Ztot Real.exp c ix g' 1 a' c.tCyc = g'.Z10 ∧ Ztot Real.exp c ix g' 1 a' 0 = g'.Z10)
    ∧ (Ztot Real.exp c ix g' 2 a' c.tCyc = g'.Z20 ∧ Ztot Real.exp c ix g' 2 a' 0 = g'.Z20)
    ∧ (Ztot Real.exp c ix g' 3 a' c.tCyc = g'.Z30 ∧ Ztot Real.exp c ix g' 3 a' 0 = g'.Z30)
    ∧ (Xtot Real.exp c ix g' 2 a' c.tCyc = g'.X20 ∧ Xtot Real.exp c ix g' 2 a' 0 = g'.X20)
    ∧ (Xtot Real.exp c ix g' 3 a' c.tCyc = g'.X30 ∧ Xtot Real.exp c ix g' 3 a' 0 = g'.X30) := by
  obtain ⟨eV1, eV2, eV3, eW1, eW2, eW3, eZ1, eZ2, eZ3, eX2, eX3⟩ :=
    CPDV_initial_values Real.exp c ix g a g' a' hrun
  have he1 := exp_neg_div_lt_one c.tCyc g'.tU1 hCyc h1
  have he2 := exp_neg_div_lt_one c.tCyc g'.tU2 hCyc h2
  have he3 := exp_neg_div_lt_one c.tCyc g'.tU3 hCyc h3
  have hn : ¬ c.tBac ≤ 0 := not_le.2 hBac
  have h0 : (0 : ℝ) ≤ c.tCyc := hCyc.le
  refine ⟨⟨?_, ?_⟩, ⟨?_, ?_⟩, ⟨?_, ?_⟩, ⟨?_, ?_⟩, ⟨?_, ?_⟩, ⟨?_, ?_⟩, ⟨?_, ?_⟩, ⟨?_, ?_⟩,
    ⟨?_, ?_⟩, ⟨?_, ?_⟩, ⟨?_, ?_⟩⟩
  · simpa [Vtot, h0, hBC] using fixed_point_of_div _ _ _ he1 eV1
  · simp [Vtot, h0, hn]
  · simpa [Vtot, h0, hBC] using fixed_point_of_div _ _ _ he2 eV2
  · simp [Vtot, h0, hn]
  · simpa [Vtot, h0, hBC] using fixed_point_of_div _ _ _ he3 eV3
  · simp [Vtot, h0, hn]
  · simpa [Wtot, h0, hBC] using fixed_point_of_div _ _ _ he1 eW1
  · simp [Wtot, h0, hn]
  · simpa [Wtot, h0, hBC] using fixed_point_of_div _ _ _ he2 eW2
  · simp [Wtot, h0, hn]
  · simpa [Wtot, h0, hBC] using fixed_point_of_div _ _ _ he3 eW3
  · simp [Wtot, h0, hn]
  · simpa [Ztot, h0, hBC] using fixed_point_of_div _ _ _ he1 eZ1
  · simp [Ztot, h0, hn]
  · simpa [Ztot, h0, hBC] using fixed_point_of_div _ _ _ he2 eZ2
  · simp [Ztot, h0, hn]
  · simpa [Ztot, h0, hBC] using fixed_point_of_div _ _ _ he3 eZ3
  · simp [Ztot, h0, hn]
  · simpa [Xtot, h0, hBC] using fixed_point_of_div _ _ _ he2 eX2
  · simp [Xtot, h0, hn]
  · simpa [Xtot, h0, hBC] using fixed_point_of_div _ _ _ he3 eX3
  · simp [Xtot, h0, hn]

/-- The inputs `demoCase`, `demoLayout`, `zeroGlobals`, `demoPar` meet the
hypotheses on the timing constants and on the modified lifetimes. -/
theorem demo_run_positive :
    (0 : ℝ) < (demoCase ℝ).tBac ∧ (demoCase ℝ).tBac ≤ (demoCase ℝ).tCyc
    ∧ (0 : ℝ) < (demoCase ℝ).tCyc
    ∧ 0 < (ComputeParameterDependentVars Real.exp (demoCase ℝ) demoLayout (zeroGlobals ℝ)
        (demoPar ℝ)).1.tU1
    ∧ 0 < (ComputeParameterDependentVars Real.exp (demoCase ℝ) demoLayout (zeroGlobals ℝ)
        (demoPar ℝ)).1.tU2
    ∧ 0 < (ComputeParameterDependentVars Real.exp (demoCase ℝ) demoLayout (zeroGlobals ℝ)
        (demoPar ℝ)).1.tU3 := by
  refine ⟨?_, ?_, ?_, ?_, ?_, ?_⟩
  · norm_num [demoCase]
  · norm_num [demoCase]
  · norm_num [demoCase]
  · rw [CPDV_tU1, CPDV_array]; norm_num [demoCase, demoPar, demoLayout]
  · rw [CPDV_tU2, CPDV_array]; norm_num [demoCase, demoPar, demoLayout]
  · rw [CPDV_tU3, CPDV_array]; norm_num [demoCase, demoPar, demoLayout]

/-- Instance of C2 at `demoCase`, `demoLayout`, `zeroGlobals`, `demoPar`. -/
theorem closed_form_totals_periodic_witness :
    ((0 : ℝ) < (demoCase ℝ).tBac ∧ (demoCase ℝ).tBac ≤ (demoCase ℝ).tCyc
      ∧ 0 < (ComputeParameterDependentVars Real.exp (demoCase ℝ) demoLayout (zeroGlobals ℝ)
          (demoPar ℝ)).1.tU1)
    ∧ Vtot Real.exp (demoCase ℝ)
        (ComputeParameterDependentVars Real.exp (demoCase ℝ) demoLayout (zeroGlobals ℝ)
          (demoPar ℝ)).1 1
        (ComputeParameterDependentVars Real.exp (demoCase ℝ) demoLayout (zeroGlobals ℝ)
          (demoPar ℝ)).2 (demoCase ℝ).tCyc
      = (ComputeParameterDependentVars Real.exp (demoCase ℝ) demoLayout (zeroGlobals ℝ)
          (demoPar ℝ)).1.V10
    ∧ Xtot Real.exp (demoCase ℝ) demoLayout
        (ComputeParameterDependentVars Real.exp (demoCase ℝ) demoLayout (zeroGlobals ℝ)
          (demoPar ℝ)).1 3
        (ComputeParameterDependentVars Real.exp (demoCase ℝ) demoLayout (zeroGlobals ℝ)
          (demoPar ℝ)).2 0
      = (ComputeParameterDependentVars Real.exp (demoCase ℝ) demoLayout (zeroGlobals ℝ)
          (demoPar ℝ)).1.X30 :=
  have h := closed_form_totals_periodic (demoCase ℝ) demoLayout (zeroGlobals ℝ) (demoPar ℝ)
    (ComputeParameterDependentVars Real.exp (demoCase ℝ) demoLayout (zeroGlobals ℝ)
      (demoPar ℝ)).1
    (ComputeParameterDependentVars Real.exp (demoCase ℝ) demoLayout (zeroGlobals ℝ)
      (demoPar ℝ)).2 rfl
    demo_run_positive.1 demo_run_positive.2.1 demo_run_positive.2.2.1
    demo_run_positive.2.2.2.1 demo_run_positive.2.2.2.2.1 demo_run_positive.2.2.2.2.2
  ⟨⟨demo_run_positive.1, demo_run_positive.2.1, demo_run_positive.2.2.2.1⟩,
    h.1.1, h.2.2.2.2.2.2.2.2.2.2.2⟩

/-- C3: with the globals `g'` and the array `a'` that
`ComputeParameterDependentVars (a)` leaves behind, `0 < tBac ≤ tCyc` and
positive `tU2, tU3`, `Ytot (2, a, t)` takes the stored value `Y20` at
`t = tCyc` and at `t = 0`, and `Ytot (3, a, t)` the stored value `Y30`; the
stored `U10` is `V10 + W10 + Z10` and the stored `U20` is
`V20 + W20 + Z20 + X20 + Y20`. -/
theorem feeding_totals_periodic (c : CaseConsts ℝ) (ix : ParIndex) (g : Globals ℝ)
    (a : Nat → ℝ) (g' : Globals ℝ) (a' : Nat → ℝ)
    (hrun : ComputeParameterDependentVars Real.exp c ix g a = (g', a'))
    (hBac : 0 < c.tBac) (hBC : c.tBac ≤ c.tCyc) (hCyc : 0 < c.tCyc)
    (h2 : 0 < g'.tU2) (h3 : 0 < g'.tU3) :
    (Ytot Real.exp c ix g' 2 a' c.tCyc = g'.Y20 ∧ Ytot Real.exp c ix g' 2 a' 0 = g'.Y20)
    ∧ (Ytot Real.exp c ix g' 3 a' c.tCyc = g'.Y30 ∧ Ytot Real.exp c ix g' 3 a' 0 = g'.Y30)
    ∧ g'.U10 = g'.V10 + g'.W10 + g'.Z10
    ∧ g'.U20 = g'.V20 + g'.W20 + g'.Z20 + g'.X20 + g'.Y20 := by
  obtain ⟨eU10, eY20, eU20, eY30, ec1, ec2, ec3⟩ :=
    CPDV_feeding_values Real.exp c ix g a g' a' hrun
  have he2 := exp_neg_div_lt_one c.tCyc g'.tU2 hCyc h2
  have he3 := exp_neg_div_lt_one c.tCyc g'.tU3 hCyc h3
  have hn : ¬ c.tBac ≤ 0 := not_le.2 hBac
  have h0 : (0 : ℝ) ≤ c.tCyc := hCyc.le
  refine ⟨⟨?_, ?_⟩, ⟨?_, ?_⟩, eU10, eU20⟩
  · have hfix := fixed_point_of_div _ _ _ he2 eY20
    simp only [Ytot, Y2Background, h0, hBC, le_refl, and_self, if_true]
    norm_num
    linear_combination hfix
  · simp [Ytot, Y2Background, h0, hn]
  · have hfix := fixed_point_of_div _ _ _ he3 eY30
    simp only [Ytot, Y3Background, h0, hBC, le_refl, and_self, if_true]
    norm_num
    linear_combination hfix
  · have hc : g'.cYU1 - g'.cYU2 + g'.cYU3 = 0 := by rw [ec1, ec2, ec3]; ring
    simp [Ytot, h0, hn, Y3Background_zero c g' _ _ _ hc]

/-- Instance of C3 at `demoCase`, `demoLayout`, `zeroGlobals`, `demoPar`. -/
theorem feeding_totals_periodic_witness :
    ((0 : ℝ) < (demoCase ℝ).tBac ∧ (demoCase ℝ).tBac ≤ (demoCase ℝ).tCyc
      ∧ 0 < (ComputeParameterDependentVars Real.exp (demoCase ℝ) demoLayout (zeroGlobals ℝ)
          (demoPar ℝ)).1.tU2
      ∧ 0 < (ComputeParameterDependentVars Real.exp (demoCase ℝ) demoLayout (zeroGlobals ℝ)
          (demoPar ℝ)).1.tU3)
    ∧ Ytot Real.exp (demoCase ℝ) demoLayout
        (ComputeParameterDependentVars Real.exp (demoCase ℝ) demoLayout (zeroGlobals ℝ)
          (demoPar ℝ)).1 2
        (ComputeParameterDependentVars Real.exp (demoCase ℝ) demoLayout (zeroGlobals ℝ)
          (demoPar ℝ)).2 (demoCase ℝ).tCyc
      = (ComputeParameterDependentVars Real.exp (demoCase ℝ) demoLayout (zeroGlobals ℝ)
          (demoPar ℝ)).1.Y20
    ∧ Ytot Real.exp (demoCase ℝ) demoLayout
        (ComputeParameterDependentVars Real.exp (demoCase ℝ) demoLayout (zeroGlobals ℝ)
          (demoPar ℝ)).1 3
        (ComputeParameterDependentVars Real.exp (demoCase ℝ) demoLayout (zeroGlobals ℝ)
          (demoPar ℝ)).2 (demoCase ℝ).tCyc
      = (ComputeParameterDependentVars Real.exp (demoCase ℝ) demoLayout (zeroGlobals ℝ)
          (demoPar ℝ)).1.Y30 :=
  have h := feeding_totals_periodic (demoCase ℝ) demoLayout (zeroGlobals ℝ) (demoPar ℝ)
    (ComputeParameterDependentVars Real.exp (demoCase ℝ) demoLayout (zeroGlobals ℝ)
      (demoPar ℝ)).1
    (ComputeParameterDependentVars Real.exp (demoCase ℝ) demoLayout (zeroGlobals ℝ)
      (demoPar ℝ)).2 rfl
    demo_run_positive.1 demo_run_positive.2.1 demo_run_positive.2.2.1
    demo_run_positive.2.2.2.2.1 demo_run_positive.2.2.2.2.2
  ⟨⟨demo_run_positive.1, demo_run_positive.2.1, demo_run_positive.2.2.2.2.1,
      demo_run_positive.2.2.2.2.2⟩, h.1.1, h.2.1.1⟩

/-! ## The parameter cache (C5 to C9) -/

/-- C5: when every one of the `nPars` slots of the incoming array is within
`iota` of the last accepted array, a call of `yAll` recomputes nothing: the
globals (every derived value, `lastPar`, `nParChanges`) and the array are
after the call what they were before.  The layout is assumed valid: the
twenty named slots are different and lie below `nPars`. -/
theorem yAll_cache_hit (c : CaseConsts ℝ) (ix : ParIndex) (g : Globals ℝ) (t : ℝ)
    (a : Nat → ℝ) (hix : ix.Valid c.nPars)
    (h : ∀ i < c.nPars, |a i - g.lastPar i| ≤ c.iota) :
    (yAll Real.exp c ix g t a).2.1 = g ∧ (yAll Real.exp c ix g t a).2.2 = a := by
  have h8 := ParIndex.Valid.sizeof_le ix c.nPars hix
  have hit : CompareParArrays a g.lastPar sizeof_Double_t c.iota = true :=
    (CompareParArrays_eq_true_iff _ _ _ _).2 fun i hi => h i (lt_of_lt_of_le hi h8)
  rw [yAll_of_hit Real.exp c ix g a t hit]
  exact ⟨rfl, rfl⟩

/-- Instance of C5: the array `demoPar` against globals whose `lastPar` is
`demoPar`. -/
theorem yAll_cache_hit_witness :
    demoLayout.Valid (demoCase ℝ).nPars
    ∧ (yAll Real.exp (demoCase ℝ) demoLayout ((zeroGlobals ℝ).setlastPar (demoPar ℝ)) 0
        (demoPar ℝ)).2.1 = (zeroGlobals ℝ).setlastPar (demoPar ℝ) :=
  have hv : demoLayout.Valid (demoCase ℝ).nPars := by
    show demoLayout.Valid 20
    decide
  ⟨hv, (yAll_cache_hit (demoCase ℝ) demoLayout ((zeroGlobals ℝ).setlastPar (demoPar ℝ)) 0
    (demoPar ℝ) hv (by
      intro i _
      simp [Globals.setlastPar, demoCase])).1⟩



/-! ### Replacing the four fields that the recomputation leaves alone -/

section WithUnassigned

variable {K : Type} (g : Globals K) (x y x' y' : K) (l l' : Nat → K) (n n' : Int)

theorem withUnassigned_ThetaY : (g.withUnassigned x y l n).ThetaY = x := rfl

theorem withUnassigned_U30 : (g.withUnassigned x y l n).U30 = y := rfl

theorem withUnassigned_lastPar : (g.withUnassigned x y l n).lastPar = l := rfl

theorem withUnassigned_nParChanges : (g.withUnassigned x y l n).nParChanges = n := rfl

theorem withUnassigned_withUnassigned :
    (g.withUnassigned x y l n).withUnassigned x' y' l' n' = g.withUnassigned x' y' l' n' := rfl

theorem withUnassigned_self :
    g.withUnassigned g.ThetaY g.U30 g.lastPar g.nParChanges = g := rfl

end WithUnassigned

/-- A recomputation changes no derived value when the cached values are
those computed from an array `b` and the incoming array agrees with `b` on
the slots that the recomputation reads. -/
theorem yAll_miss_keeps_derived_values {K : Type} [LinearOrderedField K] [FloorRing K]
    (Exp : K → K) (c : CaseConsts K) (ix : ParIndex) (g g0 : Globals K) (a b : Nat → K) (t : K)
    (hg : g = (ComputeParameterDependentVars Exp c ix g0 b).1.withUnassigned
      g.ThetaY g.U30 g.lastPar g.nParChanges)
    (hab : ∀ i ∈ ix.readSlots,
      (ComputeParameterDependentVars Exp c ix g a).2 i
        = (ComputeParameterDependentVars Exp c ix g0 b).2 i)
    (miss : CompareParArrays a g.lastPar sizeof_Double_t c.iota = false) :
    (yAll Exp c ix g t a).2.1
      = g.withUnassigned g.ThetaY g.U30
          (fun i => if i < c.nPars then (ComputeParameterDependentVars Exp c ix g a).2 i
            else g.lastPar i)
          (g.nParChanges + 1) := by
  have e := congrArg Prod.fst (yAll_of_miss Exp c ix g a t miss)
  simp only at e
  rw [e, CPDV_congr Exp c ix g g0 a b hab, withUnassigned_withUnassigned]
  have h2 := congrArg (fun z : Globals K => z.withUnassigned g.ThetaY g.U30
    (fun i => if i < c.nPars then (ComputeParameterDependentVars Exp c ix g a).2 i
      else g.lastPar i) (g.nParChanges + 1)) hg
  simp only [withUnassigned_withUnassigned] at h2
  exact h2.symm

/-- C6, as the code has it: when the change check finds a compared slot of
the incoming array further than `iota` from the last accepted array, one
call of `yAll` increments `nParChanges` by exactly one, overwrites the
`nPars` slots of `lastPar` with the array as the recomputation leaves it,
and stores in every derived variable the value that
`ComputeParameterDependentVars` computes from the array, whatever globals
`g0` that computation starts from. -/
theorem yAll_cache_miss (c : CaseConsts ℝ) (ix : ParIndex) (g : Globals ℝ) (t : ℝ)
    (a : Nat → ℝ) (h : ∃ i < sizeof_Double_t, c.iota < |a i - g.lastPar i|) :
    (yAll Real.exp c ix g t a).2.1.nParChanges = g.nParChanges + 1
    ∧ (∀ i, (yAll Real.exp c ix g t a).2.1.lastPar i
        = if i < c.nPars then (yAll Real.exp c ix g t a).2.2 i else g.lastPar i)
    ∧ (yAll Real.exp c ix g t a).2.2 = (ComputeParameterDependentVars Real.exp c ix g a).2
    ∧ ∀ g0 : Globals ℝ, (yAll Real.exp c ix g t a).2.1
        = (ComputeParameterDependentVars Real.exp c ix g0 a).1.withUnassigned g.ThetaY g.U30
            (yAll Real.exp c ix g t a).2.1.lastPar (g.nParChanges + 1) := by
  have miss := (CompareParArrays_eq_false_iff a g.lastPar sizeof_Double_t c.iota).2 h
  have e1 := congrArg Prod.fst (yAll_of_miss Real.exp c ix g a t miss)
  have e2 := congrArg Prod.snd (yAll_of_miss Real.exp c ix g a t miss)
  simp only at e1 e2
  refine ⟨?_, fun i => ?_, e2, fun g0 => ?_⟩
  · rw [e1, withUnassigned_nParChanges]
  · rw [e1, e2, withUnassigned_lastPar]
  · rw [e1, withUnassigned_lastPar, CPDV_congr Real.exp c ix g g0 a a (fun i _ => by rw [CPDV_array, CPDV_array]),
      withUnassigned_withUnassigned]

/-- Instance of the amended C6: the array `demoPar` against the globals of
program start. -/
theorem yAll_cache_miss_witness :
    (∃ i < sizeof_Double_t,
        (demoCase ℝ).iota < |demoPar ℝ i - (zeroGlobals ℝ).lastPar i|)
    ∧ (yAll Real.exp (demoCase ℝ) demoLayout (zeroGlobals ℝ) 0 (demoPar ℝ)).2.1.nParChanges
        = (zeroGlobals ℝ).nParChanges + 1 :=
  have h : ∃ i < sizeof_Double_t,
      (demoCase ℝ).iota < |demoPar ℝ i - (zeroGlobals ℝ).lastPar i| :=
    ⟨0, by decide, by norm_num [demoCase, demoPar, zeroGlobals]⟩
  ⟨h, (yAll_cache_miss (demoCase ℝ) demoLayout (zeroGlobals ℝ) 0 (demoPar ℝ) h).1⟩

/-- C6 fails as stated.  After a call with `demoPar`, a call with the array
that differs from it in the one slot `DC`, by `1 > iota`, counts a change
and leaves every derived value as it was: the globals after the call are
those before it with new `lastPar` and `nParChanges`. -/
theorem yAll_change_keeps_derived_values :
    (∀ i, i ≠ demoLayout.DC →
        Function.update (demoPar ℝ) demoLayout.DC 1 i
          = (yAll Real.exp (demoCase ℝ) demoLayout (zeroGlobals ℝ) 0 (demoPar ℝ)).2.1.lastPar i)
    ∧ (demoCase ℝ).iota
        < |Function.update (demoPar ℝ) demoLayout.DC 1 demoLayout.DC
            - (yAll Real.exp (demoCase ℝ) demoLayout (zeroGlobals ℝ) 0
                (demoPar ℝ)).2.1.lastPar demoLayout.DC|
    ∧ (yAll Real.exp (demoCase ℝ) demoLayout
          (yAll Real.exp (demoCase ℝ) demoLayout (zeroGlobals ℝ) 0 (demoPar ℝ)).2.1 0
          (Function.update (demoPar ℝ) demoLayout.DC 1)).2.1
        = (yAll Real.exp (demoCase ℝ) demoLayout (zeroGlobals ℝ) 0
            (demoPar ℝ)).2.1.withUnassigned
            (yAll Real.exp (demoCase ℝ) demoLayout (zeroGlobals ℝ) 0 (demoPar ℝ)).2.1.ThetaY
            (yAll Real.exp (demoCase ℝ) demoLayout (zeroGlobals ℝ) 0 (demoPar ℝ)).2.1.U30
            (fun i => if i < (demoCase ℝ).nPars
              then Function.update (demoPar ℝ) demoLayout.DC 1 i
              else (yAll Real.exp (demoCase ℝ) demoLayout (zeroGlobals ℝ) 0
                (demoPar ℝ)).2.1.lastPar i)
            ((yAll Real.exp (demoCase ℝ) demoLayout (zeroGlobals ℝ) 0
              (demoPar ℝ)).2.1.nParChanges + 1) := by
  have miss1 : CompareParArrays (demoPar ℝ) (zeroGlobals ℝ).lastPar sizeof_Double_t
      (demoCase ℝ).iota = false :=
    (CompareParArrays_eq_false_iff _ _ _ _).2
      ⟨0, by decide, by norm_num [demoCase, demoPar, zeroGlobals]⟩
  have e1 := congrArg Prod.fst
    (yAll_of_miss Real.exp (demoCase ℝ) demoLayout (zeroGlobals ℝ) (demoPar ℝ) 0 miss1)
  simp only at e1
  have hflag : (demoCase ℝ).b134sbFlag = false := rfl
  have harr : ∀ b : Nat → ℝ, ∀ g0 : Globals ℝ,
      (ComputeParameterDependentVars Real.exp (demoCase ℝ) demoLayout g0 b).2 = b := by
    intro b g0
    rw [CPDV_array, hflag]
    rfl
  have hlast : ∀ i,
      (yAll Real.exp (demoCase ℝ) demoLayout (zeroGlobals ℝ) 0 (demoPar ℝ)).2.1.lastPar i
        = demoPar ℝ i := by
    intro i
    rw [e1, withUnassigned_lastPar, harr]
    by_cases hi : i < 20
    · simp [demoCase, hi]
    · have h14 : ¬ i < 14 := by omega
      have h8 : ¬ i < 8 := by omega
      have h6 : ¬ i < 6 := by omega
      have h3 : ¬ i < 3 := by omega
      have h2 : ¬ i < 2 := by omega
      simp [demoCase, hi, zeroGlobals, demoPar, h14, h8, h6, h3, h2]
  have hdc : (demoCase ℝ).iota
      < |Function.update (demoPar ℝ) demoLayout.DC 1 demoLayout.DC
          - (yAll Real.exp (demoCase ℝ) demoLayout (zeroGlobals ℝ) 0
              (demoPar ℝ)).2.1.lastPar demoLayout.DC| := by
    rw [hlast, Function.update_same]
    norm_num [demoCase, demoPar, demoLayout]
  have miss2 : CompareParArrays (Function.update (demoPar ℝ) demoLayout.DC 1)
      (yAll Real.exp (demoCase ℝ) demoLayout (zeroGlobals ℝ) 0 (demoPar ℝ)).2.1.lastPar
      sizeof_Double_t (demoCase ℝ).iota = false :=
    (CompareParArrays_eq_false_iff _ _ _ _).2 ⟨demoLayout.DC, by decide, hdc⟩
  refine ⟨fun i hi => ?_, hdc, ?_⟩
  · rw [hlast, Function.update_noteq hi]
  · have key := yAll_miss_keeps_derived_values Real.exp (demoCase ℝ) demoLayout
      (yAll Real.exp (demoCase ℝ) demoLayout (zeroGlobals ℝ) 0 (demoPar ℝ)).2.1 (zeroGlobals ℝ)
      (Function.update (demoPar ℝ) demoLayout.DC 1) (demoPar ℝ) 0 ?_ ?_ miss2
    · rw [harr] at key
      exact key
    · rw [e1]
      simp only [withUnassigned_ThetaY, withUnassigned_U30, withUnassigned_lastPar,
        withUnassigned_nParChanges, withUnassigned_withUnassigned]
    · intro i hi
      rw [harr, harr]
      have hne : i ≠ demoLayout.DC := by
        intro h2
        rw [h2] at hi
        revert hi
        decide
      exact Function.update_noteq hne _ _


/-- C7: with at least eight slots (`8 ≤ nPars`) and `iota ≥ 0`, a second call
of `yAll` with the same array, at any time `t'`, recomputes nothing: the
globals after the second call, every derived value and `nParChanges` among
them, are the globals after the first call, and the array is left as the
first call left it. -/
theorem yAll_twice (c : CaseConsts ℝ) (ix : ParIndex) (g : Globals ℝ) (t t' : ℝ)
    (v : Nat → ℝ) (h8 : 8 ≤ c.nPars) (hiota : 0 ≤ c.iota) :
    (yAll Real.exp c ix (yAll Real.exp c ix g t v).2.1 t' (yAll Real.exp c ix g t v).2.2).2.1
        = (yAll Real.exp c ix g t v).2.1
    ∧ (yAll Real.exp c ix (yAll Real.exp c ix g t v).2.1 t'
        (yAll Real.exp c ix g t v).2.2).2.1.nParChanges
        = (yAll Real.exp c ix g t v).2.1.nParChanges
    ∧ (yAll Real.exp c ix (yAll Real.exp c ix g t v).2.1 t' (yAll Real.exp c ix g t v).2.2).2.2
        = (yAll Real.exp c ix g t v).2.2 := by
  have hit2 : CompareParArrays (yAll Real.exp c ix g t v).2.2
      (yAll Real.exp c ix g t v).2.1.lastPar sizeof_Double_t c.iota = true := by
    cases hcmp : CompareParArrays v g.lastPar sizeof_Double_t c.iota with
    | true =>
      rw [yAll_of_hit Real.exp c ix g v t hcmp]
      exact hcmp
    | false =>
      rw [yAll_of_miss Real.exp c ix g v t hcmp]
      refine (CompareParArrays_eq_true_iff _ _ _ _).2 fun i hi => ?_
      have hi' : i < c.nPars := lt_of_lt_of_le hi h8
      simp only [withUnassigned_lastPar, hi', if_true, sub_self, abs_zero]
      exact hiota
  have e := yAll_of_hit Real.exp c ix _ _ t' hit2
  exact ⟨congrArg Prod.fst e, congrArg (fun z => z.1.nParChanges) e, congrArg Prod.snd e⟩

/-- Instance of C7: two calls with `demoPar`, from the globals of program
start, at times `0` and `1`. -/
theorem yAll_twice_witness :
    (8 ≤ (demoCase ℝ).nPars ∧ (0 : ℝ) ≤ (demoCase ℝ).iota)
    ∧ (yAll Real.exp (demoCase ℝ) demoLayout
          (yAll Real.exp (demoCase ℝ) demoLayout (zeroGlobals ℝ) 0 (demoPar ℝ)).2.1 1
          (yAll Real.exp (demoCase ℝ) demoLayout (zeroGlobals ℝ) 0 (demoPar ℝ)).2.2).2.1
        = (yAll Real.exp (demoCase ℝ) demoLayout (zeroGlobals ℝ) 0 (demoPar ℝ)).2.1 :=
  have h8 : 8 ≤ (demoCase ℝ).nPars := by
    show 8 ≤ 20
    decide
  have hiota : (0 : ℝ) ≤ (demoCase ℝ).iota := by norm_num [demoCase]
  ⟨⟨h8, hiota⟩,
    (yAll_twice (demoCase ℝ) demoLayout (zeroGlobals ℝ) 0 1 (demoPar ℝ) h8 hiota).1⟩

/-- C8: run from any two globals `g1` and `g2` on the same array and case
constants, `ComputeParameterDependentVars` leaves the same array and the
same value in every variable it assigns: the two results differ at most in
`ThetaY`, `U30`, `lastPar` and `nParChanges`, which it does not assign and
which keep the value they had. -/
theorem ComputeParameterDependentVars_pure (c : CaseConsts ℝ) (ix : ParIndex)
    (g1 g2 : Globals ℝ) (a : Nat → ℝ) :
    (ComputeParameterDependentVars Real.exp c ix g1 a).1
        = (ComputeParameterDependentVars Real.exp c ix g2 a).1.withUnassigned
            g1.ThetaY g1.U30 g1.lastPar g1.nParChanges
    ∧ (ComputeParameterDependentVars Real.exp c ix g1 a).2
        = (ComputeParameterDependentVars Real.exp c ix g2 a).2 :=
  ⟨CPDV_congr Real.exp c ix g1 g2 a a (fun i _ => by rw [CPDV_array, CPDV_array]),
    by rw [CPDV_array, CPDV_array]⟩


/-- The amplitudes of the V populations, as the run stores them. -/
theorem CPDV_ampV {K : Type} [LinearOrderedField K] [FloorRing K]
    (Exp : K → K) (c : CaseConsts K) (ix : ParIndex) (g : Globals K) (a : Nat → K)
    (g' : Globals K) (a' : Nat → K)
    (hrun : ComputeParameterDependentVars Exp c ix g a = (g', a')) :
    g'.ampV1 = a' ix.r1 * c.tCap * (1 - a' ix.p)
    ∧ g'.ampV2 = a' ix.r2 * c.tCap * (1 - a' ix.p)
    ∧ g'.ampV3 = a' ix.r3 * c.tCap * (1 - a' ix.p) := by
  obtain rfl : g' = (ComputeParameterDependentVars Exp c ix g a).1 := by rw [hrun]
  obtain rfl : a' = (ComputeParameterDependentVars Exp c ix g a).2 := by rw [hrun]
  exact ⟨rfl, rfl, rfl⟩

/-- C9, as the code has it: `yAll` refreshes the cache first.  When the
change check finds a compared slot of `v` further than `iota` from the last
accepted array, the value that `yAll (t, v)` returns is the value computed
from the derived state that `ComputeParameterDependentVars (v)` produces,
from whatever globals `g0` that computation starts; `rAll` itself refreshes
nothing, and called after `yAll (t, v)` it returns the value computed from
that same derived state. -/
theorem yAll_refreshes_first (c : CaseConsts ℝ) (ix : ParIndex) (g g0 : Globals ℝ)
    (t t' : ℝ) (v : Nat → ℝ) (h : ∃ i < sizeof_Double_t, c.iota < |v i - g.lastPar i|) :
    (yAll Real.exp c ix g t v).1
        = rAll Real.exp c ix (ComputeParameterDependentVars Real.exp c ix g0 v).1 t
            (ComputeParameterDependentVars Real.exp c ix g0 v).2
          * (ComputeParameterDependentVars Real.exp c ix g0 v).2 ix.nCyc
          * (ComputeParameterDependentVars Real.exp c ix g0 v).2 ix.dt
    ∧ rAll Real.exp c ix (yAll Real.exp c ix g t v).2.1 t' (yAll Real.exp c ix g t v).2.2
        = rAll Real.exp c ix (ComputeParameterDependentVars Real.exp c ix g0 v).1 t'
            (ComputeParameterDependentVars Real.exp c ix g0 v).2 := by
  have miss := (CompareParArrays_eq_false_iff v g.lastPar sizeof_Double_t c.iota).2 h
  have e1 := congrArg Prod.fst (yAll_of_miss Real.exp c ix g v t miss)
  have e2 := congrArg Prod.snd (yAll_of_miss Real.exp c ix g v t miss)
  simp only at e1 e2
  have ha : (ComputeParameterDependentVars Real.exp c ix g v).2
      = (ComputeParameterDependentVars Real.exp c ix g0 v).2 := by
    rw [CPDV_array, CPDV_array]
  have hg := CPDV_congr Real.exp c ix g g0 v v (fun i _ => by rw [ha])
  refine ⟨?_, ?_⟩
  · rw [yAll_value, e1, e2, rAll_withUnassigned, hg, rAll_withUnassigned, ha]
  · rw [e1, e2, rAll_withUnassigned, hg, rAll_withUnassigned, ha]

/-- Instance of the amended C9: the array `demoPar` against the globals of
program start. -/
theorem yAll_refreshes_first_witness :
    (∃ i < sizeof_Double_t,
        (demoCase ℝ).iota < |demoPar ℝ i - (zeroGlobals ℝ).lastPar i|)
    ∧ rAll Real.exp (demoCase ℝ) demoLayout
          (yAll Real.exp (demoCase ℝ) demoLayout (zeroGlobals ℝ) 0 (demoPar ℝ)).2.1 1
          (yAll Real.exp (demoCase ℝ) demoLayout (zeroGlobals ℝ) 0 (demoPar ℝ)).2.2
        = rAll Real.exp (demoCase ℝ) demoLayout
            (ComputeParameterDependentVars Real.exp (demoCase ℝ) demoLayout
              ((zeroGlobals ℝ).setV10 1) (demoPar ℝ)).1 1
            (ComputeParameterDependentVars Real.exp (demoCase ℝ) demoLayout
              ((zeroGlobals ℝ).setV10 1) (demoPar ℝ)).2 :=
  have h : ∃ i < sizeof_Double_t,
      (demoCase ℝ).iota < |demoPar ℝ i - (zeroGlobals ℝ).lastPar i| :=
    ⟨0, by decide, by norm_num [demoCase, demoPar, zeroGlobals]⟩
  ⟨h, (yAll_refreshes_first (demoCase ℝ) demoLayout (zeroGlobals ℝ) ((zeroGlobals ℝ).setV10 1)
    0 1 (demoPar ℝ) h).2⟩

/-! ## Times outside the cycle (C10) -/

section OutOfWindow

variable (c : CaseConsts ℝ) (ix : ParIndex) (g : Globals ℝ) (a : Nat → ℝ)

theorem untrapped_totals_out_of_window (hBac : 0 ≤ c.tBac) (i : Int) (t : ℝ)
    (ht : t < 0 ∨ c.tCyc < t) :
    Vtot Real.exp c g i a t = 0 ∧ Wtot Real.exp c ix g i a t = 0
    ∧ Ztot Real.exp c ix g i a t = 0 ∧ Xtot Real.exp c ix g i a t = 0
    ∧ Ytot Real.exp c ix g i a t = 0 := by
  have h1 : ¬ (0 ≤ t ∧ t ≤ c.tCyc) := by
    rintro ⟨h0, hc⟩
    rcases ht with ht | ht <;> linarith
  have h2 : ¬ (c.tBac ≤ t ∧ t ≤ c.tCyc) := by
    rintro ⟨h0, hc⟩
    rcases ht with ht | ht <;> linarith
  simp only [Vtot, Wtot, Ztot, Xtot, Ytot, h1, h2, if_false, and_self]

theorem trapped_totals_out_of_window (i : Int) (t : ℝ) (ht : t < c.tBac ∨ c.tCyc < t) :
    Ttot Real.exp c ix g i a t = 0 ∧ Utot Real.exp c ix g i a t = 0 := by
  have h2 : ¬ (c.tBac ≤ t ∧ t ≤ c.tCyc) := by
    rintro ⟨h0, hc⟩
    rcases ht with ht | ht <;> linarith
  simp only [Ttot, Utot, h2, if_false, and_self]

theorem rAll_out_of_window (hBac : 0 ≤ c.tBac) (t : ℝ) (ht : t < 0 ∨ c.tCyc < t) :
    rAll Real.exp c ix g t a = a ix.DC := by
  have hT : ∀ i : Int, Ttot Real.exp c ix g i a t = 0 := fun i =>
    (trapped_totals_out_of_window c ix g a i t
      (ht.imp (fun h => lt_of_lt_of_le h hBac) id)).1
  have hU := fun i : Int => untrapped_totals_out_of_window c ix g a hBac i t ht
  simp only [rAll, rT1, rT2, rT3, rU1, rU2, rU3, hT, (hU _).1, (hU _).2.1, (hU _).2.2.1,
    (hU _).2.2.2.1, (hU _).2.2.2.2]
  norm_num

end OutOfWindow

/-- In a valid layout the slot `gammaT3`, the only one that a recomputation
can overwrite, is none of `nCyc`, `dt`, `DC`. -/
theorem ParIndex.Valid.gammaT3_ne (ix : ParIndex) (nPars : Nat) (h : ix.Valid nPars) :
    ix.nCyc ≠ ix.gammaT3 ∧ ix.dt ≠ ix.gammaT3 ∧ ix.DC ≠ ix.gammaT3 := by
  have hn := h.1
  simp only [ParIndex.slots, List.nodup_cons, List.mem_cons, List.mem_singleton, not_or] at hn
  refine ⟨?_, ?_, ?_⟩ <;> intro he <;> simp [he] at hn

/-- C10: with `0 ≤ tBac`, every untrapped total (`Vtot`, `Wtot`, `Ztot`,
`Xtot`, `Ytot`) is exactly `0` at every `t < 0` and every `t > tCyc`, for
every species index, array and cached state; `Ttot` and `Utot` are exactly
`0` at every `t < tBac` and every `t > tCyc`; and for `t < 0` or `t > tCyc`
the value of `yAll (t, a)` is `a[nCyc] * a[dt] * a[DC]`, read from the
array as the call leaves it and, in a valid layout, equally from the array
as it was passed. -/
theorem out_of_window_zero (c : CaseConsts ℝ) (ix : ParIndex) (g : Globals ℝ)
    (a : Nat → ℝ) (hBac : 0 ≤ c.tBac) :
    (∀ (i : Int) (t : ℝ), t < 0 ∨ c.tCyc < t →
        Vtot Real.exp c g i a t = 0 ∧ Wtot Real.exp c ix g i a t = 0
        ∧ Ztot Real.exp c ix g i a t = 0 ∧ Xtot Real.exp c ix g i a t = 0
        ∧ Ytot Real.exp c ix g i a t = 0)
    ∧ (∀ (i : Int) (t : ℝ), t < c.tBac ∨ c.tCyc < t →
        Ttot Real.exp c ix g i a t = 0 ∧ Utot Real.exp c ix g i a t = 0)
    ∧ (∀ t : ℝ, t < 0 ∨ c.tCyc < t →
        (yAll Real.exp c ix g t a).1
          = (yAll Real.exp c ix g t a).2.2 ix.nCyc * (yAll Real.exp c ix g t a).2.2 ix.dt
              * (yAll Real.exp c ix g t a).2.2 ix.DC)
    ∧ (ix.Valid c.nPars → ∀ t : ℝ, t < 0 ∨ c.tCyc < t →
        (yAll Real.exp c ix g t a).1 = a ix.nCyc * a ix.dt * a ix.DC) := by
  have key : ∀ t : ℝ, t < 0 ∨ c.tCyc < t →
      (yAll Real.exp c ix g t a).1
        = (yAll Real.exp c ix g t a).2.2 ix.nCyc * (yAll Real.exp c ix g t a).2.2 ix.dt
            * (yAll Real.exp c ix g t a).2.2 ix.DC := by
    intro t ht
    rw [yAll_value, rAll_out_of_window c ix _ _ hBac t ht]
    ring
  refine ⟨fun i t ht => untrapped_totals_out_of_window c ix g a hBac i t ht,
    fun i t ht => trapped_totals_out_of_window c ix g a i t ht, key, fun hix t ht => ?_⟩
  obtain ⟨n1, n2, n3⟩ := ParIndex.Valid.gammaT3_ne ix c.nPars hix
  have harr : ∀ j, j ≠ ix.gammaT3 → (yAll Real.exp c ix g t a).2.2 j = a j := by
    intro j hj
    cases hcmp : CompareParArrays a g.lastPar sizeof_Double_t c.iota with
    | true => rw [yAll_of_hit Real.exp c ix g a t hcmp]
    | false =>
      rw [yAll_of_miss Real.exp c ix g a t hcmp]
      show (ComputeParameterDependentVars Real.exp c ix g a).2 j = a j
      rw [CPDV_array]
      split
      · exact Function.update_noteq hj _ _
      · rfl
  rw [key t ht, harr _ n1, harr _ n2, harr _ n3]

/-- Instance of C10 at `demoCase`: the untrapped totals of species 2 at
`t = -1`. -/
theorem out_of_window_zero_witness :
    (0 : ℝ) ≤ (demoCase ℝ).tBac
    ∧ Vtot Real.exp (demoCase ℝ) (zeroGlobals ℝ) 2 (demoPar ℝ) (-1) = 0 :=
  have h : (0 : ℝ) ≤ (demoCase ℝ).tBac := by norm_num [demoCase]
  ⟨h, ((out_of_window_zero (demoCase ℝ) demoLayout (zeroGlobals ℝ) (demoPar ℝ) h).1 2 (-1)
    (Or.inl (by norm_num))).1⟩

/-! ## The regimes of the closed-form untrapped populations (C11) -/

/-- C11: with `0 ≤ tBac ≤ tCyc`, for every cached state and array, each of
`Vtot`, `Wtot`, `Ztot` (i = 1, 2, 3) and `Xtot` (i = 2, 3) is, at every
`0 ≤ t < tBac`, the free decay `P_i0 * exp (-t / tU_i)` of its cached initial
value, and at every `tBac ≤ t ≤ tCyc` that free decay plus the capture term
`Pcap (i, a, t)`. -/
theorem closed_form_totals_piecewise (c : CaseConsts ℝ) (ix : ParIndex) (g : Globals ℝ)
    (a : Nat → ℝ) (h0 : 0 ≤ c.tBac) (hBC : c.tBac ≤ c.tCyc) :
    (∀ t : ℝ, 0 ≤ t → t < c.tBac →
      Vtot Real.exp c g 1 a t = g.V10 * Real.exp (-t / g.tU1)
      ∧ Vtot Real.exp c g 2 a t = g.V20 * Real.exp (-t / g.tU2)
      ∧ Vtot Real.exp c g 3 a t = g.V30 * Real.exp (-t / g.tU3)
      ∧ Wtot Real.exp c ix g 1 a t = g.W10 * Real.exp (-t / g.tU1)
      ∧ Wtot Real.exp c ix g 2 a t = g.W20 * Real.exp (-t / g.tU2)
      ∧ Wtot Real.exp c ix g 3 a t = g.W30 * Real.exp (-t / g.tU3)
      ∧ Ztot Real.exp c ix g 1 a t = g.Z10 * Real.exp (-t / g.tU1)
      ∧ Ztot Real.exp c ix g 2 a t = g.Z20 * Real.exp (-t / g.tU2)
      ∧ Ztot Real.exp c ix g 3 a t = g.Z30 * Real.exp (-t / g.tU3)
      ∧ Xtot Real.exp c ix g 2 a t = g.X20 * Real.exp (-t / g.tU2)
      ∧ Xtot Real.exp c ix g 3 a t = g.X30 * Real.exp (-t / g.tU3))
    ∧ (∀ t : ℝ, c.tBac ≤ t → t ≤ c.tCyc →
      Vtot Real.exp c g 1 a t = g.V10 * Real.exp (-t / g.tU1) + Vcap Real.exp c g 1 a t
      ∧ Vtot Real.exp c g 2 a t = g.V20 * Real.exp (-t / g.tU2) + Vcap Real.exp c g 2 a t
      ∧ Vtot Real.exp c g 3 a t = g.V30 * Real.exp (-t / g.tU3) + Vcap Real.exp c g 3 a t
      ∧ Wtot Real.exp c ix g 1 a t
          = g.W10 * Real.exp (-t / g.tU1) + Wcap Real.exp c ix g 1 a t
      ∧ Wtot Real.exp c ix g 2 a t
          = g.W20 * Real.exp (-t / g.tU2) + Wcap Real.exp c ix g 2 a t
      ∧ Wtot Real.exp c ix g 3 a t
          = g.W30 * Real.exp (-t / g.tU3) + Wcap Real.exp c ix g 3 a t
      ∧ Ztot Real.exp c ix g 1 a t
          = g.Z10 * Real.exp (-t / g.tU1) + Zcap Real.exp c ix g 1 a t
      ∧ Ztot Real.exp c ix g 2 a t
          = g.Z20 * Real.exp (-t / g.tU2) + Zcap Real.exp c ix g 2 a t
      ∧ Ztot Real.exp c ix g 3 a t
          = g.Z30 * Real.exp (-t / g.tU3) + Zcap Real.exp c ix g 3 a t
      ∧ Xtot Real.exp c ix g 2 a t
          = g.X20 * Real.exp (-t / g.tU2) + Xcap Real.exp c ix g 2 a t
      ∧ Xtot Real.exp c ix g 3 a t
          = g.X30 * Real.exp (-t / g.tU3) + Xcap Real.exp c ix g 3 a t) := by
  constructor
  · intro t ht0 htB
    have h1 : 0 ≤ t ∧ t ≤ c.tCyc := ⟨ht0, le_trans htB.le hBC⟩
    have h2 : ¬ c.tBac ≤ t := not_le.2 htB
    simp [Vtot, Wtot, Ztot, Xtot, h1, h2]
  · intro t htB htC
    have h1 : 0 ≤ t ∧ t ≤ c.tCyc := ⟨le_trans h0 htB, htC⟩
    have h2 : c.tBac ≤ t ∧ t ≤ c.tCyc := ⟨htB, htC⟩
    simp [Vtot, Wtot, Ztot, Xtot, h1, h2]

/-- Instance of C11 at `demoCase`: `Vtot (1, a, t)` at `t = 1000 < tBac`, on
the globals of program start with `V10 = 1`. -/
theorem closed_form_totals_piecewise_witness :
    ((0 : ℝ) ≤ (demoCase ℝ).tBac ∧ (demoCase ℝ).tBac ≤ (demoCase ℝ).tCyc)
    ∧ Vtot Real.exp (demoCase ℝ) ((zeroGlobals ℝ).setV10 1) 1 (demoPar ℝ) 1000
        = ((zeroGlobals ℝ).setV10 1).V10
            * Real.exp (-1000 / ((zeroGlobals ℝ).setV10 1).tU1) :=
  have h0 : (0 : ℝ) ≤ (demoCase ℝ).tBac := by norm_num [demoCase]
  have hBC : (demoCase ℝ).tBac ≤ (demoCase ℝ).tCyc := by norm_num [demoCase]
  ⟨⟨h0, hBC⟩,
    ((closed_form_totals_piecewise (demoCase ℝ) demoLayout ((zeroGlobals ℝ).setV10 1)
      (demoPar ℝ) h0 hBC).1 1000 (by norm_num) (by norm_num [demoCase])).1⟩

/-! ## Degenerate injection counts (C17) -/

/-- C17: for every `rho`, `tT`, `tU` and every integer `n < 1`,
`SigmaW (rho, tT, tU, n) = 0` and `SigmaZ (rho, tT, tU, n) = 0`. -/
theorem SigmaW_SigmaZ_of_lt_one (c : CaseConsts ℝ) (rho tT tU : ℝ) (n : Int) (hn : n < 1) :
    SigmaW Real.exp c rho tT tU n = 0 ∧ SigmaZ Real.exp c rho tT tU n = 0 := by
  have h2 : ¬ n ≥ 2 := by omega
  simp [SigmaW, SigmaZ, h2]

/-- Instance of C17 at `n = 0` and at `n = -3`. -/
theorem SigmaW_SigmaZ_of_lt_one_witness :
    ((0 : Int) < 1 ∧ (-3 : Int) < 1)
    ∧ SigmaW Real.exp (demoCase ℝ) (1 / 2) 3600 35300 0 = 0
    ∧ SigmaZ Real.exp (demoCase ℝ) (1 / 2) 3600 35300 (-3) = 0 :=
  ⟨⟨by decide, by decide⟩,
    (SigmaW_SigmaZ_of_lt_one (demoCase ℝ) (1 / 2) 3600 35300 0 (by decide)).1,
    (SigmaW_SigmaZ_of_lt_one (demoCase ℝ) (1 / 2) 3600 35300 (-3) (by decide)).2⟩

/-! ## The change counter (C18) -/

/-- C18: after a call of `yAll` the counter `nParChanges` is what it was or
exactly one more (it is one more exactly when the change check fails), and
`ComputeParameterDependentVars` leaves it as it is.  The other functions of
the model (`rAll`, the `y`, `r` components, the population evaluators) write
no global: in the embedding they return a number and no globals. -/
theorem nParChanges_step (c : CaseConsts ℝ) (ix : ParIndex) (g : Globals ℝ) (t : ℝ)
    (a : Nat → ℝ) :
    ((yAll Real.exp c ix g t a).2.1.nParChanges = g.nParChanges
      ∨ (yAll Real.exp c ix g t a).2.1.nParChanges = g.nParChanges + 1)
    ∧ (yAll Real.exp c ix g t a).2.1.nParChanges
        = g.nParChanges
          + (if CompareParArrays a g.lastPar sizeof_Double_t c.iota then 0 else 1)
    ∧ (ComputeParameterDependentVars Real.exp c ix g a).1.nParChanges = g.nParChanges := by
  cases hcmp : CompareParArrays a g.lastPar sizeof_Double_t c.iota with
  | true =>
    have e := congrArg Prod.fst (yAll_of_hit Real.exp c ix g a t hcmp)
    simp only at e
    rw [e]
    simp [CPDV_nParChanges]
  | false =>
    have e := congrArg Prod.fst (yAll_of_miss Real.exp c ix g a t hcmp)
    simp only at e
    rw [e, withUnassigned_nParChanges]
    simp [CPDV_nParChanges]

/-! ## What the change check looks at (C20) -/

/-- C20: `yAll` hands `sizeof (Double_t) = 8` to `CompareParArrays` as the
element count, so for two arrays `a`, `b` that agree on the slots `0..7` the
change check gives the same answer and `yAll` counts the same number of
changes; and, the tolerance being nonnegative, an array that equals the last
accepted one on the slots `0..7`, whatever it holds in the slots from `8`
on, leaves the globals (the derived values, `lastPar`, `nParChanges`) and
itself unchanged. -/
theorem change_check_first_eight (c : CaseConsts ℝ) (ix : ParIndex) (g : Globals ℝ)
    (t : ℝ) (a b : Nat → ℝ) :
    sizeof_Double_t = 8
    ∧ ((∀ i < 8, a i = b i) →
        CompareParArrays a g.lastPar sizeof_Double_t c.iota
          = CompareParArrays b g.lastPar sizeof_Double_t c.iota
        ∧ (yAll Real.exp c ix g t a).2.1.nParChanges
          = (yAll Real.exp c ix g t b).2.1.nParChanges)
    ∧ (0 ≤ c.iota → (∀ i < 8, a i = g.lastPar i) →
        (yAll Real.exp c ix g t a).2.1 = g ∧ (yAll Real.exp c ix g t a).2.2 = a) := by
  refine ⟨rfl, fun hab => ?_, fun hiota hal => ?_⟩
  · have hc : CompareParArrays a g.lastPar sizeof_Double_t c.iota
        = CompareParArrays b g.lastPar sizeof_Double_t c.iota := by
      rw [Bool.eq_iff_iff, CompareParArrays_eq_true_iff, CompareParArrays_eq_true_iff]
      constructor
      · intro h i hi
        rw [← hab i hi]
        exact h i hi
      · intro h i hi
        rw [hab i hi]
        exact h i hi
    refine ⟨hc, ?_⟩
    cases hcmp : CompareParArrays a g.lastPar sizeof_Double_t c.iota with
    | true =>
      have ea := congrArg Prod.fst (yAll_of_hit Real.exp c ix g a t hcmp)
      have eb := congrArg Prod.fst (yAll_of_hit Real.exp c ix g b t (hc ▸ hcmp))
      simp only at ea eb
      rw [ea, eb]
    | false =>
      have ea := congrArg Prod.fst (yAll_of_miss Real.exp c ix g a t hcmp)
      have eb := congrArg Prod.fst (yAll_of_miss Real.exp c ix g b t (hc ▸ hcmp))
      simp only at ea eb
      rw [ea, eb, withUnassigned_nParChanges, withUnassigned_nParChanges]
  · have hit : CompareParArrays a g.lastPar sizeof_Double_t c.iota = true := by
      refine (CompareParArrays_eq_true_iff _ _ _ _).2 fun i hi => ?_
      rw [hal i hi, sub_self, abs_zero]
      exact hiota
    rw [yAll_of_hit Real.exp c ix g a t hit]
    exact ⟨rfl, rfl⟩


/-! ## The shipped case table (C19) -/

/-- C19: the first record of `bdn_cases` is the case `137i07`, with
`T_capt = 6000`, `T_bkgd = 101000`, `T_cycle = 246000`, so that
`0 < T_capt ≤ T_bkgd ≤ T_cycle`; its half-life values are `2490`, `24500`
and `229080`, which are positive, and so are the lifetimes
`halflife / ln 2`. -/
theorem bdn_cases_137i07_invariant :
    ∃ e : bdn_case_t ℝ, (bdn_cases ℝ).head? = some e
      ∧ e.code = some "137i07"
      ∧ e.T_capt = 6000 ∧ e.T_bkgd = 101000 ∧ e.T_cycle = 246000
      ∧ 0 < e.T_capt ∧ e.T_capt ≤ e.T_bkgd ∧ e.T_bkgd ≤ e.T_cycle
      ∧ e.halflife1.1 = 2490 ∧ e.halflife2.1 = 24500 ∧ e.halflife3.1 = 229080
      ∧ 0 < e.halflife1.1 ∧ 0 < e.halflife2.1 ∧ 0 < e.halflife3.1
      ∧ 0 < e.halflife1.1 / Real.log 2 ∧ 0 < e.halflife2.1 / Real.log 2
      ∧ 0 < e.halflife3.1 / Real.log 2 := by
  have hlog : 0 < Real.log 2 := Real.log_pos (by norm_num)
  refine ⟨_, rfl, rfl, ?_, ?_, ?_, ?_, ?_, ?_, ?_, ?_, ?_, ?_, ?_, ?_, ?_, ?_, ?_⟩
  all_goals first
    | (apply div_pos _ hlog; norm_num)
    | norm_num


/-! ## The modified lifetimes (C15) -/

/-- The six modified lifetimes, as the run stores them: each is computed from
the slot of its own shift in the array that the run leaves behind. -/
theorem CPDV_lifetimes {K : Type} [LinearOrderedField K] [FloorRing K]
    (Exp : K → K) (c : CaseConsts K) (ix : ParIndex) (g : Globals K) (a : Nat → K)
    (g' : Globals K) (a' : Nat → K)
    (hrun : ComputeParameterDependentVars Exp c ix g a = (g', a')) :
    g'.tT1 = 1 / (1 / c.t1 + a' ix.gammaT1 / 1000)
    ∧ g'.tT2 = 1 / (1 / c.t2 + a' ix.gammaT2 / 1000)
    ∧ g'.tT3 = 1 / (1 / c.t3 + a' ix.gammaT3 / 1000)
    ∧ g'.tU1 = 1 / (1 / c.t1 + a' ix.gammaU1 / 1000)
    ∧ g'.tU2 = 1 / (1 / c.t2 + a' ix.gammaU2 / 1000)
    ∧ g'.tU3 = 1 / (1 / c.t3 + a' ix.gammaU3 / 1000) := by
  obtain rfl : g' = (ComputeParameterDependentVars Exp c ix g a).1 := by rw [hrun]
  obtain rfl : a' = (ComputeParameterDependentVars Exp c ix g a).2 := by rw [hrun]
  exact ⟨rfl, rfl, rfl, rfl, rfl, rfl⟩

/-- In a valid layout the slot `gammaT3` is none of the other five slots of
rate shifts. -/
theorem ParIndex.Valid.shift_ne_gammaT3 (ix : ParIndex) (nPars : Nat) (h : ix.Valid nPars) :
    ix.gammaT1 ≠ ix.gammaT3 ∧ ix.gammaT2 ≠ ix.gammaT3 ∧ ix.gammaU1 ≠ ix.gammaT3
    ∧ ix.gammaU2 ≠ ix.gammaT3 ∧ ix.gammaU3 ≠ ix.gammaT3 := by
  have hn := h.1
  simp only [ParIndex.slots, List.nodup_cons, List.mem_cons, List.mem_singleton, not_or] at hn
  refine ⟨?_, ?_, ?_, ?_, ?_⟩ <;> intro he <;> simp [he] at hn

/-- The stored `tT3` in terms of the caller's array: its shift is the value
in the slot `gammaT2` when `b134sbFlag` is set, and the value in the slot
`gammaT3` otherwise. -/
theorem CPDV_tT3 (c : CaseConsts ℝ) (ix : ParIndex) (g : Globals ℝ) (a : Nat → ℝ) :
    (ComputeParameterDependentVars Real.exp c ix g a).1.tT3
      = 1 / (1 / c.t3 + (if c.b134sbFlag then a ix.gammaT2 else a ix.gammaT3) / 1000) := by
  have e3 := (CPDV_lifetimes Real.exp c ix g a
    (ComputeParameterDependentVars Real.exp c ix g a).1
    (ComputeParameterDependentVars Real.exp c ix g a).2 rfl).2.2.1
  have h3 : (ComputeParameterDependentVars Real.exp c ix g a).2 ix.gammaT3
      = if c.b134sbFlag then a ix.gammaT2 else a ix.gammaT3 := by
    rw [CPDV_array]
    split
    · exact Function.update_same _ _ _
    · rfl
  rw [h3] at e3
  exact e3

/-- C15, as the code has it: in a valid layout, after
`ComputeParameterDependentVars (a)` each modified lifetime is
`1 / (1 / t_g + shift / 1000)` with `t_g` the nominal lifetime of its
generation, and `shift` the value that the caller supplied in the slot of
that lifetime (`tT1` from `gammaT1`, ..., `tU3` from `gammaU3`), except that
when `b134sbFlag` is set the shift of `tT3` is the value supplied in the slot
`gammaT2`; with all six shifts zero and nonzero nominal lifetimes,
`tTg = tUg = t_g`. -/
theorem modified_lifetimes (c : CaseConsts ℝ) (ix : ParIndex) (g : Globals ℝ)
    (a : Nat → ℝ) (hix : ix.Valid c.nPars) :
    (ComputeParameterDependentVars Real.exp c ix g a).1.tT1
        = 1 / (1 / c.t1 + a ix.gammaT1 / 1000)
    ∧ (ComputeParameterDependentVars Real.exp c ix g a).1.tT2
        = 1 / (1 / c.t2 + a ix.gammaT2 / 1000)
    ∧ (ComputeParameterDependentVars Real.exp c ix g a).1.tT3
        = 1 / (1 / c.t3 + (if c.b134sbFlag then a ix.gammaT2 else a ix.gammaT3) / 1000)
    ∧ (ComputeParameterDependentVars Real.exp c ix g a).1.tU1
        = 1 / (1 / c.t1 + a ix.gammaU1 / 1000)
    ∧ (ComputeParameterDependentVars Real.exp c ix g a).1.tU2
        = 1 / (1 / c.t2 + a ix.gammaU2 / 1000)
    ∧ (ComputeParameterDependentVars Real.exp c ix g a).1.tU3
        = 1 / (1 / c.t3 + a ix.gammaU3 / 1000)
    ∧ (a ix.gammaT1 = 0 → a ix.gammaT2 = 0 → a ix.gammaT3 = 0 → a ix.gammaU1 = 0 →
        a ix.gammaU2 = 0 → a ix.gammaU3 = 0 →
        (ComputeParameterDependentVars Real.exp c ix g a).1.tT1 = c.t1
        ∧ (ComputeParameterDependentVars Real.exp c ix g a).1.tU1 = c.t1
        ∧ (ComputeParameterDependentVars Real.exp c ix g a).1.tT2 = c.t2
        ∧ (ComputeParameterDependentVars Real.exp c ix g a).1.tU2 = c.t2
        ∧ (ComputeParameterDependentVars Real.exp c ix g a).1.tT3 = c.t3
        ∧ (ComputeParameterDependentVars Real.exp c ix g a).1.tU3 = c.t3) := by
  obtain ⟨e1, e2, e3, e4, e5, e6⟩ := CPDV_lifetimes Real.exp c ix g a
    (ComputeParameterDependentVars Real.exp c ix g a).1
    (ComputeParameterDependentVars Real.exp c ix g a).2 rfl
  obtain ⟨n1, n2, n4, n5, n6⟩ := ParIndex.Valid.shift_ne_gammaT3 ix c.nPars hix
  have harr : ∀ j, j ≠ ix.gammaT3 →
      (ComputeParameterDependentVars Real.exp c ix g a).2 j = a j := by
    intro j hj
    rw [CPDV_array]
    split
    · exact Function.update_noteq hj _ _
    · rfl
  have h3 : (ComputeParameterDependentVars Real.exp c ix g a).2 ix.gammaT3
      = if c.b134sbFlag then a ix.gammaT2 else a ix.gammaT3 := by
    rw [CPDV_array]
    split
    · exact Function.update_same _ _ _
    · rfl
  rw [harr _ n1] at e1
  rw [harr _ n2] at e2
  rw [h3] at e3
  rw [harr _ n4] at e4
  rw [harr _ n5] at e5
  rw [harr _ n6] at e6
  refine ⟨e1, e2, e3, e4, e5, e6, fun z1 z2 z3 z4 z5 z6 => ?_⟩
  rw [e1, e2, e3, e4, e5, e6, z1, z2, z3, z4, z5, z6]
  simp

/-- Instance of the amended C15 at `demoCase`, `demoLayout`, `demoPar`. -/
theorem modified_lifetimes_witness :
    demoLayout.Valid (demoCase ℝ).nPars
    ∧ (ComputeParameterDependentVars Real.exp (demoCase ℝ) demoLayout (zeroGlobals ℝ)
        (demoPar ℝ)).1.tT3
      = 1 / (1 / (demoCase ℝ).t3
          + (if (demoCase ℝ).b134sbFlag then demoPar ℝ demoLayout.gammaT2
              else demoPar ℝ demoLayout.gammaT3) / 1000) :=
  have hv : demoLayout.Valid (demoCase ℝ).nPars := by
    show demoLayout.Valid 20
    decide
  ⟨hv, (modified_lifetimes (demoCase ℝ) demoLayout (zeroGlobals ℝ) (demoPar ℝ) hv).2.2.1⟩

/-- C15 fails as stated.  With `b134sbFlag` set, and the caller's array
holding the shift `1` in the slot `gammaT2` and `0` in the slot `gammaT3`,
the run stores `tT3 = 1 / (1 / t3 + 1 / 1000)`, which is not
`1 / (1 / t3 + 0 / 1000)`, the value for the caller's `gammaT3`. -/
theorem tT3_ignores_gammaT3_under_flag :
    Function.update (demoPar ℝ) demoLayout.gammaT2 1 demoLayout.gammaT3 = 0
    ∧ (ComputeParameterDependentVars Real.exp
          { demoCase ℝ with b134sbFlag := true } demoLayout (zeroGlobals ℝ)
          (Function.update (demoPar ℝ) demoLayout.gammaT2 1)).1.tT3
        = 1 / (1 / (demoCase ℝ).t3 + 1 / 1000)
    ∧ (ComputeParameterDependentVars Real.exp
          { demoCase ℝ with b134sbFlag := true } demoLayout (zeroGlobals ℝ)
          (Function.update (demoPar ℝ) demoLayout.gammaT2 1)).1.tT3
        ≠ 1 / (1 / (demoCase ℝ).t3
            + Function.update (demoPar ℝ) demoLayout.gammaT2 1 demoLayout.gammaT3 / 1000) := by
  have h := CPDV_tT3 { demoCase ℝ with b134sbFlag := true } demoLayout
    (zeroGlobals ℝ) (Function.update (demoPar ℝ) demoLayout.gammaT2 1)
  have h0 : Function.update (demoPar ℝ) demoLayout.gammaT2 1 demoLayout.gammaT3 = 0 := by
    simp [Function.update, demoLayout, demoPar]
  have h1 : Function.update (demoPar ℝ) demoLayout.gammaT2 1 demoLayout.gammaT2 = 1 :=
    Function.update_same _ _ _
  refine ⟨h0, ?_, ?_⟩
  · rw [h, h1]
    rfl
  · rw [h, h1, h0]
    norm_num [demoCase]


/-! ## Non-negativity of the T and V populations (C13) -/

/-- For `0 ≤ rho ≤ 1`, `tCap > 0`, `tau > 0` and `n ≥ 0` the sum
`SigmaT (rho, tau, n)` is nonnegative. -/
theorem SigmaT_nonneg (c : CaseConsts ℝ) (rho tau : ℝ) (n : Int)
    (h0 : 0 ≤ rho) (h1 : rho ≤ 1) (hCap : 0 < c.tCap) (htau : 0 < tau) (hn : 0 ≤ n) :
    0 ≤ SigmaT Real.exp c rho tau n := by
  obtain ⟨m, rfl⟩ := Int.eq_ofNat_of_zero_le hn
  rw [SigmaT_natCast]
  have he1 : Real.exp (-c.tCap / tau) < 1 := exp_neg_div_lt_one _ _ hCap htau
  have he0 : 0 < Real.exp (-c.tCap / tau) := Real.exp_pos _
  have hx0 : 0 ≤ rho * Real.exp (-c.tCap / tau) := mul_nonneg h0 he0.le
  have hx1 : rho * Real.exp (-c.tCap / tau) < 1 := by nlinarith
  have hp : (rho * Real.exp (-c.tCap / tau)) ^ m ≤ 1 := pow_le_one₀ hx0 hx1.le
  exact div_nonneg (by linarith) (by linarith)

/-- The injection index is nonnegative from `tBac` on. -/
theorem Ceil_nonneg_of_le (c : CaseConsts ℝ) (t : ℝ) (hCap : 0 < c.tCap) (ht : c.tBac ≤ t) :
    0 ≤ Ceil ((t - c.tBac) / c.tCap) :=
  Int.ceil_nonneg (div_nonneg (by linarith) hCap.le)

/-- The amplitudes of the T populations, as the run stores them. -/
theorem CPDV_ampT {K : Type} [LinearOrderedField K] [FloorRing K]
    (Exp : K → K) (c : CaseConsts K) (ix : ParIndex) (g : Globals K) (a : Nat → K)
    (g' : Globals K) (a' : Nat → K)
    (hrun : ComputeParameterDependentVars Exp c ix g a = (g', a')) :
    g'.ampT1 = a' ix.r1 * c.tCap * a' ix.p
    ∧ g'.ampT2 = a' ix.r2 * c.tCap * a' ix.p
    ∧ g'.ampT3 = a' ix.r3 * c.tCap * a' ix.p := by
  obtain rfl : g' = (ComputeParameterDependentVars Exp c ix g a).1 := by rw [hrun]
  obtain rfl : a' = (ComputeParameterDependentVars Exp c ix g a).2 := by rw [hrun]
  exact ⟨rfl, rfl, rfl⟩

/-- The capture term of the V populations is nonnegative from `tBac` on,
when the amplitudes are nonnegative and the lifetimes positive. -/
theorem Vcap_nonneg (c : CaseConsts ℝ) (g : Globals ℝ) (i : Int) (a : Nat → ℝ) (t : ℝ)
    (hCap : 0 < c.tCap) (ht : c.tBac ≤ t)
    (hA1 : 0 ≤ g.ampV1) (hA2 : 0 ≤ g.ampV2) (hA3 : 0 ≤ g.ampV3)
    (hU1 : 0 < g.tU1) (hU2 : 0 < g.tU2) (hU3 : 0 < g.tU3) :
    0 ≤ Vcap Real.exp c g i a t := by
  have hn := Ceil_nonneg_of_le c t hCap ht
  have s1 := SigmaT_nonneg c 1 g.tU1 _ zero_le_one le_rfl hCap hU1 hn
  have s2 := SigmaT_nonneg c 1 g.tU2 _ zero_le_one le_rfl hCap hU2 hn
  have s3 := SigmaT_nonneg c 1 g.tU3 _ zero_le_one le_rfl hCap hU3 hn
  unfold Vcap
  simp only []
  split_ifs <;> first
    | exact le_rfl
    | exact mul_nonneg (mul_nonneg hA1 s1) (Real.exp_pos _).le
    | exact mul_nonneg (mul_nonneg hA2 s2) (Real.exp_pos _).le
    | exact mul_nonneg (mul_nonneg hA3 s3) (Real.exp_pos _).le

/-- In a valid layout the slot `gammaT3` is none of the slots of the
production rates, of `p` and of `rho`. -/
theorem ParIndex.Valid.rate_ne_gammaT3 (ix : ParIndex) (nPars : Nat) (h : ix.Valid nPars) :
    ix.r1 ≠ ix.gammaT3 ∧ ix.r2 ≠ ix.gammaT3 ∧ ix.r3 ≠ ix.gammaT3
    ∧ ix.p ≠ ix.gammaT3 ∧ ix.rho ≠ ix.gammaT3 := by
  have hn := h.1
  simp only [ParIndex.slots, List.nodup_cons, List.mem_cons, List.mem_singleton, not_or] at hn
  refine ⟨?_, ?_, ?_, ?_, ?_⟩ <;> intro he <;> simp [he] at hn

/-- The array that a run leaves behind holds, in every slot but `gammaT3`,
what the caller supplied. -/
theorem CPDV_array_of_ne {K : Type} [LinearOrderedField K] [FloorRing K]
    (Exp : K → K) (c : CaseConsts K) (ix : ParIndex) (g : Globals K) (a : Nat → K)
    (j : Nat) (hj : j ≠ ix.gammaT3) :
    (ComputeParameterDependentVars Exp c ix g a).2 j = a j := by
  rw [CPDV_array]
  split
  · exact Function.update_noteq hj _ _
  · rfl

/-- C13: in a valid layout, for a parameter array with `r_i ≥ 0`,
`0 ≤ p ≤ 1`, `0 ≤ rho ≤ 1`, case constants `tCap > 0` and `0 < tBac ≤ tCyc`,
and the globals `g'` and array `a'` that `ComputeParameterDependentVars (a)`
leaves behind, with positive modified lifetimes, `Ttot (i, a, t) ≥ 0` and
`Vtot (i, a, t) ≥ 0` for every species index `i` and every real `t`. -/
theorem Ttot_Vtot_nonneg (c : CaseConsts ℝ) (ix : ParIndex) (g : Globals ℝ)
    (a : Nat → ℝ) (g' : Globals ℝ) (a' : Nat → ℝ)
    (hrun : ComputeParameterDependentVars Real.exp c ix g a = (g', a'))
    (hix : ix.Valid c.nPars)
    (hr1 : 0 ≤ a ix.r1) (hr2 : 0 ≤ a ix.r2) (hr3 : 0 ≤ a ix.r3)
    (hp0 : 0 ≤ a ix.p) (hp1 : a ix.p ≤ 1) (hrho0 : 0 ≤ a ix.rho) (hrho1 : a ix.rho ≤ 1)
    (hCap : 0 < c.tCap) (hBac : 0 < c.tBac) (hBC : c.tBac ≤ c.tCyc)
    (hT1 : 0 < g'.tT1) (hT2 : 0 < g'.tT2) (hT3 : 0 < g'.tT3)
    (hU1 : 0 < g'.tU1) (hU2 : 0 < g'.tU2) (hU3 : 0 < g'.tU3) :
    ∀ (i : Int) (t : ℝ),
      0 ≤ Ttot Real.exp c ix g' i a' t ∧ 0 ≤ Vtot Real.exp c g' i a' t := by
  obtain ⟨eV1, eV2, eV3, -⟩ := CPDV_initial_values Real.exp c ix g a g' a' hrun
  obtain ⟨aT1, aT2, aT3⟩ := CPDV_ampT Real.exp c ix g a g' a' hrun
  obtain ⟨aV1, aV2, aV3⟩ := CPDV_ampV Real.exp c ix g a g' a' hrun
  obtain ⟨n1, n2, n3, n4, n5⟩ := ParIndex.Valid.rate_ne_gammaT3 ix c.nPars hix
  have ha : a' = (ComputeParameterDependentVars Real.exp c ix g a).2 := by rw [hrun]
  have q1 : a' ix.r1 = a ix.r1 := by rw [ha]; exact CPDV_array_of_ne _ _ _ _ _ _ n1
  have q2 : a' ix.r2 = a ix.r2 := by rw [ha]; exact CPDV_array_of_ne _ _ _ _ _ _ n2
  have q3 : a' ix.r3 = a ix.r3 := by rw [ha]; exact CPDV_array_of_ne _ _ _ _ _ _ n3
  have q4 : a' ix.p = a ix.p := by rw [ha]; exact CPDV_array_of_ne _ _ _ _ _ _ n4
  have q5 : a' ix.rho = a ix.rho := by rw [ha]; exact CPDV_array_of_ne _ _ _ _ _ _ n5
  rw [q1, q4] at aT1 aV1
  rw [q2, q4] at aT2 aV2
  rw [q3, q4] at aT3 aV3
  have hq : 0 ≤ 1 - a ix.p := by linarith
  have hT1a : 0 ≤ g'.ampT1 := by rw [aT1]; positivity
  have hT2a : 0 ≤ g'.ampT2 := by rw [aT2]; positivity
  have hT3a : 0 ≤ g'.ampT3 := by rw [aT3]; positivity
  have hV1a : 0 ≤ g'.ampV1 := by rw [aV1]; positivity
  have hV2a : 0 ≤ g'.ampV2 := by rw [aV2]; positivity
  have hV3a : 0 ≤ g'.ampV3 := by rw [aV3]; positivity
  have hCyc : 0 < c.tCyc := lt_of_lt_of_le hBac hBC
  have hcap : ∀ (i : Int) (t : ℝ), c.tBac ≤ t → 0 ≤ Vcap Real.exp c g' i a' t := fun i t ht =>
    Vcap_nonneg c g' i a' t hCap ht hV1a hV2a hV3a hU1 hU2 hU3
  have hV10 : 0 ≤ g'.V10 := by
    rw [eV1]
    exact div_nonneg (hcap 1 _ hBC) (by linarith [exp_neg_div_lt_one c.tCyc g'.tU1 hCyc hU1])
  have hV20 : 0 ≤ g'.V20 := by
    rw [eV2]
    exact div_nonneg (hcap 2 _ hBC) (by linarith [exp_neg_div_lt_one c.tCyc g'.tU2 hCyc hU2])
  have hV30 : 0 ≤ g'.V30 := by
    rw [eV3]
    exact div_nonneg (hcap 3 _ hBC) (by linarith [exp_neg_div_lt_one c.tCyc g'.tU3 hCyc hU3])
  intro i t
  constructor
  · unfold Ttot
    simp only []
    split_ifs with hw <;> first
      | exact le_rfl
      | (have hn := Ceil_nonneg_of_le c t hCap hw.1
         rw [q5]
         first
          | exact mul_nonneg (mul_nonneg hT1a
              (SigmaT_nonneg c _ _ _ hrho0 hrho1 hCap hT1 hn)) (Real.exp_pos _).le
          | exact mul_nonneg (mul_nonneg hT2a
              (SigmaT_nonneg c _ _ _ hrho0 hrho1 hCap hT2 hn)) (Real.exp_pos _).le
          | exact mul_nonneg (mul_nonneg hT3a
              (SigmaT_nonneg c _ _ _ hrho0 hrho1 hCap hT3 hn)) (Real.exp_pos _).le)
  · have p1 := mul_nonneg hV10 (Real.exp_pos (-t / g'.tU1)).le
    have p2 := mul_nonneg hV20 (Real.exp_pos (-t / g'.tU2)).le
    have p3 := mul_nonneg hV30 (Real.exp_pos (-t / g'.tU3)).le
    have hcap' : (c.tBac ≤ t ∧ t ≤ c.tCyc) → 0 ≤ Vcap Real.exp c g' i a' t :=
      fun hw => hcap i t hw.1
    unfold Vtot
    simp only []
    split_ifs <;> first
      | linarith
      | (have hv := hcap' (by assumption); linarith)


/-- The run on `demoCase`, `demoLayout`, `zeroGlobals`, `demoPar` stores
positive modified lifetimes of the trapped populations. -/
theorem demo_run_positive_T :
    0 < (ComputeParameterDependentVars Real.exp (demoCase ℝ) demoLayout (zeroGlobals ℝ)
        (demoPar ℝ)).1.tT1
    ∧ 0 < (ComputeParameterDependentVars Real.exp (demoCase ℝ) demoLayout (zeroGlobals ℝ)
        (demoPar ℝ)).1.tT2
    ∧ 0 < (ComputeParameterDependentVars Real.exp (demoCase ℝ) demoLayout (zeroGlobals ℝ)
        (demoPar ℝ)).1.tT3 := by
  obtain ⟨e1, e2, e3, -⟩ := CPDV_lifetimes Real.exp (demoCase ℝ) demoLayout (zeroGlobals ℝ)
    (demoPar ℝ)
    (ComputeParameterDependentVars Real.exp (demoCase ℝ) demoLayout (zeroGlobals ℝ)
      (demoPar ℝ)).1
    (ComputeParameterDependentVars Real.exp (demoCase ℝ) demoLayout (zeroGlobals ℝ)
      (demoPar ℝ)).2 rfl
  rw [CPDV_array] at e1 e2 e3
  refine ⟨?_, ?_, ?_⟩
  · rw [e1]; norm_num [demoCase, demoPar, demoLayout]
  · rw [e2]; norm_num [demoCase, demoPar, demoLayout]
  · rw [e3]; norm_num [demoCase, demoPar, demoLayout]

/-- The array `demoPar` on `demoLayout` is in the physical range. -/
theorem demoPar_physical :
    (0 : ℝ) ≤ demoPar ℝ demoLayout.r1 ∧ (0 : ℝ) ≤ demoPar ℝ demoLayout.r2
    ∧ (0 : ℝ) ≤ demoPar ℝ demoLayout.r3
    ∧ (0 : ℝ) ≤ demoPar ℝ demoLayout.p ∧ demoPar ℝ demoLayout.p ≤ 1
    ∧ (0 : ℝ) < demoPar ℝ demoLayout.rho ∧ demoPar ℝ demoLayout.rho ≤ 1 := by
  norm_num [demoPar, demoLayout]

/-- Instance of C13 at `demoCase`, `demoLayout`, `zeroGlobals`, `demoPar`:
species 1 at `t = 150000`. -/
theorem Ttot_Vtot_nonneg_witness :
    (demoLayout.Valid (demoCase ℝ).nPars ∧ (0 : ℝ) < (demoCase ℝ).tCap
      ∧ (0 : ℝ) ≤ demoPar ℝ demoLayout.r1 ∧ demoPar ℝ demoLayout.p ≤ 1)
    ∧ 0 ≤ Ttot Real.exp (demoCase ℝ) demoLayout
        (ComputeParameterDependentVars Real.exp (demoCase ℝ) demoLayout (zeroGlobals ℝ)
          (demoPar ℝ)).1 1
        (ComputeParameterDependentVars Real.exp (demoCase ℝ) demoLayout (zeroGlobals ℝ)
          (demoPar ℝ)).2 150000
    ∧ 0 ≤ Vtot Real.exp (demoCase ℝ)
        (ComputeParameterDependentVars Real.exp (demoCase ℝ) demoLayout (zeroGlobals ℝ)
          (demoPar ℝ)).1 1
        (ComputeParameterDependentVars Real.exp (demoCase ℝ) demoLayout (zeroGlobals ℝ)
          (demoPar ℝ)).2 150000 :=
  have hv : demoLayout.Valid (demoCase ℝ).nPars := by
    show demoLayout.Valid 20
    decide
  have hCap : (0 : ℝ) < (demoCase ℝ).tCap := by norm_num [demoCase]
  ⟨⟨hv, hCap, demoPar_physical.1, demoPar_physical.2.2.2.2.1⟩,
    Ttot_Vtot_nonneg (demoCase ℝ) demoLayout (zeroGlobals ℝ) (demoPar ℝ)
      (ComputeParameterDependentVars Real.exp (demoCase ℝ) demoLayout (zeroGlobals ℝ)
        (demoPar ℝ)).1
      (ComputeParameterDependentVars Real.exp (demoCase ℝ) demoLayout (zeroGlobals ℝ)
        (demoPar ℝ)).2 rfl hv
      demoPar_physical.1 demoPar_physical.2.1 demoPar_physical.2.2.1
      demoPar_physical.2.2.2.1 demoPar_physical.2.2.2.2.1
      demoPar_physical.2.2.2.2.2.1.le demoPar_physical.2.2.2.2.2.2
      hCap demo_run_positive.1 demo_run_positive.2.1
      demo_run_positive_T.1 demo_run_positive_T.2.1 demo_run_positive_T.2.2
      demo_run_positive.2.2.2.1 demo_run_positive.2.2.2.2.1 demo_run_positive.2.2.2.2.2
      1 150000⟩


/-! ## The sign of the W capture term (C14) -/

/-- The geometric sum that starts at the first power. -/
theorem geom_sum_shift (x : ℝ) (hx : x ≠ 1) (m : Nat) :
    (x ^ (m + 1) - x) / (x - 1) = ∑ k in Finset.range m, x ^ (k + 1) := by
  have hg := geom_sum_eq hx m
  have hne : x - 1 ≠ 0 := sub_ne_zero.2 hx
  rw [Finset.sum_congr rfl (fun k _ => pow_succ' x k), ← Finset.mul_sum, hg]
  field_simp
  ring

/-- Without regularization (`iota = 0`), for `0 < rho ≤ 1`, `tCap > 0`,
positive lifetimes and `rho * expT ≠ expU`, the sum `SigmaW` is nonnegative
at every injection count. -/
theorem SigmaW_nonneg_of_iota_eq_zero (c : CaseConsts ℝ) (rho tT tU : ℝ) (n : Int)
    (hiota : c.iota = 0) (h0 : 0 < rho) (h1 : rho ≤ 1) (hCap : 0 < c.tCap)
    (hT : 0 < tT) (hU : 0 < tU)
    (hq : rho * Real.exp (-c.tCap / tT) ≠ Real.exp (-c.tCap / tU)) :
    0 ≤ SigmaW Real.exp c rho tT tU n := by
  unfold SigmaW
  simp only []
  split_ifs with hn
  swap
  · exact le_rfl
  obtain ⟨m, rfl⟩ : ∃ m : Nat, n = ((m + 1 : Nat) : Int) := ⟨(n - 1).toNat, by omega⟩
  have hm : 1 ≤ m := by omega
  have heT1 : Real.exp (-c.tCap / tT) < 1 := exp_neg_div_lt_one _ _ hCap hT
  have heT0 : 0 < Real.exp (-c.tCap / tT) := Real.exp_pos _
  have heU1 : Real.exp (-c.tCap / tU) < 1 := exp_neg_div_lt_one _ _ hCap hU
  have heU0 : 0 < Real.exp (-c.tCap / tU) := Real.exp_pos _
  generalize Real.exp (-c.tCap / tT) = eT at *
  generalize Real.exp (-c.tCap / tU) = b at *
  have ha0 : 0 < rho * eT := mul_pos h0 heT0
  have ha1 : rho * eT < 1 := by nlinarith
  have hane : rho * eT - 1 ≠ 0 := by linarith
  have hq1 : rho * eT / b ≠ 1 := by
    intro h
    apply hq
    rw [div_eq_one_iff_eq heU0.ne'] at h
    exact h
  have hqne : rho * eT / b - 1 ≠ 0 := sub_ne_zero.2 hq1
  have hA := geom_sum_shift (rho * eT) (ne_of_lt ha1) m
  have hB : b ^ (m + 1) * ((rho * eT / b) ^ (m + 1) - rho * eT / b) / (rho * eT / b - 1)
      = ∑ k in Finset.range m, b ^ (m + 1) * (rho * eT / b) ^ (k + 1) := by
    rw [mul_div_assoc, geom_sum_shift _ hq1 m, Finset.mul_sum]
  have hle : ∑ k in Finset.range m, b ^ (m + 1) * (rho * eT / b) ^ (k + 1)
      ≤ ∑ k in Finset.range m, (rho * eT) ^ (k + 1) := by
    apply Finset.sum_le_sum
    intro k hk
    have hkm : k + 1 ≤ m + 1 := by
      have := Finset.mem_range.1 hk
      omega
    have hbk : 0 < b ^ (k + 1) := pow_pos heU0 _
    have hpow : b ^ (m + 1) ≤ b ^ (k + 1) := pow_le_pow_of_le_one heU0.le heU1.le hkm
    have hak : 0 ≤ (rho * eT) ^ (k + 1) := pow_nonneg ha0.le _
    rw [div_pow, mul_div_assoc', div_le_iff₀ hbk]
    nlinarith
  have hbr : b ^ (m + 1) * ((rho * eT / b) ^ (m + 1) - rho * eT / b) / (rho * eT / b - 1)
      - ((rho * eT) ^ (m + 1) - rho * eT) / (rho * eT - 1) ≤ 0 := by
    rw [hA, hB]
    linarith
  have hden : rho * (b - 1) < 0 := by nlinarith
  simp only [hiota, add_zero, Power, zpow_natCast]
  exact mul_nonneg_of_nonpos_of_nonpos (div_nonpos_of_nonneg_of_nonpos zero_le_one hden.le) hbr


/-- The amplitudes of the W populations, as the run stores them. -/
theorem CPDV_ampW {K : Type} [LinearOrderedField K] [FloorRing K]
    (Exp : K → K) (c : CaseConsts K) (ix : ParIndex) (g : Globals K) (a : Nat → K)
    (g' : Globals K) (a' : Nat → K)
    (hrun : ComputeParameterDependentVars Exp c ix g a = (g', a')) :
    g'.ampW1 = a' ix.r1 * c.tCap * (1 - a' ix.rho) * a' ix.p
    ∧ g'.ampW2 = a' ix.r2 * c.tCap * (1 - a' ix.rho) * a' ix.p
    ∧ g'.ampW3 = a' ix.r3 * c.tCap * (1 - a' ix.rho) * a' ix.p := by
  obtain rfl : g' = (ComputeParameterDependentVars Exp c ix g a).1 := by rw [hrun]
  obtain rfl : a' = (ComputeParameterDependentVars Exp c ix g a).2 := by rw [hrun]
  exact ⟨rfl, rfl, rfl⟩

/-- Up to the end of the first capture interval the injection index is at
most one. -/
theorem Ceil_le_one_of_le (c : CaseConsts ℝ) (t : ℝ) (hCap : 0 < c.tCap)
    (ht : t ≤ c.tBac + c.tCap) : Ceil ((t - c.tBac) / c.tCap) ≤ 1 := by
  unfold Ceil
  rw [Int.ceil_le]
  push_cast
  rw [div_le_one hCap]
  linarith

/-- A nonnegative value stays nonnegative when a branch adds a nonnegative
term to it. -/
theorem ite_add_nonneg (P : Prop) [Decidable P] (x w : ℝ) (hx : 0 ≤ x) (hw : 0 ≤ w) :
    0 ≤ (if P then x + w else x) := by
  split_ifs
  · exact add_nonneg hx hw
  · exact hx

/-- The sum `SigmaW` is `0` below two injections. -/
theorem SigmaW_of_lt_two (c : CaseConsts ℝ) (rho tT tU : ℝ) (n : Int) (hn : ¬ n ≥ 2) :
    SigmaW Real.exp c rho tT tU n = 0 := by
  simp [SigmaW, hn]

/-- A lifetime of `T / ln 2` is a half-life of `T`. -/
theorem exp_neg_div_div_log_two (T : ℝ) (hT : T ≠ 0) :
    Real.exp (-T / (T / Real.log 2)) = 1 / 2 := by
  have hlog : Real.log 2 ≠ 0 := (Real.log_pos (by norm_num)).ne'
  have h : -T / (T / Real.log 2) = -Real.log 2 := by
    field_simp
    ring
  rw [h, Real.exp_neg, Real.exp_log (by norm_num)]
  norm_num

/-- The sum `SigmaW` at two injections, with `iota = 1 / 1000000`,
`rho = 3 / 1000000` and both lifetimes equal to `tCap / ln 2`. -/
theorem SigmaW_demo_value :
    SigmaW Real.exp (demoCaseT1 ℝ (6000 / Real.log 2)) (3 / 1000000)
        (6000 / Real.log 2) (6000 / Real.log 2) 2
      = -1999992999991 / 1333324666680000000 := by
  have he : Real.exp (-(demoCaseT1 ℝ (6000 / Real.log 2)).tCap / (6000 / Real.log 2))
      = 1 / 2 := exp_neg_div_div_log_two 6000 (by norm_num)
  unfold SigmaW
  simp only [ge_iff_le, le_refl, if_true, he, Power]
  norm_num [demoCaseT1, demoCase]

/-- C14 fails as stated.  With `iota = 1 / 1000000`, `tCap = 6000`, a
nominal lifetime `t1 = 6000 / ln 2` (a half-life of `6000`), and the array
`demoPar` with `rho = 3 / 1000000` (production rates `1`, `p = 1 / 2`, rate
shifts `0`), the run stores `tT1 = tU1 = 6000 / ln 2 > 0`, and at
`t = 113000`, between `tBac` and `tCyc` and with two injections counted,
`Wcap (1, a, t)` is negative. -/
theorem Wcap_negative :
    ((0 : ℝ) < (demoCaseT1 ℝ (6000 / Real.log 2)).iota
      ∧ (demoCaseT1 ℝ (6000 / Real.log 2)).iota < 1
      ∧ (0 : ℝ) ≤ Function.update (demoPar ℝ) demoLayout.rho (3 / 1000000) demoLayout.rho
      ∧ Function.update (demoPar ℝ) demoLayout.rho (3 / 1000000) demoLayout.rho ≤ 1
      ∧ (demoCaseT1 ℝ (6000 / Real.log 2)).tBac ≤ 113000
      ∧ (113000 : ℝ) ≤ (demoCaseT1 ℝ (6000 / Real.log 2)).tCyc
      ∧ 0 < (ComputeParameterDependentVars Real.exp (demoCaseT1 ℝ (6000 / Real.log 2))
          demoLayout (zeroGlobals ℝ)
          (Function.update (demoPar ℝ) demoLayout.rho (3 / 1000000))).1.tT1
      ∧ 0 < (ComputeParameterDependentVars Real.exp (demoCaseT1 ℝ (6000 / Real.log 2))
          demoLayout (zeroGlobals ℝ)
          (Function.update (demoPar ℝ) demoLayout.rho (3 / 1000000))).1.tU1)
    ∧ Wcap Real.exp (demoCaseT1 ℝ (6000 / Real.log 2)) demoLayout
        (ComputeParameterDependentVars Real.exp (demoCaseT1 ℝ (6000 / Real.log 2))
          demoLayout (zeroGlobals ℝ)
          (Function.update (demoPar ℝ) demoLayout.rho (3 / 1000000))).1 1
        (ComputeParameterDependentVars Real.exp (demoCaseT1 ℝ (6000 / Real.log 2))
          demoLayout (zeroGlobals ℝ)
          (Function.update (demoPar ℝ) demoLayout.rho (3 / 1000000))).2 113000
      < 0 := by
  have hlog : 0 < Real.log 2 := Real.log_pos (by norm_num)
  have harr : (ComputeParameterDependentVars Real.exp (demoCaseT1 ℝ (6000 / Real.log 2))
      demoLayout (zeroGlobals ℝ)
      (Function.update (demoPar ℝ) demoLayout.rho (3 / 1000000))).2
      = Function.update (demoPar ℝ) demoLayout.rho (3 / 1000000) := by
    rw [CPDV_array]
    rfl
  obtain ⟨eT1, -, -, eU1, -⟩ := CPDV_lifetimes Real.exp (demoCaseT1 ℝ (6000 / Real.log 2))
    demoLayout (zeroGlobals ℝ) (Function.update (demoPar ℝ) demoLayout.rho (3 / 1000000))
    (ComputeParameterDependentVars Real.exp (demoCaseT1 ℝ (6000 / Real.log 2))
      demoLayout (zeroGlobals ℝ)
      (Function.update (demoPar ℝ) demoLayout.rho (3 / 1000000))).1
    (ComputeParameterDependentVars Real.exp (demoCaseT1 ℝ (6000 / Real.log 2))
      demoLayout (zeroGlobals ℝ)
      (Function.update (demoPar ℝ) demoLayout.rho (3 / 1000000))).2 rfl
  obtain ⟨aW1, -⟩ := CPDV_ampW Real.exp (demoCaseT1 ℝ (6000 / Real.log 2))
    demoLayout (zeroGlobals ℝ) (Function.update (demoPar ℝ) demoLayout.rho (3 / 1000000))
    (ComputeParameterDependentVars Real.exp (demoCaseT1 ℝ (6000 / Real.log 2))
      demoLayout (zeroGlobals ℝ)
      (Function.update (demoPar ℝ) demoLayout.rho (3 / 1000000))).1
    (ComputeParameterDependentVars Real.exp (demoCaseT1 ℝ (6000 / Real.log 2))
      demoLayout (zeroGlobals ℝ)
      (Function.update (demoPar ℝ) demoLayout.rho (3 / 1000000))).2 rfl
  rw [harr] at eT1 eU1 aW1 ⊢
  have hrho : Function.update (demoPar ℝ) demoLayout.rho (3 / 1000000) demoLayout.rho
      = 3 / 1000000 := Function.update_same _ _ _
  have hg1 : Function.update (demoPar ℝ) demoLayout.rho (3 / 1000000) demoLayout.gammaT1
      = 0 := by
    simp [Function.update, demoLayout, demoPar]
  have hg4 : Function.update (demoPar ℝ) demoLayout.rho (3 / 1000000) demoLayout.gammaU1
      = 0 := by
    simp [Function.update, demoLayout, demoPar]
  have hr1 : Function.update (demoPar ℝ) demoLayout.rho (3 / 1000000) demoLayout.r1 = 1 := by
    simp [Function.update, demoLayout, demoPar]
  have hp : Function.update (demoPar ℝ) demoLayout.rho (3 / 1000000) demoLayout.p
      = 1 / 2 := by
    simp [Function.update, demoLayout, demoPar]
  have ht1 : (demoCaseT1 ℝ (6000 / Real.log 2)).t1 = 6000 / Real.log 2 := rfl
  have hts : (1 : ℝ) / (1 / (6000 / Real.log 2) + 0 / 1000) = 6000 / Real.log 2 := by
    rw [zero_div, add_zero, one_div_one_div]
  rw [hg1, ht1, hts] at eT1
  rw [hg4, ht1, hts] at eU1
  rw [hr1, hp, hrho] at aW1
  have hpos : (0 : ℝ) < 6000 / Real.log 2 := div_pos (by norm_num) hlog
  have hn : Ceil (((113000 : ℝ) - (demoCaseT1 ℝ (6000 / Real.log 2)).tBac)
      / (demoCaseT1 ℝ (6000 / Real.log 2)).tCap) = 2 := by
    unfold Ceil
    rw [Int.ceil_eq_iff]
    norm_num [demoCaseT1, demoCase]
  have hx : Real.exp (-((113000 : ℝ) - (demoCaseT1 ℝ (6000 / Real.log 2)).tBac
      - (((2 : Int) - 1 : Int) : ℝ) * (demoCaseT1 ℝ (6000 / Real.log 2)).tCap)
      / (6000 / Real.log 2)) = 1 / 2 := by
    have h6 : -((113000 : ℝ) - (demoCaseT1 ℝ (6000 / Real.log 2)).tBac
        - (((2 : Int) - 1 : Int) : ℝ) * (demoCaseT1 ℝ (6000 / Real.log 2)).tCap)
        = -6000 := by
      norm_num [demoCaseT1, demoCase]
    rw [h6]
    exact exp_neg_div_div_log_two 6000 (by norm_num)
  refine ⟨⟨by norm_num [demoCaseT1, demoCase], by norm_num [demoCaseT1, demoCase],
    by rw [hrho]; norm_num, by rw [hrho]; norm_num, by norm_num [demoCaseT1, demoCase],
    by norm_num [demoCaseT1, demoCase], by rw [eT1]; exact hpos, by rw [eU1]; exact hpos⟩, ?_⟩
  generalize (ComputeParameterDependentVars Real.exp (demoCaseT1 ℝ (6000 / Real.log 2))
      demoLayout (zeroGlobals ℝ)
      (Function.update (demoPar ℝ) demoLayout.rho (3 / 1000000))).1 = G at eT1 eU1 aW1 ⊢
  unfold Wcap
  simp only [if_true, hn, eT1, eU1, aW1, hrho, hx, SigmaW_demo_value]
  norm_num [demoCaseT1, demoCase]

/-! ## The start of capture (C12) -/

/-- A function that agrees, just above `t0`, with a continuous function `h`
converges from above to `h t0`. -/
theorem ConvergesFromAbove.of_continuous (f h : ℝ → ℝ) (t0 d0 : ℝ) (hd0 : 0 < d0)
    (hh : Continuous h) (heq : ∀ t, t0 < t → t < t0 + d0 → f t = h t) :
    ConvergesFromAbove f t0 (h t0) := by
  intro eps heps
  obtain ⟨d, hd, H⟩ := Metric.continuous_iff.1 hh t0 eps heps
  refine ⟨min d d0, lt_min hd hd0, fun t ht1 ht2 => ?_⟩
  have h1 : t < t0 + d := lt_of_lt_of_le ht2 (add_le_add_left (min_le_left _ _) _)
  have h2 : t < t0 + d0 := lt_of_lt_of_le ht2 (add_le_add_left (min_le_right _ _) _)
  rw [heq t ht1 h2, ← Real.dist_eq]
  apply H
  rw [Real.dist_eq, abs_lt]
  constructor <;> linarith

/-- A function converges from above to at most one value. -/
theorem ConvergesFromAbove.unique (f : ℝ → ℝ) (t0 L1 L2 : ℝ)
    (h1 : ConvergesFromAbove f t0 L1) (h2 : ConvergesFromAbove f t0 L2) : L1 = L2 := by
  by_contra hne
  have hpos : 0 < |L1 - L2| / 2 := half_pos (abs_pos.2 (sub_ne_zero.2 hne))
  obtain ⟨d1, hd1, H1⟩ := h1 _ hpos
  obtain ⟨d2, hd2, H2⟩ := h2 _ hpos
  have hm : 0 < min d1 d2 := lt_min hd1 hd2
  have ht1 : t0 < t0 + min d1 d2 / 2 := by linarith
  have a1 := H1 (t0 + min d1 d2 / 2) ht1 (by linarith [min_le_left d1 d2])
  have a2 := H2 (t0 + min d1 d2 / 2) ht1 (by linarith [min_le_right d1 d2])
  have htri : |L1 - L2| ≤ |f (t0 + min d1 d2 / 2) - L1| + |f (t0 + min d1 d2 / 2) - L2| := by
    have := abs_sub_le L1 (f (t0 + min d1 d2 / 2)) L2
    rwa [abs_sub_comm L1 (f (t0 + min d1 d2 / 2))] at this
  linarith

/-- In the first capture interval the injection index is one. -/
theorem Ceil_eq_one (c : CaseConsts ℝ) (t : ℝ) (hCap : 0 < c.tCap) (h1 : c.tBac < t)
    (h2 : t ≤ c.tBac + c.tCap) : Ceil ((t - c.tBac) / c.tCap) = 1 := by
  unfold Ceil
  rw [Int.ceil_eq_iff]
  constructor
  · push_cast
    rw [sub_self]
    exact div_pos (by linarith) hCap
  · push_cast
    rw [div_le_one hCap]
    linarith

/-- The sum `SigmaZ` is `0` below two injections. -/
theorem SigmaZ_of_lt_two (c : CaseConsts ℝ) (rho tT tU : ℝ) (n : Int) (hn : ¬ n ≥ 2) :
    SigmaZ Real.exp c rho tT tU n = 0 := by
  simp [SigmaZ, hn]

/-- The sum `SigmaT (1, tau, 1)` is `1` for `tCap > 0` and `tau > 0`. -/
theorem SigmaT_one_one (c : CaseConsts ℝ) (tau : ℝ) (hCap : 0 < c.tCap) (htau : 0 < tau) :
    SigmaT Real.exp c 1 tau 1 = 1 := by
  have he : Real.exp (-c.tCap / tau) < 1 := exp_neg_div_lt_one _ _ hCap htau
  have hne : (1 : ℝ) - 1 * Real.exp (-c.tCap / tau) ≠ 0 := by linarith
  unfold SigmaT Power
  simp only [zpow_one]
  exact div_self hne

/-- Just above `tBac` a time lies in both windows and in the first capture
interval. -/
theorem first_interval (c : CaseConsts ℝ) (hCap : 0 < c.tCap) (hBac : 0 < c.tBac) (t : ℝ)
    (h1 : c.tBac < t) (h2 : t < c.tBac + min c.tCap (c.tCyc - c.tBac)) :
    (0 ≤ t ∧ t ≤ c.tCyc) ∧ (c.tBac ≤ t ∧ t ≤ c.tCyc)
    ∧ Ceil ((t - c.tBac) / c.tCap) = 1 := by
  have hc : t < c.tBac + c.tCap := lt_of_lt_of_le h2 (add_le_add_left (min_le_left _ _) _)
  have hy : t < c.tBac + (c.tCyc - c.tBac) :=
    lt_of_lt_of_le h2 (add_le_add_left (min_le_right _ _) _)
  exact ⟨⟨by linarith, by linarith⟩, ⟨h1.le, by linarith⟩, Ceil_eq_one c t hCap h1 hc.le⟩

theorem first_interval_pos (c : CaseConsts ℝ) (hCap : 0 < c.tCap) (hBC : c.tBac < c.tCyc) :
    0 < min c.tCap (c.tCyc - c.tBac) :=
  lt_min hCap (by linarith)

/-- As `t` decreases to `tBac`, `Vtot` converges to the free decay at `tBac`
plus the amplitude of the first injection times `SigmaT (1, tU_i, 1)`. -/
theorem Vtot_converges (c : CaseConsts ℝ) (g : Globals ℝ) (a : Nat → ℝ)
    (hCap : 0 < c.tCap) (hBac : 0 < c.tBac) (hBC : c.tBac < c.tCyc) :
    ConvergesFromAbove (fun t => Vtot Real.exp c g 1 a t) c.tBac
        (g.V10 * Real.exp (-c.tBac / g.tU1) + g.ampV1 * SigmaT Real.exp c 1 g.tU1 1)
    ∧ ConvergesFromAbove (fun t => Vtot Real.exp c g 2 a t) c.tBac
        (g.V20 * Real.exp (-c.tBac / g.tU2) + g.ampV2 * SigmaT Real.exp c 1 g.tU2 1)
    ∧ ConvergesFromAbove (fun t => Vtot Real.exp c g 3 a t) c.tBac
        (g.V30 * Real.exp (-c.tBac / g.tU3) + g.ampV3 * SigmaT Real.exp c 1 g.tU3 1) := by
  have hd := first_interval_pos c hCap hBC
  refine ⟨?_, ?_, ?_⟩
  · have key := ConvergesFromAbove.of_continuous (fun t => Vtot Real.exp c g 1 a t)
      (fun t => g.V10 * Real.exp (-t / g.tU1)
        + g.ampV1 * SigmaT Real.exp c 1 g.tU1 1 * Real.exp (-(t - c.tBac) / g.tU1))
      c.tBac _ hd (by fun_prop) (fun t h1 h2 => by
        obtain ⟨w0, w1, hn⟩ := first_interval c hCap hBac t h1 h2
        simp [Vtot, Vcap, w0, w1, hn])
    simpa using key
  · have key := ConvergesFromAbove.of_continuous (fun t => Vtot Real.exp c g 2 a t)
      (fun t => g.V20 * Real.exp (-t / g.tU2)
        + g.ampV2 * SigmaT Real.exp c 1 g.tU2 1 * Real.exp (-(t - c.tBac) / g.tU2))
      c.tBac _ hd (by fun_prop) (fun t h1 h2 => by
        obtain ⟨w0, w1, hn⟩ := first_interval c hCap hBac t h1 h2
        simp [Vtot, Vcap, w0, w1, hn])
    simpa using key
  · have key := ConvergesFromAbove.of_continuous (fun t => Vtot Real.exp c g 3 a t)
      (fun t => g.V30 * Real.exp (-t / g.tU3)
        + g.ampV3 * SigmaT Real.exp c 1 g.tU3 1 * Real.exp (-(t - c.tBac) / g.tU3))
      c.tBac _ hd (by fun_prop) (fun t h1 h2 => by
        obtain ⟨w0, w1, hn⟩ := first_interval c hCap hBac t h1 h2
        simp [Vtot, Vcap, w0, w1, hn])
    simpa using key

/-- As `t` decreases to `tBac`, `Wtot` converges to the free decay at
`tBac`. -/
theorem Wtot_converges (c : CaseConsts ℝ) (ix : ParIndex) (g : Globals ℝ) (a : Nat → ℝ)
    (hCap : 0 < c.tCap) (hBac : 0 < c.tBac) (hBC : c.tBac < c.tCyc) :
    ConvergesFromAbove (fun t => Wtot Real.exp c ix g 1 a t) c.tBac
        (g.W10 * Real.exp (-c.tBac / g.tU1))
    ∧ ConvergesFromAbove (fun t => Wtot Real.exp c ix g 2 a t) c.tBac
        (g.W20 * Real.exp (-c.tBac / g.tU2))
    ∧ ConvergesFromAbove (fun t => Wtot Real.exp c ix g 3 a t) c.tBac
        (g.W30 * Real.exp (-c.tBac / g.tU3)) := by
  have hd := first_interval_pos c hCap hBC
  have h12 : ¬ (1 : Int) ≥ 2 := by decide
  refine ⟨?_, ?_, ?_⟩
  · exact ConvergesFromAbove.of_continuous (fun t => Wtot Real.exp c ix g 1 a t)
      (fun t => g.W10 * Real.exp (-t / g.tU1))
      c.tBac _ hd (by fun_prop) (fun t h1 h2 => by
        obtain ⟨w0, w1, hn⟩ := first_interval c hCap hBac t h1 h2
        simp [Wtot, Wcap, w0, w1, hn, SigmaW_of_lt_two c _ _ _ _ h12])
  · exact ConvergesFromAbove.of_continuous (fun t => Wtot Real.exp c ix g 2 a t)
      (fun t => g.W20 * Real.exp (-t / g.tU2))
      c.tBac _ hd (by fun_prop) (fun t h1 h2 => by
        obtain ⟨w0, w1, hn⟩ := first_interval c hCap hBac t h1 h2
        simp [Wtot, Wcap, w0, w1, hn, SigmaW_of_lt_two c _ _ _ _ h12])
  · exact ConvergesFromAbove.of_continuous (fun t => Wtot Real.exp c ix g 3 a t)
      (fun t => g.W30 * Real.exp (-t / g.tU3))
      c.tBac _ hd (by fun_prop) (fun t h1 h2 => by
        obtain ⟨w0, w1, hn⟩ := first_interval c hCap hBac t h1 h2
        simp [Wtot, Wcap, w0, w1, hn, SigmaW_of_lt_two c _ _ _ _ h12])

/-- As `t` decreases to `tBac`, `Ztot` converges to the free decay at
`tBac`. -/
theorem Ztot_converges (c : CaseConsts ℝ) (ix : ParIndex) (g : Globals ℝ) (a : Nat → ℝ)
    (hCap : 0 < c.tCap) (hBac : 0 < c.tBac) (hBC : c.tBac < c.tCyc) :
    ConvergesFromAbove (fun t => Ztot Real.exp c ix g 1 a t) c.tBac
        (g.Z10 * Real.exp (-c.tBac / g.tU1))
    ∧ ConvergesFromAbove (fun t => Ztot Real.exp c ix g 2 a t) c.tBac
        (g.Z20 * Real.exp (-c.tBac / g.tU2))
    ∧ ConvergesFromAbove (fun t => Ztot Real.exp c ix g 3 a t) c.tBac
        (g.Z30 * Real.exp (-c.tBac / g.tU3)) := by
  have hd := first_interval_pos c hCap hBC
  have h12 : ¬ (1 : Int) ≥ 2 := by decide
  refine ⟨?_, ?_, ?_⟩
  · have key := ConvergesFromAbove.of_continuous (fun t => Ztot Real.exp c ix g 1 a t)
      (fun t => g.Z10 * Real.exp (-t / g.tU1)
        + g.ampZ1 * (SigmaT Real.exp c (a ix.rho) g.tT1 1 * Real.exp (-(t - c.tBac) / g.tU1)
          - SigmaT Real.exp c (a ix.rho) g.tT1 1 * Real.exp (-(t - c.tBac) / g.tT1)))
      c.tBac _ hd (by fun_prop) (fun t h1 h2 => by
        obtain ⟨w0, w1, hn⟩ := first_interval c hCap hBac t h1 h2
        simp [Ztot, Zcap, w0, w1, hn, SigmaZ_of_lt_two c _ _ _ _ h12])
    simpa using key
  · have key := ConvergesFromAbove.of_continuous (fun t => Ztot Real.exp c ix g 2 a t)
      (fun t => g.Z20 * Real.exp (-t / g.tU2)
        + g.ampZ2 * (SigmaT Real.exp c (a ix.rho) g.tT2 1 * Real.exp (-(t - c.tBac) / g.tU2)
          - SigmaT Real.exp c (a ix.rho) g.tT2 1 * Real.exp (-(t - c.tBac) / g.tT2)))
      c.tBac _ hd (by fun_prop) (fun t h1 h2 => by
        obtain ⟨w0, w1, hn⟩ := first_interval c hCap hBac t h1 h2
        simp [Ztot, Zcap, w0, w1, hn, SigmaZ_of_lt_two c _ _ _ _ h12])
    simpa using key
  · have key := ConvergesFromAbove.of_continuous (fun t => Ztot Real.exp c ix g 3 a t)
      (fun t => g.Z30 * Real.exp (-t / g.tU3)
        + g.ampZ3 * (SigmaT Real.exp c (a ix.rho) g.tT3 1 * Real.exp (-(t - c.tBac) / g.tU3)
          - SigmaT Real.exp c (a ix.rho) g.tT3 1 * Real.exp (-(t - c.tBac) / g.tT3)))
      c.tBac _ hd (by fun_prop) (fun t h1 h2 => by
        obtain ⟨w0, w1, hn⟩ := first_interval c hCap hBac t h1 h2
        simp [Ztot, Zcap, w0, w1, hn, SigmaZ_of_lt_two c _ _ _ _ h12])
    simpa using key

/-- As `t` decreases to `tBac`, `Xtot` converges to the free decay at
`tBac`. -/
theorem Xtot_converges (c : CaseConsts ℝ) (ix : ParIndex) (g : Globals ℝ) (a : Nat → ℝ)
    (hCap : 0 < c.tCap) (hBac : 0 < c.tBac) (hBC : c.tBac < c.tCyc) :
    ConvergesFromAbove (fun t => Xtot Real.exp c ix g 2 a t) c.tBac
        (g.X20 * Real.exp (-c.tBac / g.tU2))
    ∧ ConvergesFromAbove (fun t => Xtot Real.exp c ix g 3 a t) c.tBac
        (g.X30 * Real.exp (-c.tBac / g.tU3)) := by
  have hd := first_interval_pos c hCap hBC
  have h12 : ¬ (1 : Int) ≥ 2 := by decide
  refine ⟨?_, ?_⟩
  · have key := ConvergesFromAbove.of_continuous (fun t => Xtot Real.exp c ix g 2 a t)
      (fun t => g.X20 * Real.exp (-t / g.tU2)
        + g.ampX2 * (SigmaT Real.exp c (a ix.rho) g.tT1 1 * Real.exp (-(t - c.tBac) / g.tU2)
          - SigmaT Real.exp c (a ix.rho) g.tT1 1 * Real.exp (-(t - c.tBac) / g.tT1)))
      c.tBac _ hd (by fun_prop) (fun t h1 h2 => by
        obtain ⟨w0, w1, hn⟩ := first_interval c hCap hBac t h1 h2
        simp [Xtot, Xcap, w0, w1, hn, SigmaZ_of_lt_two c _ _ _ _ h12])
    simpa using key
  · have key := ConvergesFromAbove.of_continuous (fun t => Xtot Real.exp c ix g 3 a t)
      (fun t => g.X30 * Real.exp (-t / g.tU3)
        + g.ampX3 * (SigmaT Real.exp c (a ix.rho) g.tT2 1 * Real.exp (-(t - c.tBac) / g.tU3)
          - SigmaT Real.exp c (a ix.rho) g.tT2 1 * Real.exp (-(t - c.tBac) / g.tT2)))
      c.tBac _ hd (by fun_prop) (fun t h1 h2 => by
        obtain ⟨w0, w1, hn⟩ := first_interval c hCap hBac t h1 h2
        simp [Xtot, Xcap, w0, w1, hn, SigmaZ_of_lt_two c _ _ _ _ h12])
    simpa using key

/-- The kernel of generation 2 at zero elapsed time, when the coefficients
`cT1`, `cU1`, `cU2` cancel. -/
theorem Y2InitialValue_self (c : CaseConsts ℝ) (ix : ParIndex) (g : Globals ℝ)
    (a : Nat → ℝ) (t0 y0 : ℝ) (hc : g.cT1 - g.cU1 + g.cU2 = 0) :
    Y2InitialValue Real.exp c ix g t0 a t0 y0 = y0 := by
  unfold Y2InitialValue
  simp only [sub_self, neg_zero, zero_div, Real.exp_zero, mul_zero, add_zero, mul_one, hc]

/-- The kernel of generation 3 at zero elapsed time, when the coefficients
of the Z and X feeding cancel: it is `0`, whatever `y0` is. -/
theorem Y3InitialValue_self (c : CaseConsts ℝ) (ix : ParIndex) (g : Globals ℝ)
    (a : Nat → ℝ) (t0 y0 : ℝ) (hz : g.cZT2 - g.cZU2 + g.cZU3 = 0)
    (hx : g.cXT1 - g.cXU2 + g.cXU3 = 0) :
    Y3InitialValue Real.exp c ix g t0 a t0 y0 = 0 := by
  unfold Y3InitialValue
  simp only [sub_self, neg_zero, zero_div, Real.exp_zero, mul_zero, add_zero,
    zero_add, mul_one, hz, hx]
  ring

/-- As `t` decreases to `tBac`, `Ytot` converges to the background part at
`tBac`, when the coefficients of the kernels cancel. -/
theorem Ytot_converges (c : CaseConsts ℝ) (ix : ParIndex) (g : Globals ℝ) (a : Nat → ℝ)
    (hCap : 0 < c.tCap) (hBac : 0 < c.tBac) (hBC : c.tBac < c.tCyc)
    (hc : g.cT1 - g.cU1 + g.cU2 = 0) (hz : g.cZT2 - g.cZU2 + g.cZU3 = 0)
    (hx : g.cXT1 - g.cXU2 + g.cXU3 = 0) :
    ConvergesFromAbove (fun t => Ytot Real.exp c ix g 2 a t) c.tBac
        (Y2Background Real.exp c g g.U10 g.Y20 c.tBac)
    ∧ ConvergesFromAbove (fun t => Ytot Real.exp c ix g 3 a t) c.tBac
        (Y3Background Real.exp c g g.U10 g.U20 g.Y30 c.tBac) := by
  have hd := first_interval_pos c hCap hBC
  refine ⟨?_, ?_⟩
  · have key := ConvergesFromAbove.of_continuous (fun t => Ytot Real.exp c ix g 2 a t)
      (fun t => Y2Background Real.exp c g g.U10 g.Y20 t
        + Y2InitialValue Real.exp c ix g t a c.tBac 0)
      c.tBac _ hd (by unfold Y2Background Y2InitialValue; fun_prop) (fun t h1 h2 => by
        obtain ⟨w0, w1, hn⟩ := first_interval c hCap hBac t h1 h2
        simp [Ytot, Ycap, w0, w1, hn, List.range_succ])
    simp only [Y2InitialValue_self c ix g a c.tBac 0 hc, add_zero] at key
    exact key
  · have key := ConvergesFromAbove.of_continuous (fun t => Ytot Real.exp c ix g 3 a t)
      (fun t => Y3Background Real.exp c g g.U10 g.U20 g.Y30 t
        + Y3InitialValue Real.exp c ix g t a c.tBac 0)
      c.tBac _ hd (by unfold Y3Background Y3InitialValue; fun_prop) (fun t h1 h2 => by
        obtain ⟨w0, w1, hn⟩ := first_interval c hCap hBac t h1 h2
        simp [Ytot, Ycap, w0, w1, hn, List.range_succ])
    simp only [Y3InitialValue_self c ix g a c.tBac 0 hz hx, add_zero] at key
    exact key

/-- The coefficients of the kernels, as the run stores them, cancel. -/
theorem CPDV_coefficients_cancel {K : Type} [LinearOrderedField K] [FloorRing K]
    (Exp : K → K) (c : CaseConsts K) (ix : ParIndex) (g : Globals K) (a : Nat → K)
    (g' : Globals K) (a' : Nat → K)
    (hrun : ComputeParameterDependentVars Exp c ix g a = (g', a')) :
    g'.cT1 - g'.cU1 + g'.cU2 = 0 ∧ g'.cZT2 - g'.cZU2 + g'.cZU3 = 0
    ∧ g'.cXT1 - g'.cXU2 + g'.cXU3 = 0 := by
  have e : g'.cT1 = g'.tT1 * (g'.tU2 - g'.tU1) ∧ g'.cU1 = g'.tU1 * (g'.tU2 - g'.tT1)
      ∧ g'.cU2 = g'.tU2 * (g'.tU1 - g'.tT1)
      ∧ g'.cZT2 = g'.tT2 * (g'.tU3 - g'.tU2) ∧ g'.cZU2 = g'.tU2 * (g'.tU3 - g'.tT2)
      ∧ g'.cZU3 = g'.tU3 * (g'.tU2 - g'.tT2)
      ∧ g'.cXT1 = g'.tT1 * (g'.tU3 - g'.tU2) ∧ g'.cXU2 = g'.tU2 * (g'.tU3 - g'.tT1)
      ∧ g'.cXU3 = g'.tU3 * (g'.tU2 - g'.tT1) := by
    obtain rfl : g' = (ComputeParameterDependentVars Exp c ix g a).1 := by rw [hrun]
    exact ⟨rfl, rfl, rfl, rfl, rfl, rfl, rfl, rfl, rfl⟩
  obtain ⟨e1, e2, e3, e4, e5, e6, e7, e8, e9⟩ := e
  rw [e1, e2, e3, e4, e5, e6, e7, e8, e9]
  exact ⟨by ring, by ring, by ring⟩

/-- C12, as the code has it: with the globals `g'` and the array `a'` that
`ComputeParameterDependentVars (a)` leaves behind, `tCap > 0`,
`0 < tBac < tCyc` and positive `tU1, tU2, tU3`, as `t` decreases to `tBac`
the totals `Wtot`, `Ztot` (i = 1, 2, 3), `Xtot` and `Ytot` (i = 2, 3)
converge to their free-decay value at `tBac`, and `Vtot` (i = 1, 2, 3)
converges to its free-decay value at `tBac` plus the amplitude `ampV_i` of
the first injection. -/
theorem capture_start_limits (c : CaseConsts ℝ) (ix : ParIndex) (g : Globals ℝ)
    (a : Nat → ℝ) (g' : Globals ℝ) (a' : Nat → ℝ)
    (hrun : ComputeParameterDependentVars Real.exp c ix g a = (g', a'))
    (hCap : 0 < c.tCap) (hBac : 0 < c.tBac) (hBC : c.tBac < c.tCyc)
    (hU1 : 0 < g'.tU1) (hU2 : 0 < g'.tU2) (hU3 : 0 < g'.tU3) :
    (ConvergesFromAbove (fun t => Wtot Real.exp c ix g' 1 a' t) c.tBac
        (g'.W10 * Real.exp (-c.tBac / g'.tU1))
      ∧ ConvergesFromAbove (fun t => Wtot Real.exp c ix g' 2 a' t) c.tBac
        (g'.W20 * Real.exp (-c.tBac / g'.tU2))
      ∧ ConvergesFromAbove (fun t => Wtot Real.exp c ix g' 3 a' t) c.tBac
        (g'.W30 * Real.exp (-c.tBac / g'.tU3)))
    ∧ (ConvergesFromAbove (fun t => Ztot Real.exp c ix g' 1 a' t) c.tBac
        (g'.Z10 * Real.exp (-c.tBac / g'.tU1))
      ∧ ConvergesFromAbove (fun t => Ztot Real.exp c ix g' 2 a' t) c.tBac
        (g'.Z20 * Real.exp (-c.tBac / g'.tU2))
      ∧ ConvergesFromAbove (fun t => Ztot Real.exp c ix g' 3 a' t) c.tBac
        (g'.Z30 * Real.exp (-c.tBac / g'.tU3)))
    ∧ (ConvergesFromAbove (fun t => Xtot Real.exp c ix g' 2 a' t) c.tBac
        (g'.X20 * Real.exp (-c.tBac / g'.tU2))
      ∧ ConvergesFromAbove (fun t => Xtot Real.exp c ix g' 3 a' t) c.tBac
        (g'.X30 * Real.exp (-c.tBac / g'.tU3)))
    ∧ (ConvergesFromAbove (fun t => Ytot Real.exp c ix g' 2 a' t) c.tBac
        (Y2Background Real.exp c g' g'.U10 g'.Y20 c.tBac)
      ∧ ConvergesFromAbove (fun t => Ytot Real.exp c ix g' 3 a' t) c.tBac
        (Y3Background Real.exp c g' g'.U10 g'.U20 g'.Y30 c.tBac))
    ∧ (ConvergesFromAbove (fun t => Vtot Real.exp c g' 1 a' t) c.tBac
        (g'.V10 * Real.exp (-c.tBac / g'.tU1) + g'.ampV1)
      ∧ ConvergesFromAbove (fun t => Vtot Real.exp c g' 2 a' t) c.tBac
        (g'.V20 * Real.exp (-c.tBac / g'.tU2) + g'.ampV2)
      ∧ ConvergesFromAbove (fun t => Vtot Real.exp c g' 3 a' t) c.tBac
        (g'.V30 * Real.exp (-c.tBac / g'.tU3) + g'.ampV3)) := by
  obtain ⟨hc, hz, hx⟩ := CPDV_coefficients_cancel Real.exp c ix g a g' a' hrun
  have hV := Vtot_converges c g' a' hCap hBac hBC
  rw [SigmaT_one_one c g'.tU1 hCap hU1, SigmaT_one_one c g'.tU2 hCap hU2,
    SigmaT_one_one c g'.tU3 hCap hU3, mul_one, mul_one, mul_one] at hV
  exact ⟨Wtot_converges c ix g' a' hCap hBac hBC, Ztot_converges c ix g' a' hCap hBac hBC,
    Xtot_converges c ix g' a' hCap hBac hBC,
    Ytot_converges c ix g' a' hCap hBac hBC hc hz hx, hV⟩

/-- The timing of `demoCase` meets `tCap > 0` and `0 < tBac < tCyc`. -/
theorem demoCase_timing :
    (0 : ℝ) < (demoCase ℝ).tCap ∧ (0 : ℝ) < (demoCase ℝ).tBac
    ∧ (demoCase ℝ).tBac < (demoCase ℝ).tCyc := by
  norm_num [demoCase]

/-- Instance of the amended C12 at `demoCase`, `demoLayout`, `zeroGlobals`,
`demoPar`: the W population of species 1. -/
theorem capture_start_limits_witness :
    ((0 : ℝ) < (demoCase ℝ).tCap ∧ (0 : ℝ) < (demoCase ℝ).tBac
      ∧ (demoCase ℝ).tBac < (demoCase ℝ).tCyc)
    ∧ ConvergesFromAbove (fun t => Wtot Real.exp (demoCase ℝ) demoLayout
          (ComputeParameterDependentVars Real.exp (demoCase ℝ) demoLayout (zeroGlobals ℝ)
            (demoPar ℝ)).1 1
          (ComputeParameterDependentVars Real.exp (demoCase ℝ) demoLayout (zeroGlobals ℝ)
            (demoPar ℝ)).2 t) (demoCase ℝ).tBac
        ((ComputeParameterDependentVars Real.exp (demoCase ℝ) demoLayout (zeroGlobals ℝ)
            (demoPar ℝ)).1.W10
          * Real.exp (-(demoCase ℝ).tBac
            / (ComputeParameterDependentVars Real.exp (demoCase ℝ) demoLayout (zeroGlobals ℝ)
                (demoPar ℝ)).1.tU1)) :=
  ⟨demoCase_timing,
    (capture_start_limits (demoCase ℝ) demoLayout (zeroGlobals ℝ) (demoPar ℝ)
      (ComputeParameterDependentVars Real.exp (demoCase ℝ) demoLayout (zeroGlobals ℝ)
        (demoPar ℝ)).1
      (ComputeParameterDependentVars Real.exp (demoCase ℝ) demoLayout (zeroGlobals ℝ)
        (demoPar ℝ)).2 rfl
      demoCase_timing.1 demoCase_timing.2.1 demoCase_timing.2.2
      demo_run_positive.2.2.2.1 demo_run_positive.2.2.2.2.1 demo_run_positive.2.2.2.2.2).1.1⟩

/-- C12 fails as stated for `Vtot`.  For the run on `demoCase`, `demoLayout`
and `demoPar` (`tCap = 6000 > 0`, `0 < tBac < tCyc`, positive lifetimes),
`Vtot (1, a, t)` does not converge, as `t` decreases to `tBac`, to the
free-decay value `V10 * exp (-tBac / tU1)`: it converges to that value plus
`ampV1 = 3000`. -/
theorem Vtot_jumps_at_capture_start :
    ((0 : ℝ) < (demoCase ℝ).tCap ∧ (0 : ℝ) < (demoCase ℝ).tBac
      ∧ (demoCase ℝ).tBac < (demoCase ℝ).tCyc)
    ∧ (0 < (ComputeParameterDependentVars Real.exp (demoCase ℝ) demoLayout (zeroGlobals ℝ)
          (demoPar ℝ)).1.tT1
      ∧ 0 < (ComputeParameterDependentVars Real.exp (demoCase ℝ) demoLayout (zeroGlobals ℝ)
          (demoPar ℝ)).1.tT2
      ∧ 0 < (ComputeParameterDependentVars Real.exp (demoCase ℝ) demoLayout (zeroGlobals ℝ)
          (demoPar ℝ)).1.tT3)
    ∧ (0 < (ComputeParameterDependentVars Real.exp (demoCase ℝ) demoLayout (zeroGlobals ℝ)
          (demoPar ℝ)).1.tU1
      ∧ 0 < (ComputeParameterDependentVars Real.exp (demoCase ℝ) demoLayout (zeroGlobals ℝ)
          (demoPar ℝ)).1.tU2
      ∧ 0 < (ComputeParameterDependentVars Real.exp (demoCase ℝ) demoLayout (zeroGlobals ℝ)
          (demoPar ℝ)).1.tU3)
    ∧ (ComputeParameterDependentVars Real.exp (demoCase ℝ) demoLayout (zeroGlobals ℝ)
        (demoPar ℝ)).1.ampV1 = 3000
    ∧ ¬ ConvergesFromAbove (fun t => Vtot Real.exp (demoCase ℝ)
          (ComputeParameterDependentVars Real.exp (demoCase ℝ) demoLayout (zeroGlobals ℝ)
            (demoPar ℝ)).1 1
          (ComputeParameterDependentVars Real.exp (demoCase ℝ) demoLayout (zeroGlobals ℝ)
            (demoPar ℝ)).2 t) (demoCase ℝ).tBac
        ((ComputeParameterDependentVars Real.exp (demoCase ℝ) demoLayout (zeroGlobals ℝ)
            (demoPar ℝ)).1.V10
          * Real.exp (-(demoCase ℝ).tBac
            / (ComputeParameterDependentVars Real.exp (demoCase ℝ) demoLayout (zeroGlobals ℝ)
                (demoPar ℝ)).1.tU1)) := by
  obtain ⟨hCap, hBac, hBC⟩ := demoCase_timing
  have hU1 := demo_run_positive.2.2.2.1
  have hamp : (ComputeParameterDependentVars Real.exp (demoCase ℝ) demoLayout (zeroGlobals ℝ)
      (demoPar ℝ)).1.ampV1 = 3000 := by
    rw [(CPDV_ampV Real.exp (demoCase ℝ) demoLayout (zeroGlobals ℝ) (demoPar ℝ)
      (ComputeParameterDependentVars Real.exp (demoCase ℝ) demoLayout (zeroGlobals ℝ)
        (demoPar ℝ)).1
      (ComputeParameterDependentVars Real.exp (demoCase ℝ) demoLayout (zeroGlobals ℝ)
        (demoPar ℝ)).2 rfl).1, CPDV_array]
    norm_num [demoCase, demoPar, demoLayout]
  refine ⟨⟨hCap, hBac, hBC⟩, demo_run_positive_T, demo_run_positive.2.2.2, hamp,
    fun hconv => ?_⟩
  have hV := (Vtot_converges (demoCase ℝ)
    (ComputeParameterDependentVars Real.exp (demoCase ℝ) demoLayout (zeroGlobals ℝ)
      (demoPar ℝ)).1
    (ComputeParameterDependentVars Real.exp (demoCase ℝ) demoLayout (zeroGlobals ℝ)
      (demoPar ℝ)).2 hCap hBac hBC).1
  rw [SigmaT_one_one (demoCase ℝ) _ hCap hU1, mul_one] at hV
  have hu := ConvergesFromAbove.unique _ _ _ _ hconv hV
  rw [hamp] at hu
  linarith

/-! ## The capture terms exactly at `tBac` (C21) -/

/-- At `tvar = tBac` the injection index is `0`. -/
theorem Ceil_at_tBac (c : CaseConsts ℝ) : Ceil ((c.tBac - c.tBac) / c.tCap) = 0 := by
  simp [Ceil]

/-- The sum `SigmaT` over no injection is `0`: its numerator is `1 - 1`. -/
theorem SigmaT_zero (c : CaseConsts ℝ) (rho tau : ℝ) : SigmaT Real.exp c rho tau 0 = 0 := by
  simp [SigmaT, Power]

/-- The capture terms at `tvar = tBac`, for every species index. -/
theorem caps_at_tBac (c : CaseConsts ℝ) (ix : ParIndex) (g : Globals ℝ) (a : Nat → ℝ)
    (i : Int) :
    Ttot Real.exp c ix g i a c.tBac = 0 ∧ Vcap Real.exp c g i a c.tBac = 0
    ∧ Wcap Real.exp c ix g i a c.tBac = 0 ∧ Zcap Real.exp c ix g i a c.tBac = 0
    ∧ Xcap Real.exp c ix g i a c.tBac = 0 ∧ Ycap Real.exp c ix g i a c.tBac = 0 := by
  have hn := Ceil_at_tBac c
  have h2 : ¬ (0 : Int) ≥ 2 := by decide
  refine ⟨?_, ?_, ?_, ?_, ?_, ?_⟩
  · unfold Ttot
    simp only [hn, SigmaT_zero, mul_zero, zero_mul, ite_self]
  · unfold Vcap
    simp only [hn, SigmaT_zero, mul_zero, zero_mul, ite_self]
  · unfold Wcap
    simp only [hn, SigmaW_of_lt_two c _ _ _ 0 h2, mul_zero, zero_mul, add_zero, ite_self]
  · unfold Zcap
    simp only [hn]
    simp only [SigmaT_zero, SigmaZ_of_lt_two c _ _ _ 0 h2, mul_zero, zero_mul, add_zero,
      sub_self, ite_self]
  · unfold Xcap
    simp only [hn]
    simp only [SigmaT_zero, SigmaZ_of_lt_two c _ _ _ 0 h2, mul_zero, zero_mul, add_zero,
      sub_self, ite_self]
  · unfold Ycap
    simp only [hn]
    simp

/-- C21: with `tBac ≤ tCyc`, at `tvar = tBac` the injection index is
`n = ceil (0) = 0`, and, `rho * exp (-tCap / tau)` being different from `1`
for the lifetimes used (with `rho = 1` for the V population), `Ttot`, `Vcap`,
`Wcap`, `Zcap`, `Xcap` and `Ycap` are `0` for every species index, so each
untrapped total at `tBac` is its free-decay part alone: the free decay of the
cached initial value when `0 ≤ tBac`, and `0` otherwise. -/
theorem capture_terms_at_tBac (c : CaseConsts ℝ) (ix : ParIndex) (g : Globals ℝ)
    (a : Nat → ℝ) (hBC : c.tBac ≤ c.tCyc) :
    Ceil ((c.tBac - c.tBac) / c.tCap) = 0
    ∧ (a ix.rho * Real.exp (-c.tCap / g.tT1) ≠ 1 → a ix.rho * Real.exp (-c.tCap / g.tT2) ≠ 1 →
        a ix.rho * Real.exp (-c.tCap / g.tT3) ≠ 1 →
        1 * Real.exp (-c.tCap / g.tU1) ≠ 1 → 1 * Real.exp (-c.tCap / g.tU2) ≠ 1 →
        1 * Real.exp (-c.tCap / g.tU3) ≠ 1 →
        (∀ i : Int,
          Ttot Real.exp c ix g i a c.tBac = 0 ∧ Vcap Real.exp c g i a c.tBac = 0
          ∧ Wcap Real.exp c ix g i a c.tBac = 0 ∧ Zcap Real.exp c ix g i a c.tBac = 0
          ∧ Xcap Real.exp c ix g i a c.tBac = 0 ∧ Ycap Real.exp c ix g i a c.tBac = 0)
        ∧ (Vtot Real.exp c g 1 a c.tBac
              = (if 0 ≤ c.tBac then g.V10 * Real.exp (-c.tBac / g.tU1) else 0)
          ∧ Vtot Real.exp c g 2 a c.tBac
              = (if 0 ≤ c.tBac then g.V20 * Real.exp (-c.tBac / g.tU2) else 0)
          ∧ Vtot Real.exp c g 3 a c.tBac
              = (if 0 ≤ c.tBac then g.V30 * Real.exp (-c.tBac / g.tU3) else 0))
        ∧ (Wtot Real.exp c ix g 1 a c.tBac
              = (if 0 ≤ c.tBac then g.W10 * Real.exp (-c.tBac / g.tU1) else 0)
          ∧ Wtot Real.exp c ix g 2 a c.tBac
              = (if 0 ≤ c.tBac then g.W20 * Real.exp (-c.tBac / g.tU2) else 0)
          ∧ Wtot Real.exp c ix g 3 a c.tBac
              = (if 0 ≤ c.tBac then g.W30 * Real.exp (-c.tBac / g.tU3) else 0))
        ∧ (Ztot Real.exp c ix g 1 a c.tBac
              = (if 0 ≤ c.tBac then g.Z10 * Real.exp (-c.tBac / g.tU1) else 0)
          ∧ Ztot Real.exp c ix g 2 a c.tBac
              = (if 0 ≤ c.tBac then g.Z20 * Real.exp (-c.tBac / g.tU2) else 0)
          ∧ Ztot Real.exp c ix g 3 a c.tBac
              = (if 0 ≤ c.tBac then g.Z30 * Real.exp (-c.tBac / g.tU3) else 0))
        ∧ (Xtot Real.exp c ix g 2 a c.tBac
              = (if 0 ≤ c.tBac then g.X20 * Real.exp (-c.tBac / g.tU2) else 0)
          ∧ Xtot Real.exp c ix g 3 a c.tBac
              = (if 0 ≤ c.tBac then g.X30 * Real.exp (-c.tBac / g.tU3) else 0))
        ∧ (Ytot Real.exp c ix g 2 a c.tBac
              = (if 0 ≤ c.tBac then Y2Background Real.exp c g g.U10 g.Y20 c.tBac else 0)
          ∧ Ytot Real.exp c ix g 3 a c.tBac
              = (if 0 ≤ c.tBac then Y3Background Real.exp c g g.U10 g.U20 g.Y30 c.tBac
                  else 0))) := by
  refine ⟨Ceil_at_tBac c, fun _ _ _ _ _ _ => ⟨caps_at_tBac c ix g a, ?_, ?_, ?_, ?_, ?_⟩⟩
  · simp [Vtot, hBC, (caps_at_tBac c ix g a _).2.1]
  · simp [Wtot, hBC, (caps_at_tBac c ix g a _).2.2.1]
  · simp [Ztot, hBC, (caps_at_tBac c ix g a _).2.2.2.1]
  · simp [Xtot, hBC, (caps_at_tBac c ix g a _).2.2.2.2.1]
  · simp [Ytot, hBC, (caps_at_tBac c ix g a _).2.2.2.2.2]

/-- Instance of C21 at `demoCase`, `demoLayout`, and the globals that the run
on `demoPar` stores: `Ttot (1, a, tBac)`. -/
theorem capture_terms_at_tBac_witness :
    (demoCase ℝ).tBac ≤ (demoCase ℝ).tCyc
    ∧ Ttot Real.exp (demoCase ℝ) demoLayout
        (ComputeParameterDependentVars Real.exp (demoCase ℝ) demoLayout (zeroGlobals ℝ)
          (demoPar ℝ)).1 1 (demoPar ℝ) (demoCase ℝ).tBac = 0 :=
  have hCap : (0 : ℝ) < (demoCase ℝ).tCap := by norm_num [demoCase]
  have hrho : demoPar ℝ demoLayout.rho = 1 / 2 := by norm_num [demoPar, demoLayout]
  have hT : ∀ tau : ℝ, 0 < tau →
      demoPar ℝ demoLayout.rho * Real.exp (-(demoCase ℝ).tCap / tau) ≠ 1 := fun tau h => by
    have h1 := exp_neg_div_lt_one _ _ hCap h
    have h0 := Real.exp_pos (-(demoCase ℝ).tCap / tau)
    rw [hrho]
    intro he
    linarith
  have hU : ∀ tau : ℝ, 0 < tau → 1 * Real.exp (-(demoCase ℝ).tCap / tau) ≠ 1 := fun tau h => by
    have h1 := exp_neg_div_lt_one _ _ hCap h
    rw [one_mul]
    exact ne_of_lt h1
  ⟨demo_run_positive.2.1,
    (((capture_terms_at_tBac (demoCase ℝ) demoLayout
      (ComputeParameterDependentVars Real.exp (demoCase ℝ) demoLayout (zeroGlobals ℝ)
        (demoPar ℝ)).1 (demoPar ℝ) demo_run_positive.2.1).2
      (hT _ demo_run_positive_T.1) (hT _ demo_run_positive_T.2.1)
      (hT _ demo_run_positive_T.2.2)
      (hU _ demo_run_positive.2.2.2.1) (hU _ demo_run_positive.2.2.2.2.1)
      (hU _ demo_run_positive.2.2.2.2.2)).1 1).1⟩

/-! ## The injection index and the elapsed time (C22) -/

/-- C22: for `tCap > 0` and `t > tBac` the injection index
`n = ceil ((t - tBac) / tCap)` is at least `1`, the elapsed time
`x = t - tBac - (n - 1) * tCap` satisfies `0 < x ≤ tCap`, and at `t + tCap`
the index is `n + 1` with the same elapsed time. -/
theorem injection_index_wellformed (c : CaseConsts ℝ) (t : ℝ) (hCap : 0 < c.tCap)
    (ht : c.tBac < t) :
    1 ≤ Ceil ((t - c.tBac) / c.tCap)
    ∧ 0 < t - c.tBac - ((Ceil ((t - c.tBac) / c.tCap) - 1 : Int) : ℝ) * c.tCap
    ∧ t - c.tBac - ((Ceil ((t - c.tBac) / c.tCap) - 1 : Int) : ℝ) * c.tCap ≤ c.tCap
    ∧ Ceil ((t + c.tCap - c.tBac) / c.tCap) = Ceil ((t - c.tBac) / c.tCap) + 1
    ∧ t + c.tCap - c.tBac - ((Ceil ((t + c.tCap - c.tBac) / c.tCap) - 1 : Int) : ℝ) * c.tCap
        = t - c.tBac - ((Ceil ((t - c.tBac) / c.tCap) - 1 : Int) : ℝ) * c.tCap := by
  have hy : 0 < (t - c.tBac) / c.tCap := div_pos (by linarith) hCap
  have hshift : (t + c.tCap - c.tBac) / c.tCap = (t - c.tBac) / c.tCap + 1 := by
    field_simp
    ring
  have hnext : Ceil ((t + c.tCap - c.tBac) / c.tCap) = Ceil ((t - c.tBac) / c.tCap) + 1 := by
    unfold Ceil
    rw [hshift, Int.ceil_add_one]
  have hlo : (t - c.tBac) / c.tCap ≤ (Ceil ((t - c.tBac) / c.tCap) : ℝ) := Int.le_ceil _
  have hhi : (Ceil ((t - c.tBac) / c.tCap) : ℝ) < (t - c.tBac) / c.tCap + 1 :=
    Int.ceil_lt_add_one _
  have hmul : (t - c.tBac) / c.tCap * c.tCap = t - c.tBac := div_mul_cancel₀ _ hCap.ne'
  refine ⟨?_, ?_, ?_, hnext, ?_⟩
  · have h0 : 0 < Ceil ((t - c.tBac) / c.tCap) := Int.ceil_pos.2 hy
    omega
  · push_cast
    nlinarith
  · push_cast
    nlinarith
  · rw [hnext]
    push_cast
    ring

/-- Instance of C22 at `demoCase` and `t = 113000`. -/
theorem injection_index_wellformed_witness :
    ((0 : ℝ) < (demoCase ℝ).tCap ∧ (demoCase ℝ).tBac < 113000)
    ∧ 1 ≤ Ceil (((113000 : ℝ) - (demoCase ℝ).tBac) / (demoCase ℝ).tCap) :=
  have hCap : (0 : ℝ) < (demoCase ℝ).tCap := by norm_num [demoCase]
  have ht : (demoCase ℝ).tBac < 113000 := by norm_num [demoCase]
  ⟨⟨hCap, ht⟩, (injection_index_wellformed (demoCase ℝ) 113000 hCap ht).1⟩

/-! ## The boundary value of the initial-value kernels (C26, C27) -/

/-- C26: for every cache state that `ComputeParameterDependentVars` produces,
every parameter array, every start time `t0` and every `y0`,
`Y2InitialValue (t0, a, t0, y0) = y0`; the stored coefficients satisfy
`cT1 - cU1 + cU2 = 0`, so the feeding part is `0` at zero elapsed time. -/
theorem Y2InitialValue_boundary (c : CaseConsts ℝ) (ix : ParIndex) (g : Globals ℝ)
    (a b : Nat → ℝ) (t0 y0 : ℝ) :
    (ComputeParameterDependentVars Real.exp c ix g a).1.cT1
        - (ComputeParameterDependentVars Real.exp c ix g a).1.cU1
        + (ComputeParameterDependentVars Real.exp c ix g a).1.cU2 = 0
    ∧ Y2InitialValue Real.exp c ix (ComputeParameterDependentVars Real.exp c ix g a).1
        t0 (ComputeParameterDependentVars Real.exp c ix g a).2 t0 y0 = y0
    ∧ Y2InitialValue Real.exp c ix (ComputeParameterDependentVars Real.exp c ix g a).1
        t0 b t0 y0 = y0 := by
  have hc := (CPDV_coefficients_cancel Real.exp c ix g a
    (ComputeParameterDependentVars Real.exp c ix g a).1
    (ComputeParameterDependentVars Real.exp c ix g a).2 rfl).1
  exact ⟨hc, Y2InitialValue_self c ix _ _ t0 y0 hc, Y2InitialValue_self c ix _ b t0 y0 hc⟩

/-- The kernel of generation 3 never reads its argument `y0`. -/
theorem Y3InitialValue_y0 (c : CaseConsts ℝ) (ix : ParIndex) (g : Globals ℝ)
    (a : Nat → ℝ) (tvar t0 y0 y1 : ℝ) :
    Y3InitialValue Real.exp c ix g tvar a t0 y0 = Y3InitialValue Real.exp c ix g tvar a t0 y1 :=
  rfl

/-- For every cache state that `ComputeParameterDependentVars` produces, the
kernel of generation 3 is `0` at zero elapsed time, whatever `y0` is. -/
theorem Y3InitialValue_boundary_zero (c : CaseConsts ℝ) (ix : ParIndex) (g : Globals ℝ)
    (a b : Nat → ℝ) (t0 y0 : ℝ) :
    Y3InitialValue Real.exp c ix (ComputeParameterDependentVars Real.exp c ix g a).1
      t0 b t0 y0 = 0 := by
  obtain ⟨-, hz, hx⟩ := CPDV_coefficients_cancel Real.exp c ix g a
    (ComputeParameterDependentVars Real.exp c ix g a).1
    (ComputeParameterDependentVars Real.exp c ix g a).2 rfl
  exact Y3InitialValue_self c ix _ b t0 y0 hz hx

/-- C27 at a concrete input: after the run on `demoCase`, `demoLayout`,
`demoPar`, the call `Y3InitialValue (101000, a, 101000, 1)` (start time
`t0 = tBac`, `y0 = 1`) returns `0` and not `y0 = 1`; the kernel of
generation 2 returns `1` at the same input. -/
theorem Y3InitialValue_boundary_demo :
    Y3InitialValue Real.exp (demoCase ℝ) demoLayout
        (ComputeParameterDependentVars Real.exp (demoCase ℝ) demoLayout (zeroGlobals ℝ)
          (demoPar ℝ)).1
        101000 (ComputeParameterDependentVars Real.exp (demoCase ℝ) demoLayout (zeroGlobals ℝ)
          (demoPar ℝ)).2 101000 1 = 0
    ∧ Y3InitialValue Real.exp (demoCase ℝ) demoLayout
        (ComputeParameterDependentVars Real.exp (demoCase ℝ) demoLayout (zeroGlobals ℝ)
          (demoPar ℝ)).1
        101000 (ComputeParameterDependentVars Real.exp (demoCase ℝ) demoLayout (zeroGlobals ℝ)
          (demoPar ℝ)).2 101000 1 ≠ 1
    ∧ Y2InitialValue Real.exp (demoCase ℝ) demoLayout
        (ComputeParameterDependentVars Real.exp (demoCase ℝ) demoLayout (zeroGlobals ℝ)
          (demoPar ℝ)).1
        101000 (ComputeParameterDependentVars Real.exp (demoCase ℝ) demoLayout (zeroGlobals ℝ)
          (demoPar ℝ)).2 101000 1 = 1 := by
  have h3 := Y3InitialValue_boundary_zero (demoCase ℝ) demoLayout (zeroGlobals ℝ) (demoPar ℝ)
    (ComputeParameterDependentVars Real.exp (demoCase ℝ) demoLayout (zeroGlobals ℝ)
      (demoPar ℝ)).2 101000 1
  have hc := (CPDV_coefficients_cancel Real.exp (demoCase ℝ) demoLayout (zeroGlobals ℝ)
    (demoPar ℝ)
    (ComputeParameterDependentVars Real.exp (demoCase ℝ) demoLayout (zeroGlobals ℝ)
      (demoPar ℝ)).1
    (ComputeParameterDependentVars Real.exp (demoCase ℝ) demoLayout (zeroGlobals ℝ)
      (demoPar ℝ)).2 rfl).1
  refine ⟨h3, ?_, Y2InitialValue_self _ _ _ _ 101000 1 hc⟩
  rw [h3]
  norm_num

/-! ## The last injection of the shipped case (C28) -/

/-- C28: with `tCap`, `tBac`, `tCyc` the values `T_capt = 6000`,
`T_bkgd = 101000`, `T_cycle = 246000` of the entry `137i07`, the injection
index at the end of the cycle is `ceil ((tCyc - tBac) / tCap) = 25`, and the
elapsed time `tCyc - tBac - (n - 1) * tCap` is the entry's `T_last = 1000`. -/
theorem bdn_cases_137i07_last_injection :
    ∃ e : bdn_case_t ℝ, (bdn_cases ℝ).head? = some e
      ∧ e.code = some "137i07"
      ∧ e.T_capt = 6000 ∧ e.T_bkgd = 101000 ∧ e.T_cycle = 246000 ∧ e.T_last = 1000
      ∧ ∀ c : CaseConsts ℝ, c.tCap = e.T_capt → c.tBac = e.T_bkgd → c.tCyc = e.T_cycle →
          Ceil ((c.tCyc - c.tBac) / c.tCap) = 25
          ∧ c.tCyc - c.tBac - ((Ceil ((c.tCyc - c.tBac) / c.tCap) - 1 : Int) : ℝ) * c.tCap
              = e.T_last := by
  refine ⟨_, rfl, rfl, ?_, ?_, ?_, ?_, ?_⟩
  · norm_num
  · norm_num
  · norm_num
  · norm_num
  · intro c h1 h2 h3
    have hn : Ceil ((c.tCyc - c.tBac) / c.tCap) = 25 := by
      unfold Ceil
      rw [h1, h2, h3, Int.ceil_eq_iff]
      norm_num
    rw [hn, h1, h2, h3]
    norm_num

/-! ## The mixing sums at one injection (C29) -/

/-- The sums at one injection, as the run stores them. -/
theorem CPDV_one_injection_sums {K : Type} [LinearOrderedField K] [FloorRing K]
    (Exp : K → K) (c : CaseConsts K) (ix : ParIndex) (g : Globals K) (a : Nat → K)
    (g' : Globals K) (a' : Nat → K)
    (hrun : ComputeParameterDependentVars Exp c ix g a = (g', a')) :
    g'.SW11_1cap = SigmaW Exp c (a' ix.rho) g'.tT1 g'.tU1 1
    ∧ g'.SW22_1cap = SigmaW Exp c (a' ix.rho) g'.tT2 g'.tU2 1
    ∧ g'.SZ11_1cap = SigmaZ Exp c (a' ix.rho) g'.tT1 g'.tU1 1
    ∧ g'.SZ12_1cap = SigmaZ Exp c (a' ix.rho) g'.tT1 g'.tU2 1
    ∧ g'.SZ22_1cap = SigmaZ Exp c (a' ix.rho) g'.tT2 g'.tU2 1 := by
  obtain rfl : g' = (ComputeParameterDependentVars Exp c ix g a).1 := by rw [hrun]
  obtain rfl : a' = (ComputeParameterDependentVars Exp c ix g a).2 := by rw [hrun]
  exact ⟨rfl, rfl, rfl, rfl, rfl⟩

/-- The kernel of generation 3 is the kernel without feeding from the W
population plus the local `W`. -/
theorem Y3InitialValue_eq_add_W (c : CaseConsts ℝ) (ix : ParIndex) (h : Globals ℝ)
    (b : Nat → ℝ) (tvar t0 y0 : ℝ) :
    Y3InitialValue Real.exp c ix h tvar b t0 y0
      = Y3InitialValue Real.exp c ix { h with ampY3fromW2 := 0 } tvar b t0 y0
        + Y3InitialValue_W Real.exp h tvar t0 := by
  unfold Y3InitialValue Y3InitialValue_W
  simp only []
  ring

/-- Up to the end of the first capture interval `Wcap` is `0`: the injection
index is at most `1`. -/
theorem Wcap_first_interval (c : CaseConsts ℝ) (ix : ParIndex) (h : Globals ℝ) (i : Int)
    (b : Nat → ℝ) (t : ℝ) (h1 : c.tBac ≤ t) (h2 : t ≤ c.tBac + c.tCap) :
    Wcap Real.exp c ix h i b t = 0 := by
  have hn : ¬ Ceil ((t - c.tBac) / c.tCap) ≥ 2 := by
    rcases lt_or_le 0 c.tCap with hCap | hCap
    · have := Ceil_le_one_of_le c t hCap h2
      omega
    · have hq : (t - c.tBac) / c.tCap ≤ 0 :=
        div_nonpos_of_nonneg_of_nonpos (by linarith) hCap
      have hle : Ceil ((t - c.tBac) / c.tCap) ≤ 0 := by
        unfold Ceil
        rw [Int.ceil_le]
        exact_mod_cast hq
      omega
  unfold Wcap
  simp only [SigmaW_of_lt_two c _ _ _ _ hn, mul_zero, zero_mul, add_zero, ite_self]

/-- C29: `SigmaW (rho, tT, tU, 1) = 0` and `SigmaZ (rho, tT, tU, 1) = 0` for
every `rho`, `tT`, `tU`; hence after `ComputeParameterDependentVars (a)`
the stored `SW11_1cap`, `SW22_1cap`, `SZ11_1cap`, `SZ12_1cap`, `SZ22_1cap`
are `0`, the local `W` of `Y3InitialValue` is `0` for every argument (and the
kernel is what it is without feeding from W), and `Wcap (i, a, t) = 0` at
every `tBac ≤ t ≤ tBac + tCap`. -/
theorem one_injection_sums_vanish (c : CaseConsts ℝ) (ix : ParIndex) (g : Globals ℝ)
    (a : Nat → ℝ) :
    (∀ rho tT tU : ℝ,
      SigmaW Real.exp c rho tT tU 1 = 0 ∧ SigmaZ Real.exp c rho tT tU 1 = 0)
    ∧ ((ComputeParameterDependentVars Real.exp c ix g a).1.SW11_1cap = 0
      ∧ (ComputeParameterDependentVars Real.exp c ix g a).1.SW22_1cap = 0
      ∧ (ComputeParameterDependentVars Real.exp c ix g a).1.SZ11_1cap = 0
      ∧ (ComputeParameterDependentVars Real.exp c ix g a).1.SZ12_1cap = 0
      ∧ (ComputeParameterDependentVars Real.exp c ix g a).1.SZ22_1cap = 0)
    ∧ (∀ tvar t0 : ℝ,
        Y3InitialValue_W Real.exp (ComputeParameterDependentVars Real.exp c ix g a).1
          tvar t0 = 0)
    ∧ (∀ (b : Nat → ℝ) (tvar t0 y0 : ℝ),
        Y3InitialValue Real.exp c ix (ComputeParameterDependentVars Real.exp c ix g a).1
            tvar b t0 y0
          = Y3InitialValue Real.exp c ix
              { (ComputeParameterDependentVars Real.exp c ix g a).1 with ampY3fromW2 := 0 }
              tvar b t0 y0)
    ∧ (∀ (h : Globals ℝ) (i : Int) (b : Nat → ℝ) (t : ℝ), c.tBac ≤ t → t ≤ c.tBac + c.tCap →
        Wcap Real.exp c ix h i b t = 0) := by
  have h2 : ¬ (1 : Int) ≥ 2 := by decide
  obtain ⟨e1, e2, e3, e4, e5⟩ := CPDV_one_injection_sums Real.exp c ix g a
    (ComputeParameterDependentVars Real.exp c ix g a).1
    (ComputeParameterDependentVars Real.exp c ix g a).2 rfl
  rw [SigmaW_of_lt_two c _ _ _ 1 h2] at e1 e2
  rw [SigmaZ_of_lt_two c _ _ _ 1 h2] at e3 e4 e5
  have hW : ∀ tvar t0 : ℝ,
      Y3InitialValue_W Real.exp (ComputeParameterDependentVars Real.exp c ix g a).1
        tvar t0 = 0 := by
    intro tvar t0
    unfold Y3InitialValue_W
    simp only [e2, mul_zero, zero_mul]
  refine ⟨fun rho tT tU => ⟨SigmaW_of_lt_two c rho tT tU 1 h2, SigmaZ_of_lt_two c rho tT tU 1 h2⟩,
    ⟨e1, e2, e3, e4, e5⟩, hW, fun b tvar t0 y0 => ?_,
    fun h i b t h1 h2 => Wcap_first_interval c ix h i b t h1 h2⟩
  rw [Y3InitialValue_eq_add_W, hW, add_zero]

/-! ## What a recomputation does to the caller's array (C30) -/

/-- C30: `ComputeParameterDependentVars (a)` leaves every slot of `a` as it
is when `b134sbFlag` is false; when the flag is true it changes at most the
slot `gammaT3`, which then holds `a[gammaT2]`, and `tT3` is computed from
that shift; and when the change check of `yAll` fails, the array `yAll`
leaves to the caller and copies into the first `nPars` slots of `lastPar` is
the one the recomputation left. -/
theorem recompute_effect_on_array (c : CaseConsts ℝ) (ix : ParIndex) (g : Globals ℝ)
    (a : Nat → ℝ) (t : ℝ) :
    (c.b134sbFlag = false →
      (ComputeParameterDependentVars Real.exp c ix g a).2 = a)
    ∧ (c.b134sbFlag = true →
        (∀ j : Nat, j ≠ ix.gammaT3 →
          (ComputeParameterDependentVars Real.exp c ix g a).2 j = a j)
        ∧ (ComputeParameterDependentVars Real.exp c ix g a).2 ix.gammaT3 = a ix.gammaT2
        ∧ (ComputeParameterDependentVars Real.exp c ix g a).1.tT3
            = 1 / (1 / c.t3 + a ix.gammaT2 / 1000))
    ∧ (CompareParArrays a g.lastPar sizeof_Double_t c.iota = false →
        (yAll Real.exp c ix g t a).2.2 = (ComputeParameterDependentVars Real.exp c ix g a).2
        ∧ ∀ i : Nat, i < c.nPars →
            (yAll Real.exp c ix g t a).2.1.lastPar i
              = (ComputeParameterDependentVars Real.exp c ix g a).2 i) := by
  refine ⟨fun hf => ?_, fun hf => ⟨fun j hj => CPDV_array_of_ne Real.exp c ix g a j hj, ?_, ?_⟩,
    fun hcmp => ?_⟩
  · rw [CPDV_array, hf]
    rfl
  · rw [CPDV_array, hf]
    exact Function.update_same _ _ _
  · rw [CPDV_tT3, hf]
    rfl
  · have e := yAll_of_miss Real.exp c ix g a t hcmp
    have e2 := congrArg Prod.snd e
    simp only at e2
    refine ⟨e2, fun i hi => ?_⟩
    have e1 := congrArg Prod.fst e
    simp only at e1
    rw [e1, withUnassigned_lastPar]
    simp [hi]

/-! ## The feeding populations as a sum of kernels (C25) -/

/-- The loop of `Ycap`, from any state: it adds `body (k), body (k+1), ...,
body (n)` and performs `max (n + 1 - k, 0)` further iterations. -/
theorem Ycap_loop_eq (body : Int → ℝ) (n : Int) (m : Nat) :
    ∀ (k : Int) (f : ℝ) (iters : Nat), (n + 1 - k).toNat = m →
      Ycap_loop body n k f iters
        = (f + ∑ j in Finset.range m, body (k + (j : Int)), iters + m) := by
  induction m with
  | zero =>
    intro k f iters hm
    have hk : ¬ k ≤ n := by omega
    rw [Ycap_loop]
    simp [hk]
  | succ m ih =>
    intro k f iters hm
    have hk : k ≤ n := by omega
    rw [Ycap_loop]
    simp only [hk, dite_true]
    rw [ih (k + 1) (f + body k) (iters + 1) (by omega), Finset.sum_range_succ']
    refine Prod.ext ?_ ?_
    · simp only [Nat.cast_add, Nat.cast_one, Nat.cast_zero, add_zero]
      rw [add_assoc, add_comm (body k)]
      congr 2
      refine Finset.sum_congr rfl fun j _ => ?_
      congr 1
      ring
    · simp only
      omega

/-- A left fold that adds up the terms `h (j)` over `j = 0, ..., m - 1`. -/
theorem foldl_add_range (h : Int → ℝ) (m : Nat) (f0 : ℝ) :
    List.foldl (fun f (j : Int) => f + h j) f0 (do let a ← List.range m; pure (a : Int))
      = f0 + ∑ j in Finset.range m, h (j : Int) := by
  induction m with
  | zero => simp
  | succ m ih =>
    rw [Finset.sum_range_succ, ← add_assoc, ← ih]
    simp [List.range_succ]

/-- A sum over the integers `1, ..., n` as a sum over `j = 0, ..., n - 1`. -/
theorem sum_Icc_one_eq_sum_range (F : Int → ℝ) (n : Int) :
    ∑ k in Finset.Icc (1 : Int) n, F k = ∑ j in Finset.range n.toNat, F ((j : Int) + 1) := by
  rw [Int.Icc_eq_finset_map, Finset.sum_map]
  simp only [add_sub_cancel_right, Function.Embedding.trans_apply, Nat.castEmbedding_apply,
    addLeftEmbedding_apply]
  exact Finset.sum_congr rfl fun j _ => by rw [add_comm]

/-- The value of `Ycap (2, a, tvar)` as a sum over `j = k - 1`. -/
theorem Ycap_two (c : CaseConsts ℝ) (ix : ParIndex) (g : Globals ℝ) (a : Nat → ℝ) (t : ℝ) :
    Ycap Real.exp c ix g 2 a t
      = ∑ j in Finset.range (Ceil ((t - c.tBac) / c.tCap)).toNat,
          Y2InitialValue Real.exp c ix g t a
            (c.tBac + (((j : Int) + 1 - 1 : Int) : ℝ) * c.tCap) 0 := by
  have key := foldl_add_range (fun j : Int => Y2InitialValue Real.exp c ix g t a
    (c.tBac + ((j + 1 - 1 : Int) : ℝ) * c.tCap) 0) (Ceil ((t - c.tBac) / c.tCap)).toNat 0
  rw [zero_add] at key
  unfold Ycap
  simp only [if_true, (by decide : ¬ (2 : Int) = 3), if_false]
  exact key

/-- The value of `Ycap (3, a, tvar)` as a sum over `j = k - 1`. -/
theorem Ycap_three (c : CaseConsts ℝ) (ix : ParIndex) (g : Globals ℝ) (a : Nat → ℝ) (t : ℝ) :
    Ycap Real.exp c ix g 3 a t
      = ∑ j in Finset.range (Ceil ((t - c.tBac) / c.tCap)).toNat,
          Y3InitialValue Real.exp c ix g t a
            (c.tBac + (((j : Int) + 1 - 1 : Int) : ℝ) * c.tCap) 0 := by
  have key := foldl_add_range (fun j : Int => Y3InitialValue Real.exp c ix g t a
    (c.tBac + ((j + 1 - 1 : Int) : ℝ) * c.tCap) 0) (Ceil ((t - c.tBac) / c.tCap)).toNat 0
  rw [zero_add] at key
  unfold Ycap
  simp only [if_true, (by decide : ¬ (3 : Int) = 2), if_false]
  exact key

/-- The function `Ycap` is `0` for a species index other than `2` and `3`. -/
theorem Ycap_other (c : CaseConsts ℝ) (ix : ParIndex) (g : Globals ℝ) (a : Nat → ℝ) (t : ℝ)
    (i : Int) (h2 : i ≠ 2) (h3 : i ≠ 3) : Ycap Real.exp c ix g i a t = 0 := by
  unfold Ycap
  simp only [h2, h3, if_false]

/-- C25: with `n = ceil ((t - tBac) / tCap)`, for `i = 2` and `i = 3`
`Ycap (i, a, t)` is the sum over `k = 1, ..., n` of
`YiInitialValue (t, a, tBac + (k - 1) * tCap, 0)`, which is empty, with value
`0`, when `n ≤ 0`; the loop, entered with `k = 1` and `f = 0`, ends with that
sum after exactly `max (n, 0)` iterations; and `Ycap (i, a, t) = 0` for every
other `i`. -/
theorem Ycap_eq_sum_of_kernels (c : CaseConsts ℝ) (ix : ParIndex) (g : Globals ℝ)
    (a : Nat → ℝ) (t : ℝ) :
    (Ycap Real.exp c ix g 2 a t
        = ∑ k in Finset.Icc (1 : Int) (Ceil ((t - c.tBac) / c.tCap)),
            Y2InitialValue Real.exp c ix g t a (c.tBac + ((k - 1 : Int) : ℝ) * c.tCap) 0
      ∧ Ycap Real.exp c ix g 3 a t
        = ∑ k in Finset.Icc (1 : Int) (Ceil ((t - c.tBac) / c.tCap)),
            Y3InitialValue Real.exp c ix g t a (c.tBac + ((k - 1 : Int) : ℝ) * c.tCap) 0)
    ∧ (Ceil ((t - c.tBac) / c.tCap) ≤ 0 →
        Ycap Real.exp c ix g 2 a t = 0 ∧ Ycap Real.exp c ix g 3 a t = 0)
    ∧ (Ycap_loop (fun k => Y2InitialValue Real.exp c ix g t a
            (c.tBac + ((k - 1 : Int) : ℝ) * c.tCap) 0) (Ceil ((t - c.tBac) / c.tCap)) 1 0 0
        = (Ycap Real.exp c ix g 2 a t, (Ceil ((t - c.tBac) / c.tCap)).toNat)
      ∧ Ycap_loop (fun k => Y3InitialValue Real.exp c ix g t a
            (c.tBac + ((k - 1 : Int) : ℝ) * c.tCap) 0) (Ceil ((t - c.tBac) / c.tCap)) 1 0 0
        = (Ycap Real.exp c ix g 3 a t, (Ceil ((t - c.tBac) / c.tCap)).toNat)
      ∧ ((Ceil ((t - c.tBac) / c.tCap)).toNat : Int) = max (Ceil ((t - c.tBac) / c.tCap)) 0)
    ∧ (∀ i : Int, i ≠ 2 → i ≠ 3 → Ycap Real.exp c ix g i a t = 0) := by
  have e2 := Ycap_two c ix g a t
  have e3 := Ycap_three c ix g a t
  have s2 := sum_Icc_one_eq_sum_range (fun k => Y2InitialValue Real.exp c ix g t a
    (c.tBac + ((k - 1 : Int) : ℝ) * c.tCap) 0) (Ceil ((t - c.tBac) / c.tCap))
  have s3 := sum_Icc_one_eq_sum_range (fun k => Y3InitialValue Real.exp c ix g t a
    (c.tBac + ((k - 1 : Int) : ℝ) * c.tCap) 0) (Ceil ((t - c.tBac) / c.tCap))
  have l2 := Ycap_loop_eq (fun k => Y2InitialValue Real.exp c ix g t a
    (c.tBac + ((k - 1 : Int) : ℝ) * c.tCap) 0) (Ceil ((t - c.tBac) / c.tCap))
    (Ceil ((t - c.tBac) / c.tCap)).toNat 1 0 0 (by simp)
  have l3 := Ycap_loop_eq (fun k => Y3InitialValue Real.exp c ix g t a
    (c.tBac + ((k - 1 : Int) : ℝ) * c.tCap) 0) (Ceil ((t - c.tBac) / c.tCap))
    (Ceil ((t - c.tBac) / c.tCap)).toNat 1 0 0 (by simp)
  simp only [zero_add] at l2 l3
  simp only [] at s2 s3
  refine ⟨⟨e2.trans s2.symm, e3.trans s3.symm⟩, fun hn => ?_, ⟨?_, ?_, ?_⟩,
    fun i h2 h3 => Ycap_other c ix g a t i h2 h3⟩
  · rw [e2, e3, Int.toNat_eq_zero.2 hn]
    simp
  · rw [l2, e2]
    simp only [add_comm (1 : Int)]
  · rw [l3, e3]
    simp only [add_comm (1 : Int)]
  · rw [Int.toNat_eq_max]

/-! ## The mixing sums as nested geometric sums (C23, C24) -/

/-- The bracket of `SigmaZ` without regularization, as a sum over the
injections. -/
theorem SigmaZ_bracket (b q : ℝ) (hb0 : b ≠ 0) (hb : b ≠ 1) (hq : q ≠ 1) (hqb : q ≠ b)
    (M : Nat) :
    b ^ M / (1 - q) * (((1 / b) ^ (M + 1) - 1 / b) / (1 / b - 1)
        - ((q / b) ^ (M + 1) - q / b) / (q / b - 1))
      = ∑ j in Finset.range M, b ^ (M - (j + 1)) * ((1 - q ^ (j + 1)) / (1 - q)) := by
  have h1 : 1 / b ≠ 1 := by
    intro h
    rw [div_eq_one_iff_eq hb0] at h
    exact hb h.symm
  have h2 : q / b ≠ 1 := by
    intro h
    rw [div_eq_one_iff_eq hb0] at h
    exact hqb h
  have hq1 : 1 - q ≠ 0 := sub_ne_zero.2 (Ne.symm hq)
  rw [geom_sum_shift _ h1 M, geom_sum_shift _ h2 M, ← Finset.sum_sub_distrib, Finset.mul_sum]
  refine Finset.sum_congr rfl fun j hj => ?_
  have hjM : j + 1 ≤ M := by
    have := Finset.mem_range.1 hj
    omega
  have hsplit : b ^ M = b ^ (M - (j + 1)) * b ^ (j + 1) := by
    rw [← pow_add]
    congr 1
    omega
  have hbj : b ^ (j + 1) ≠ 0 := pow_ne_zero _ hb0
  rw [hsplit, div_pow, div_pow, one_pow]
  field_simp
  ring

/-- The bracket of `SigmaW` without regularization, as a sum over the
injections. -/
theorem SigmaW_bracket (rho eT b : ℝ) (hrho : rho ≠ 0) (hb0 : b ≠ 0) (hb : b ≠ 1)
    (hq : rho * eT ≠ 1) (hqb : rho * eT ≠ b) (M : Nat) :
    1 / (rho * (b - 1)) * (b ^ (M + 1) * ((rho * eT / b) ^ (M + 1) - rho * eT / b)
          / (rho * eT / b - 1)
        - ((rho * eT) ^ (M + 1) - rho * eT) / (rho * eT - 1))
      = ∑ k in Finset.range M, rho ^ k * eT ^ (k + 1) * ∑ l in Finset.range (M - k), b ^ l := by
  have h2 : rho * eT / b ≠ 1 := by
    intro h
    rw [div_eq_one_iff_eq hb0] at h
    exact hqb h
  have hb1 : b - 1 ≠ 0 := sub_ne_zero.2 hb
  rw [mul_div_assoc, geom_sum_shift _ h2 M, geom_sum_shift _ hq M, Finset.mul_sum,
    ← Finset.sum_sub_distrib, Finset.mul_sum]
  refine Finset.sum_congr rfl fun k hk => ?_
  have hkM : k + 1 ≤ M + 1 := by
    have := Finset.mem_range.1 hk
    omega
  have hsplit : b ^ (M + 1) = b ^ (M - k) * b ^ (k + 1) := by
    rw [← pow_add]
    congr 1
    have := Finset.mem_range.1 hk
    omega
  have hbk : b ^ (k + 1) ≠ 0 := pow_ne_zero _ hb0
  rw [geom_sum_eq hb (M - k), hsplit, div_pow, mul_pow]
  field_simp
  ring

/-- C24: without regularization (`iota = 0`), for `n ≥ 2`, `rho ≠ 0` and
`eT = exp (-tCap / tT)`, `eU = exp (-tCap / tU)` with `eU ≠ 1`,
`rho * eT ≠ 1`, `rho * eT ≠ eU`, the sum `SigmaW (rho, tT, tU, n)` is the sum
over `m = 1, ..., n - 1` of `rho ^ (m - 1) * eT ^ m` times the sum over
`l = 0, ..., n - 1 - m` of `eU ^ l`. -/
theorem SigmaW_nested_sum (c : CaseConsts ℝ) (rho tT tU : ℝ) (n : Nat)
    (hiota : c.iota = 0) (hn : 2 ≤ n) (hrho : rho ≠ 0)
    (hU : Real.exp (-c.tCap / tU) ≠ 1) (hT : rho * Real.exp (-c.tCap / tT) ≠ 1)
    (hTU : rho * Real.exp (-c.tCap / tT) ≠ Real.exp (-c.tCap / tU)) :
    SigmaW Real.exp c rho tT tU (n : Int)
      = ∑ m in Finset.Ico 1 n, rho ^ (m - 1) * Real.exp (-c.tCap / tT) ^ m
          * ∑ l in Finset.range (n - m), Real.exp (-c.tCap / tU) ^ l := by
  obtain ⟨M, rfl⟩ : ∃ M : Nat, n = M + 1 := ⟨n - 1, by omega⟩
  have hn2 : ((M + 1 : Nat) : Int) ≥ 2 := by omega
  have key := SigmaW_bracket rho (Real.exp (-c.tCap / tT)) (Real.exp (-c.tCap / tU)) hrho
    (Real.exp_ne_zero _) hU hT hTU M
  unfold SigmaW
  simp only [hn2, if_true, hiota, add_zero, Power, zpow_natCast]
  rw [key, Finset.sum_Ico_eq_sum_range]
  simp only [Nat.add_sub_cancel]
  refine Finset.sum_congr rfl fun k _ => ?_
  rw [Nat.add_sub_cancel_left, add_comm 1 k, Nat.add_sub_add_right]

/-- Instance of C24 at `demoCase` with `iota` set to `0`, `rho = 1 / 2`,
`tT = 3600`, `tU = 35300` and `n = 3`. -/
theorem SigmaW_nested_sum_witness :
    (({ demoCase ℝ with iota := 0 } : CaseConsts ℝ).iota = 0 ∧ 2 ≤ 3 ∧ (1 / 2 : ℝ) ≠ 0)
    ∧ SigmaW Real.exp { demoCase ℝ with iota := 0 } (1 / 2) 3600 35300 ((3 : Nat) : Int)
      = ∑ m in Finset.Ico 1 3,
          (1 / 2 : ℝ) ^ (m - 1)
            * Real.exp (-({ demoCase ℝ with iota := 0 } : CaseConsts ℝ).tCap / 3600) ^ m
            * ∑ l in Finset.range (3 - m),
                Real.exp (-({ demoCase ℝ with iota := 0 } : CaseConsts ℝ).tCap / 35300) ^ l :=
  have hCap : (0 : ℝ) < ({ demoCase ℝ with iota := 0 } : CaseConsts ℝ).tCap := by
    norm_num [demoCase]
  have hT1 := exp_neg_div_lt_one _ (3600 : ℝ) hCap (by norm_num)
  have hT0 := Real.exp_pos (-({ demoCase ℝ with iota := 0 } : CaseConsts ℝ).tCap / 3600)
  have hU1 := exp_neg_div_lt_one _ (35300 : ℝ) hCap (by norm_num)
  have hlt : Real.exp (-({ demoCase ℝ with iota := 0 } : CaseConsts ℝ).tCap / 3600)
      < Real.exp (-({ demoCase ℝ with iota := 0 } : CaseConsts ℝ).tCap / 35300) := by
    apply Real.exp_lt_exp.2
    norm_num [demoCase]
  ⟨⟨rfl, by decide, by norm_num⟩,
    SigmaW_nested_sum { demoCase ℝ with iota := 0 } (1 / 2) 3600 35300 3 rfl (by decide)
      (by norm_num) (ne_of_lt hU1) (by intro h; linarith) (by intro h; linarith)⟩

/-- C23: without regularization (`iota = 0`), for `n ≥ 2` and
`eT = exp (-tCap / tT)`, `eU = exp (-tCap / tU)` with `eU ≠ 1`,
`rho * eT ≠ 1`, `rho * eT ≠ eU`, the sum `SigmaZ (rho, tT, tU, n)` is
`(eU - eT)` times the sum over `k = 1, ..., n - 1` of
`eU ^ (n - 1 - k) * SigmaT (rho, tT, k)`, and
`SigmaZ (n + 1) = eU * SigmaZ (n) + (eU - eT) * SigmaT (rho, tT, n)`. -/
theorem SigmaZ_nested_sum (c : CaseConsts ℝ) (rho tT tU : ℝ) (n : Nat)
    (hiota : c.iota = 0) (hn : 2 ≤ n)
    (hU : Real.exp (-c.tCap / tU) ≠ 1) (hT : rho * Real.exp (-c.tCap / tT) ≠ 1)
    (hTU : rho * Real.exp (-c.tCap / tT) ≠ Real.exp (-c.tCap / tU)) :
    SigmaZ Real.exp c rho tT tU (n : Int)
      = (Real.exp (-c.tCap / tU) - Real.exp (-c.tCap / tT))
          * ∑ k in Finset.Ico 1 n,
              Real.exp (-c.tCap / tU) ^ (n - 1 - k) * SigmaT Real.exp c rho tT (k : Int)
    ∧ SigmaZ Real.exp c rho tT tU ((n : Int) + 1)
      = Real.exp (-c.tCap / tU) * SigmaZ Real.exp c rho tT tU (n : Int)
        + (Real.exp (-c.tCap / tU) - Real.exp (-c.tCap / tT))
            * SigmaT Real.exp c rho tT (n : Int) := by
  have hsum : ∀ m : Nat, 2 ≤ m →
      SigmaZ Real.exp c rho tT tU (m : Int)
        = (Real.exp (-c.tCap / tU) - Real.exp (-c.tCap / tT))
            * ∑ k in Finset.Ico 1 m,
                Real.exp (-c.tCap / tU) ^ (m - 1 - k) * SigmaT Real.exp c rho tT (k : Int) := by
    intro m hm
    obtain ⟨M, rfl⟩ : ∃ M : Nat, m = M + 1 := ⟨m - 1, by omega⟩
    have hm2 : ((M + 1 : Nat) : Int) ≥ 2 := by omega
    have hM : ((M + 1 : Nat) : Int) - 1 = (M : Int) := by
      push_cast
      ring
    have key := SigmaZ_bracket (Real.exp (-c.tCap / tU)) (rho * Real.exp (-c.tCap / tT))
      (Real.exp_ne_zero _) hU hT hTU M
    unfold SigmaZ
    simp only [hm2, if_true, hiota, add_zero, Power, hM, zpow_natCast]
    rw [mul_div_assoc, mul_assoc, key, Finset.sum_Ico_eq_sum_range]
    simp only [Nat.add_sub_cancel]
    congr 1
    refine Finset.sum_congr rfl fun k _ => ?_
    rw [SigmaT_natCast, add_comm 1 k]
  refine ⟨hsum n hn, ?_⟩
  have h1 := hsum n hn
  have h2 := hsum (n + 1) (by omega)
  rw [Nat.cast_add, Nat.cast_one] at h2
  rw [h2, h1, Finset.sum_Ico_succ_top (by omega : 1 ≤ n), mul_add]
  simp only [Nat.add_sub_cancel, Nat.sub_self, pow_zero, mul_one]
  have hs : ∑ k in Finset.Ico 1 n,
        Real.exp (-c.tCap / tU) ^ (n - k) * SigmaT Real.exp c rho tT (k : Int)
      = Real.exp (-c.tCap / tU) * ∑ k in Finset.Ico 1 n,
          Real.exp (-c.tCap / tU) ^ (n - 1 - k) * SigmaT Real.exp c rho tT (k : Int) := by
    rw [Finset.mul_sum]
    refine Finset.sum_congr rfl fun k hk => ?_
    have hk2 := (Finset.mem_Ico.1 hk).2
    have hs : n - k = (n - 1 - k) + 1 := by omega
    rw [hs, pow_succ]
    ring
  rw [hs]
  ring

/-- Instance of C23 at `demoCase` with `iota` set to `0`, `rho = 1 / 2`,
`tT = 3600`, `tU = 35300` and `n = 3`. -/
theorem SigmaZ_nested_sum_witness :
    (({ demoCase ℝ with iota := 0 } : CaseConsts ℝ).iota = 0 ∧ 2 ≤ 3)
    ∧ SigmaZ Real.exp { demoCase ℝ with iota := 0 } (1 / 2) 3600 35300 (((3 : Nat) : Int) + 1)
      = Real.exp (-({ demoCase ℝ with iota := 0 } : CaseConsts ℝ).tCap / 35300)
          * SigmaZ Real.exp { demoCase ℝ with iota := 0 } (1 / 2) 3600 35300 ((3 : Nat) : Int)
        + (Real.exp (-({ demoCase ℝ with iota := 0 } : CaseConsts ℝ).tCap / 35300)
            - Real.exp (-({ demoCase ℝ with iota := 0 } : CaseConsts ℝ).tCap / 3600))
          * SigmaT Real.exp { demoCase ℝ with iota := 0 } (1 / 2) 3600 ((3 : Nat) : Int) :=
  have hCap : (0 : ℝ) < ({ demoCase ℝ with iota := 0 } : CaseConsts ℝ).tCap := by
    norm_num [demoCase]
  have hT1 := exp_neg_div_lt_one _ (3600 : ℝ) hCap (by norm_num)
  have hT0 := Real.exp_pos (-({ demoCase ℝ with iota := 0 } : CaseConsts ℝ).tCap / 3600)
  have hU1 := exp_neg_div_lt_one _ (35300 : ℝ) hCap (by norm_num)
  have hlt : Real.exp (-({ demoCase ℝ with iota := 0 } : CaseConsts ℝ).tCap / 3600)
      < Real.exp (-({ demoCase ℝ with iota := 0 } : CaseConsts ℝ).tCap / 35300) := by
    apply Real.exp_lt_exp.2
    norm_num [demoCase]
  ⟨⟨rfl, by decide⟩,
    (SigmaZ_nested_sum { demoCase ℝ with iota := 0 } (1 / 2) 3600 35300 3 rfl (by decide)
      (ne_of_lt hU1) (by intro h; linarith) (by intro h; linarith)).2⟩

/-! ## A value read from a cache that was not refreshed (C9) -/

/-- The first call `yAll (0, demoPar)` of a program run finds the array
changed: slot `nCyc` is `1` and the last accepted array is still zero. -/
theorem demo_first_call_misses :
    CompareParArrays (demoPar ℝ) (zeroGlobals ℝ).lastPar sizeof_Double_t (demoCase ℝ).iota
      = false :=
  (CompareParArrays_eq_false_iff _ _ _ _).2
    ⟨0, by decide, by norm_num [demoCase, demoPar, zeroGlobals]⟩

/-- C9 fails as stated for `rAll`.  The cache is the one that the first call
`yAll (0, demoPar)` of a run leaves (production rates `1`, `p = 1 / 2`, so
`ampT_i = 3000`, and `tT_i = t_i`).  The array `quietPar` differs from the
last accepted array by `1 > iota` in slot `r1`.  At `t = 107000`, the end of
the first capture interval, `rAll (t, quietPar)` returns
`3000 * exp (-6000 / t1) / t1 + 3000 * exp (-6000 / t2) / t2
+ 3000 * exp (-6000 / t3) / t3 > 0`, computed from the cached amplitudes,
while the value computed from the derived state of
`ComputeParameterDependentVars (quietPar)`, whose production rates are `0`,
is `0`. -/
theorem rAll_reads_stale_cache :
    (∃ i < sizeof_Double_t,
        (demoCase ℝ).iota < |quietPar ℝ i
          - (yAll Real.exp (demoCase ℝ) demoLayout (zeroGlobals ℝ) 0 (demoPar ℝ)).2.1.lastPar i|)
    ∧ rAll Real.exp (demoCase ℝ) demoLayout
          (yAll Real.exp (demoCase ℝ) demoLayout (zeroGlobals ℝ) 0 (demoPar ℝ)).2.1
          107000 (quietPar ℝ)
        = 3000 * Real.exp (-6000 / 3600) / 3600 + 3000 * Real.exp (-6000 / 35300) / 35300
          + 3000 * Real.exp (-6000 / 330500) / 330500
    ∧ 0 < rAll Real.exp (demoCase ℝ) demoLayout
          (yAll Real.exp (demoCase ℝ) demoLayout (zeroGlobals ℝ) 0 (demoPar ℝ)).2.1
          107000 (quietPar ℝ)
    ∧ rAll Real.exp (demoCase ℝ) demoLayout
          (ComputeParameterDependentVars Real.exp (demoCase ℝ) demoLayout
            (yAll Real.exp (demoCase ℝ) demoLayout (zeroGlobals ℝ) 0 (demoPar ℝ)).2.1
            (quietPar ℝ)).1 107000
          (ComputeParameterDependentVars Real.exp (demoCase ℝ) demoLayout
            (yAll Real.exp (demoCase ℝ) demoLayout (zeroGlobals ℝ) 0 (demoPar ℝ)).2.1
            (quietPar ℝ)).2
        = 0 := by
  have e1 := congrArg Prod.fst (yAll_of_miss Real.exp (demoCase ℝ) demoLayout (zeroGlobals ℝ)
    (demoPar ℝ) 0 demo_first_call_misses)
  simp only at e1
  have harr : (ComputeParameterDependentVars Real.exp (demoCase ℝ) demoLayout (zeroGlobals ℝ)
      (demoPar ℝ)).2 = demoPar ℝ := by
    rw [CPDV_array]
    rfl
  -- the stale value
  have hstale : rAll Real.exp (demoCase ℝ) demoLayout
      (yAll Real.exp (demoCase ℝ) demoLayout (zeroGlobals ℝ) 0 (demoPar ℝ)).2.1
      107000 (quietPar ℝ)
      = 3000 * Real.exp (-6000 / 3600) / 3600 + 3000 * Real.exp (-6000 / 35300) / 35300
        + 3000 * Real.exp (-6000 / 330500) / 330500 := by
    rw [e1, rAll_withUnassigned]
    obtain ⟨a1, a2, a3⟩ := CPDV_ampT Real.exp (demoCase ℝ) demoLayout (zeroGlobals ℝ)
      (demoPar ℝ)
      (ComputeParameterDependentVars Real.exp (demoCase ℝ) demoLayout (zeroGlobals ℝ)
        (demoPar ℝ)).1
      (ComputeParameterDependentVars Real.exp (demoCase ℝ) demoLayout (zeroGlobals ℝ)
        (demoPar ℝ)).2 rfl
    obtain ⟨l1, l2, l3, -⟩ := CPDV_lifetimes Real.exp (demoCase ℝ) demoLayout (zeroGlobals ℝ)
      (demoPar ℝ)
      (ComputeParameterDependentVars Real.exp (demoCase ℝ) demoLayout (zeroGlobals ℝ)
        (demoPar ℝ)).1
      (ComputeParameterDependentVars Real.exp (demoCase ℝ) demoLayout (zeroGlobals ℝ)
        (demoPar ℝ)).2 rfl
    rw [harr] at a1 a2 a3 l1 l2 l3
    generalize (ComputeParameterDependentVars Real.exp (demoCase ℝ) demoLayout (zeroGlobals ℝ)
      (demoPar ℝ)).1 = G at a1 a2 a3 l1 l2 l3 ⊢
    have b1 : G.ampT1 = 3000 := by rw [a1]; norm_num [demoPar, demoLayout, demoCase]
    have b2 : G.ampT2 = 3000 := by rw [a2]; norm_num [demoPar, demoLayout, demoCase]
    have b3 : G.ampT3 = 3000 := by rw [a3]; norm_num [demoPar, demoLayout, demoCase]
    have t1 : G.tT1 = 3600 := by rw [l1]; norm_num [demoPar, demoLayout, demoCase]
    have t2 : G.tT2 = 35300 := by rw [l2]; norm_num [demoPar, demoLayout, demoCase]
    have t3 : G.tT3 = 330500 := by rw [l3]; norm_num [demoPar, demoLayout, demoCase]
    have hn : Ceil (((107000 : ℝ) - (demoCase ℝ).tBac) / (demoCase ℝ).tCap) = 1 := by
      unfold Ceil
      rw [Int.ceil_eq_iff]
      norm_num [demoCase]
    have q0 : quietPar ℝ demoLayout.rho = 0 := by norm_num [quietPar, demoLayout]
    have hw : (demoCase ℝ).tBac ≤ 107000 ∧ (107000 : ℝ) ≤ (demoCase ℝ).tCyc := by
      norm_num [demoCase]
    have hT : ∀ i : Int, Ttot Real.exp (demoCase ℝ) demoLayout G i (quietPar ℝ) 107000
        = if i = 3 then 3000 * Real.exp (-6000 / 330500)
          else if i = 2 then 3000 * Real.exp (-6000 / 35300)
          else if i = 1 then 3000 * Real.exp (-6000 / 3600) else 0 := by
      intro i
      unfold Ttot
      simp only [hn, hw, and_self, if_true, q0, SigmaT, Power, zero_mul, zpow_one, sub_zero,
        div_one, mul_one, b1, b2, b3, t1, t2, t3]
      norm_num [demoCase]
    unfold rAll rT1 rT2 rT3 rU1 rU2 rU3
    rw [hT 1, hT 2, hT 3]
    norm_num [quietPar, demoLayout, demoCase]
  refine ⟨⟨3, by decide, ?_⟩, hstale, ?_, ?_⟩
  · rw [e1, withUnassigned_lastPar, harr]
    norm_num [demoCase, demoPar, quietPar]
  · rw [hstale]
    positivity
  · have harr2 : (ComputeParameterDependentVars Real.exp (demoCase ℝ) demoLayout
        (yAll Real.exp (demoCase ℝ) demoLayout (zeroGlobals ℝ) 0 (demoPar ℝ)).2.1
        (quietPar ℝ)).2 = quietPar ℝ := by
      rw [CPDV_array]
      rfl
    obtain ⟨a1, a2, a3⟩ := CPDV_ampT Real.exp (demoCase ℝ) demoLayout
      (yAll Real.exp (demoCase ℝ) demoLayout (zeroGlobals ℝ) 0 (demoPar ℝ)).2.1 (quietPar ℝ)
      (ComputeParameterDependentVars Real.exp (demoCase ℝ) demoLayout
        (yAll Real.exp (demoCase ℝ) demoLayout (zeroGlobals ℝ) 0 (demoPar ℝ)).2.1
        (quietPar ℝ)).1
      (ComputeParameterDependentVars Real.exp (demoCase ℝ) demoLayout
        (yAll Real.exp (demoCase ℝ) demoLayout (zeroGlobals ℝ) 0 (demoPar ℝ)).2.1
        (quietPar ℝ)).2 rfl
    rw [harr2] at a1 a2 a3 ⊢
    generalize (ComputeParameterDependentVars Real.exp (demoCase ℝ) demoLayout
      (yAll Real.exp (demoCase ℝ) demoLayout (zeroGlobals ℝ) 0 (demoPar ℝ)).2.1
      (quietPar ℝ)).1 = G at a1 a2 a3 ⊢
    have b1 : G.ampT1 = 0 := by rw [a1]; norm_num [quietPar, demoLayout]
    have b2 : G.ampT2 = 0 := by rw [a2]; norm_num [quietPar, demoLayout]
    have b3 : G.ampT3 = 0 := by rw [a3]; norm_num [quietPar, demoLayout]
    have hT : ∀ i : Int, Ttot Real.exp (demoCase ℝ) demoLayout G i (quietPar ℝ) 107000 = 0 := by
      intro i
      unfold Ttot
      simp only [b1, b2, b3, zero_mul, ite_self]
    unfold rAll rT1 rT2 rT3 rU1 rU2 rU3
    rw [hT 1, hT 2, hT 3]
    norm_num [quietPar, demoLayout, demoCase]

/-! ## Division by zero inside `SigmaW` and `SigmaZ` (C16) -/

/-- The numerator `y ^ (M + 1) - y + iota` of the regularized sums, written
with the geometric sum `G = y + ... + y ^ M`. -/
theorem regularized_numerator (y iota : ℝ) (M : Nat) :
    y ^ (M + 1) - y + iota
      = iota - (1 - y) * ∑ k in Finset.range M, y ^ (k + 1) := by
  induction M with
  | zero => simp
  | succ M ih =>
    rw [Finset.sum_range_succ, mul_add, ← sub_sub, ← ih]
    ring

/-- The unregularized difference of the two geometric sums of `SigmaW` is at
least its first term, which is at least `x * b * (1 - b)`. -/
theorem geom_sums_gap (x b : ℝ) (M : Nat) (hM : 1 ≤ M) (hx0 : 0 ≤ x) (hb0 : 0 < b)
    (hb1 : b < 1) :
    x * b * (1 - b)
      ≤ ∑ k in Finset.range M, (x * b) ^ (k + 1)
        - b ^ (M + 1) * ∑ k in Finset.range M, x ^ (k + 1) := by
  have hterm : ∀ k ∈ Finset.range M,
      0 ≤ (x * b) ^ (k + 1) - b ^ (M + 1) * x ^ (k + 1) := by
    intro k hk
    have hkM : k + 1 ≤ M + 1 := by
      have := Finset.mem_range.1 hk
      omega
    have hpow : b ^ (M + 1) ≤ b ^ (k + 1) := pow_le_pow_of_le_one hb0.le hb1.le hkM
    have hxk : 0 ≤ x ^ (k + 1) := pow_nonneg hx0 _
    rw [mul_pow]
    nlinarith
  rw [Finset.mul_sum, ← Finset.sum_sub_distrib]
  have h0 : (0 : Nat) ∈ Finset.range M := Finset.mem_range.2 (by omega)
  have hsingle := Finset.single_le_sum hterm h0
  have hb2 : b ^ (M + 1) ≤ b ^ 2 := pow_le_pow_of_le_one hb0.le hb1.le (by omega)
  have hfirst : x * b * (1 - b) ≤ (x * b) ^ (0 + 1) - b ^ (M + 1) * x ^ (0 + 1) := by
    have e1 : (x * b) ^ (0 + 1) = x * b := by norm_num
    have e2 : x ^ (0 + 1) = x := by norm_num
    rw [e1, e2]
    nlinarith
  linarith

/-- The bracket of `SigmaW` is not positive when `iota` is small against the
distance of the ratios from `1`. -/
theorem SigmaW_bracket_nonpos (x b iota : ℝ) (M : Nat) (hM : 1 ≤ M)
    (hx0 : 0 < x) (hx1 : x < 1) (hb0 : 0 < b) (hb1 : b < 1) (hi : 0 ≤ iota)
    (hm : iota ≤ (1 - x) * (1 - x * b) * (x * b) * (1 - b)) :
    b ^ (M + 1) * (x ^ (M + 1) - x + iota) / (x - 1 + iota)
      - ((x * b) ^ (M + 1) - x * b + iota) / (x * b - 1 + iota) ≤ 0 := by
  have hq0 : 0 < x * b := mul_pos hx0 hb0
  have hqx : x * b < x := by nlinarith
  have hs0 : 0 < (1 - x * b) * (x * b) * (1 - b) :=
    mul_pos (mul_pos (by linarith) hq0) (by linarith)
  have hs1 : (1 - x * b) * (x * b) * (1 - b) < 1 := by
    have h1 : (1 - x * b) * (x * b) < 1 := by nlinarith
    have h2 : 0 < (1 - x * b) * (x * b) := mul_pos (by linarith) hq0
    nlinarith
  have hi1 : iota < 1 - x := by
    have : (1 - x) * ((1 - x * b) * (x * b) * (1 - b)) < (1 - x) * 1 :=
      mul_lt_mul_of_pos_left hs1 (by linarith)
    have e : (1 - x) * (1 - x * b) * (x * b) * (1 - b)
        = (1 - x) * ((1 - x * b) * (x * b) * (1 - b)) := by ring
    linarith
  have hD1 : x - 1 + iota < 0 := by linarith
  have hD2 : x * b - 1 + iota < 0 := by linarith
  have hB0 : 0 < b ^ (M + 1) := pow_pos hb0 _
  have hB1 : b ^ (M + 1) ≤ 1 := pow_le_one₀ hb0.le hb1.le
  have hGx : 0 ≤ ∑ k in Finset.range M, x ^ (k + 1) :=
    Finset.sum_nonneg fun k _ => pow_nonneg hx0.le _
  have hvGq : (1 - x * b) * ∑ k in Finset.range M, (x * b) ^ (k + 1) ≤ x * b := by
    have h := regularized_numerator (x * b) 0 M
    have hp : 0 ≤ (x * b) ^ (M + 1) := pow_nonneg hq0.le _
    linarith
  have hD := geom_sums_gap x b M hM hx0.le hb0 hb1
  have hnum : b ^ (M + 1) * (x ^ (M + 1) - x + iota) * (x * b - 1 + iota)
      - ((x * b) ^ (M + 1) - x * b + iota) * (x - 1 + iota) ≤ 0 := by
    rw [regularized_numerator x iota M, regularized_numerator (x * b) iota M]
    have t1 : 0 ≤ iota ^ 2 * (1 - b ^ (M + 1)) := mul_nonneg (sq_nonneg _) (by linarith)
    have t2 : 0 ≤ iota * (x - (1 - x * b) * ∑ k in Finset.range M, (x * b) ^ (k + 1)
        + b ^ (M + 1) * (1 - x * b)
        + b ^ (M + 1) * (1 - x) * ∑ k in Finset.range M, x ^ (k + 1)) := by
      apply mul_nonneg hi
      have h1 : 0 ≤ b ^ (M + 1) * (1 - x * b) := mul_nonneg hB0.le (by linarith)
      have h2 : 0 ≤ b ^ (M + 1) * (1 - x) * ∑ k in Finset.range M, x ^ (k + 1) :=
        mul_nonneg (mul_nonneg hB0.le (by linarith)) hGx
      linarith
    have t3 : 0 ≤ (1 - x) * (1 - x * b)
        * (∑ k in Finset.range M, (x * b) ^ (k + 1)
          - b ^ (M + 1) * ∑ k in Finset.range M, x ^ (k + 1)) - iota := by
      have huv : 0 ≤ (1 - x) * (1 - x * b) := mul_nonneg (by linarith) (by linarith)
      have := mul_le_mul_of_nonneg_left hD huv
      have e : (1 - x) * (1 - x * b) * (x * b * (1 - b))
          = (1 - x) * (1 - x * b) * (x * b) * (1 - b) := by ring
      linarith
    nlinarith [t1, t2, t3]
  have hsplit : b ^ (M + 1) * (x ^ (M + 1) - x + iota) / (x - 1 + iota)
      - ((x * b) ^ (M + 1) - x * b + iota) / (x * b - 1 + iota)
      = (b ^ (M + 1) * (x ^ (M + 1) - x + iota) * (x * b - 1 + iota)
          - ((x * b) ^ (M + 1) - x * b + iota) * (x - 1 + iota))
        / ((x - 1 + iota) * (x * b - 1 + iota)) := by
    rw [div_sub_div _ _ hD1.ne hD2.ne]
    congr 1
    ring
  rw [hsplit]
  exact div_nonpos_of_nonpos_of_nonneg hnum (mul_nonneg_of_nonpos_of_nonpos hD1.le hD2.le)

/-- The regularized sum `SigmaW` is nonnegative, at every injection count,
when `rho > 0`, the ratio `rho * expT / expU` is below `1` and `iota` is at
most `(1 - rho*expT/expU) * (1 - rho*expT) * (rho*expT) * (1 - expU)`. -/
theorem SigmaW_nonneg_of_margin (c : CaseConsts ℝ) (rho tT tU : ℝ) (n : Int)
    (hiota : 0 ≤ c.iota) (h0 : 0 < rho) (hCap : 0 < c.tCap) (hT : 0 < tT) (hU : 0 < tU)
    (hx : rho * Real.exp (-c.tCap / tT) < Real.exp (-c.tCap / tU))
    (hm : c.iota ≤ (1 - rho * Real.exp (-c.tCap / tT) / Real.exp (-c.tCap / tU))
        * (1 - rho * Real.exp (-c.tCap / tT)) * (rho * Real.exp (-c.tCap / tT))
        * (1 - Real.exp (-c.tCap / tU))) :
    0 ≤ SigmaW Real.exp c rho tT tU n := by
  unfold SigmaW
  simp only []
  split_ifs with hn
  swap
  · exact le_rfl
  obtain ⟨M, rfl⟩ : ∃ M : Nat, n = ((M + 1 : Nat) : Int) := ⟨(n - 1).toNat, by omega⟩
  have hM : 1 ≤ M := by omega
  have heT1 : Real.exp (-c.tCap / tT) < 1 := exp_neg_div_lt_one _ _ hCap hT
  have heT0 : 0 < Real.exp (-c.tCap / tT) := Real.exp_pos _
  have hb1 : Real.exp (-c.tCap / tU) < 1 := exp_neg_div_lt_one _ _ hCap hU
  have hb0 : 0 < Real.exp (-c.tCap / tU) := Real.exp_pos _
  generalize Real.exp (-c.tCap / tT) = eT at *
  generalize Real.exp (-c.tCap / tU) = b at *
  have hq0 : 0 < rho * eT := mul_pos h0 heT0
  have hxb : rho * eT / b * b = rho * eT := div_mul_cancel₀ _ hb0.ne'
  have hx0 : 0 < rho * eT / b := div_pos hq0 hb0
  have hx1 : rho * eT / b < 1 := (div_lt_one hb0).2 hx
  have hm2 : c.iota ≤ (1 - rho * eT / b) * (1 - rho * eT / b * b) * (rho * eT / b * b)
      * (1 - b) := by
    rw [hxb]
    exact hm
  have hbr := SigmaW_bracket_nonpos (rho * eT / b) b c.iota M hM hx0 hx1 hb0 hb1 hiota hm2
  rw [hxb] at hbr
  have hD0 : rho * (b - 1) + c.iota < 0 := by
    have hu : 0 < 1 - rho * eT / b := by linarith
    have hv : 0 < 1 - rho * eT := by linarith
    have hw : 0 < rho * eT * (1 - b) := mul_pos hq0 (by linarith)
    have huv : (1 - rho * eT / b) * (1 - rho * eT) < 1 := by nlinarith
    have h1 : (1 - rho * eT / b) * (1 - rho * eT) * (rho * eT * (1 - b))
        < 1 * (rho * eT * (1 - b)) := mul_lt_mul_of_pos_right huv hw
    have h2 : rho * eT * (1 - b) ≤ rho * (1 - b) := by nlinarith
    have e : (1 - rho * eT / b) * (1 - rho * eT) * (rho * eT) * (1 - b)
        = (1 - rho * eT / b) * (1 - rho * eT) * (rho * eT * (1 - b)) := by ring
    nlinarith
  simp only [Power, zpow_natCast]
  exact mul_nonneg_of_nonpos_of_nonpos
    (div_nonpos_of_nonneg_of_nonpos (by linarith) hD0.le) hbr

/-- The bracket of `SigmaW` is not positive when the ratio is at least `1`
and `0 < iota ≤ (1 - x*b) * (x*b) * (1 - b)`. -/
theorem SigmaW_bracket_nonpos_of_one_le (x b iota : ℝ) (M : Nat) (hM : 1 ≤ M)
    (hx1 : 1 ≤ x) (hb0 : 0 < b) (hb1 : b < 1) (hq1 : x * b < 1) (hi : 0 < iota)
    (hm : iota ≤ (1 - x * b) * (x * b) * (1 - b)) :
    b ^ (M + 1) * (x ^ (M + 1) - x + iota) / (x - 1 + iota)
      - ((x * b) ^ (M + 1) - x * b + iota) / (x * b - 1 + iota) ≤ 0 := by
  have hx0 : 0 < x := by linarith
  have hq0 : 0 < x * b := mul_pos hx0 hb0
  have hqb : 0 < x * b * (1 - b) := mul_pos hq0 (by linarith)
  have hi1 : iota < 1 - x * b := by
    have h1 : (1 - x * b) * (x * b * (1 - b)) < (1 - x * b) * 1 := by
      apply mul_lt_mul_of_pos_left _ (by linarith)
      nlinarith
    have e : (1 - x * b) * (x * b) * (1 - b) = (1 - x * b) * (x * b * (1 - b)) := by ring
    linarith
  have hD1 : 0 < x - 1 + iota := by linarith
  have hD2 : x * b - 1 + iota < 0 := by linarith
  have hB0 : 0 < b ^ (M + 1) := pow_pos hb0 _
  have hGx : 1 ≤ ∑ k in Finset.range M, x ^ (k + 1) := by
    have h0 : (0 : Nat) ∈ Finset.range M := Finset.mem_range.2 (by omega)
    have hsingle := Finset.single_le_sum
      (fun k _ => pow_nonneg hx0.le (k + 1) : ∀ k ∈ Finset.range M, 0 ≤ x ^ (k + 1)) h0
    have e2 : x ^ (0 + 1) = x := by norm_num
    rw [e2] at hsingle
    linarith
  have hD := geom_sums_gap x b M hM hx0.le hb0 hb1
  have hfirst : b ^ (M + 1) * (x ^ (M + 1) - x + iota) / (x - 1 + iota)
      ≤ b ^ (M + 1) * ∑ k in Finset.range M, x ^ (k + 1) := by
    rw [div_le_iff₀ hD1, regularized_numerator x iota M]
    have : 0 ≤ b ^ (M + 1) * (iota * (∑ k in Finset.range M, x ^ (k + 1) - 1)) :=
      mul_nonneg hB0.le (mul_nonneg hi.le (by linarith))
    nlinarith
  have hsecond : b ^ (M + 1) * ∑ k in Finset.range M, x ^ (k + 1)
      ≤ ((x * b) ^ (M + 1) - x * b + iota) / (x * b - 1 + iota) := by
    rw [le_div_iff_of_neg hD2, regularized_numerator (x * b) iota M]
    have h1 : 0 ≤ iota * (b ^ (M + 1) * ∑ k in Finset.range M, x ^ (k + 1)) :=
      mul_nonneg hi.le (mul_nonneg hB0.le (by linarith))
    have h2 := mul_le_mul_of_nonneg_left hD (by linarith : 0 ≤ 1 - x * b)
    have e : (1 - x * b) * (x * b * (1 - b)) = (1 - x * b) * (x * b) * (1 - b) := by ring
    nlinarith
  linarith

/-- The regularized sum `SigmaW` is nonnegative, at every injection count,
when `0 < rho ≤ 1`, the ratio `rho * expT / expU` is at least `1` and
`0 < iota ≤ (1 - rho*expT) * (rho*expT) * (1 - expU)`. -/
theorem SigmaW_nonneg_of_ratio_ge_one (c : CaseConsts ℝ) (rho tT tU : ℝ) (n : Int)
    (hiota : 0 < c.iota) (h0 : 0 < rho) (h1 : rho ≤ 1) (hCap : 0 < c.tCap)
    (hT : 0 < tT) (hU : 0 < tU)
    (hx : Real.exp (-c.tCap / tU) ≤ rho * Real.exp (-c.tCap / tT))
    (hm : c.iota ≤ (1 - rho * Real.exp (-c.tCap / tT)) * (rho * Real.exp (-c.tCap / tT))
        * (1 - Real.exp (-c.tCap / tU))) :
    0 ≤ SigmaW Real.exp c rho tT tU n := by
  unfold SigmaW
  simp only []
  split_ifs with hn
  swap
  · exact le_rfl
  obtain ⟨M, rfl⟩ : ∃ M : Nat, n = ((M + 1 : Nat) : Int) := ⟨(n - 1).toNat, by omega⟩
  have hM : 1 ≤ M := by omega
  have heT1 : Real.exp (-c.tCap / tT) < 1 := exp_neg_div_lt_one _ _ hCap hT
  have heT0 : 0 < Real.exp (-c.tCap / tT) := Real.exp_pos _
  have hb1 : Real.exp (-c.tCap / tU) < 1 := exp_neg_div_lt_one _ _ hCap hU
  have hb0 : 0 < Real.exp (-c.tCap / tU) := Real.exp_pos _
  generalize Real.exp (-c.tCap / tT) = eT at *
  generalize Real.exp (-c.tCap / tU) = b at *
  have hq0 : 0 < rho * eT := mul_pos h0 heT0
  have hq1 : rho * eT < 1 := by nlinarith
  have hxb : rho * eT / b * b = rho * eT := div_mul_cancel₀ _ hb0.ne'
  have hx1 : 1 ≤ rho * eT / b := (one_le_div hb0).2 hx
  have hm2 : c.iota ≤ (1 - rho * eT / b * b) * (rho * eT / b * b) * (1 - b) := by
    rw [hxb]
    exact hm
  have hbr := SigmaW_bracket_nonpos_of_one_le (rho * eT / b) b c.iota M hM hx1 hb0 hb1
    (by rw [hxb]; exact hq1) hiota hm2
  rw [hxb] at hbr
  have hD0 : rho * (b - 1) + c.iota < 0 := by
    have hv : 0 < 1 - rho * eT := by linarith
    have hw : 0 < rho * eT * (1 - b) := mul_pos hq0 (by linarith)
    have h3 : (1 - rho * eT) * (rho * eT * (1 - b)) < 1 * (rho * eT * (1 - b)) :=
      mul_lt_mul_of_pos_right (by linarith) hw
    have h2 : rho * eT * (1 - b) ≤ rho * (1 - b) := by nlinarith
    have e : (1 - rho * eT) * (rho * eT) * (1 - b)
        = (1 - rho * eT) * (rho * eT * (1 - b)) := by ring
    nlinarith
  simp only [Power, zpow_natCast]
  exact mul_nonneg_of_nonpos_of_nonpos
    (div_nonpos_of_nonneg_of_nonpos (by linarith) hD0.le) hbr

/-- At `rho = 0` the regularized sum `SigmaW` is nonnegative for
`0 < iota < 1`. -/
theorem SigmaW_nonneg_of_rho_eq_zero (c : CaseConsts ℝ) (tT tU : ℝ) (n : Int)
    (hi0 : 0 < c.iota) (hi1 : c.iota < 1) (hCap : 0 < c.tCap) (hU : 0 < tU) :
    0 ≤ SigmaW Real.exp c 0 tT tU n := by
  unfold SigmaW
  simp only []
  split_ifs with hn
  swap
  · exact le_rfl
  obtain ⟨M, rfl⟩ : ∃ M : Nat, n = ((M + 1 : Nat) : Int) := ⟨(n - 1).toNat, by omega⟩
  have hb1 : Real.exp (-c.tCap / tU) < 1 := exp_neg_div_lt_one _ _ hCap hU
  have hb0 : 0 < Real.exp (-c.tCap / tU) := Real.exp_pos _
  generalize Real.exp (-c.tCap / tU) = b at *
  have hB1 : b ^ (M + 1) ≤ 1 := pow_le_one₀ hb0.le hb1.le
  have hz : (0 : ℝ) ^ (M + 1) = 0 := zero_pow (by omega)
  simp only [Power, zpow_natCast, zero_mul, zero_div, hz, sub_zero, zero_add]
  have e : b ^ (M + 1) * c.iota / (0 - 1 + c.iota) - c.iota / (0 - 1 + c.iota)
      = c.iota * (1 - b ^ (M + 1)) / (1 - c.iota) := by
    have h1 : (1 : ℝ) - c.iota ≠ 0 := by linarith
    have hd : (0 : ℝ) - 1 + c.iota = -(1 - c.iota) := by ring
    rw [hd, div_neg, div_neg, sub_neg_eq_add, neg_add_eq_sub, ← sub_div]
    congr 1
    ring
  rw [e]
  have h3 : 0 ≤ c.iota * (1 - b ^ (M + 1)) / (1 - c.iota) :=
    div_nonneg (mul_nonneg hi0.le (by linarith)) (by linarith)
  exact mul_nonneg (div_nonneg (by linarith) hi0.le) h3

/-- The capture term of the W populations is nonnegative when the
amplitudes and the three sums are. -/
theorem Wcap_nonneg_of_SigmaW_nonneg (c : CaseConsts ℝ) (ix : ParIndex) (g : Globals ℝ)
    (i : Int) (a : Nat → ℝ) (t : ℝ)
    (hW1 : i = 1 → 0 ≤ g.ampW1 * SigmaW Real.exp c (a ix.rho) g.tT1 g.tU1
      (Ceil ((t - c.tBac) / c.tCap)))
    (hW2 : i = 2 → 0 ≤ g.ampW2 * SigmaW Real.exp c (a ix.rho) g.tT2 g.tU2
      (Ceil ((t - c.tBac) / c.tCap)))
    (hW3 : i = 3 → 0 ≤ g.ampW3 * SigmaW Real.exp c (a ix.rho) g.tT3 g.tU3
      (Ceil ((t - c.tBac) / c.tCap))) :
    0 ≤ Wcap Real.exp c ix g i a t := by
  unfold Wcap
  simp only []
  split_ifs with h3 h2 h1 h1 h2 h1 h1
  all_goals first
    | exact le_rfl
    | (subst h3; omega)
    | (subst h2; omega)
    | (have p1 := mul_nonneg (hW1 (by assumption)) (Real.exp_pos
        (-(t - c.tBac - ((Ceil ((t - c.tBac) / c.tCap) - 1 : Int) : ℝ) * c.tCap) / g.tU1)).le
       linarith)
    | (have p2 := mul_nonneg (hW2 (by assumption)) (Real.exp_pos
        (-(t - c.tBac - ((Ceil ((t - c.tBac) / c.tCap) - 1 : Int) : ℝ) * c.tCap) / g.tU2)).le
       linarith)
    | (have p3 := mul_nonneg (hW3 (by assumption)) (Real.exp_pos
        (-(t - c.tBac - ((Ceil ((t - c.tBac) / c.tCap) - 1 : Int) : ℝ) * c.tCap) / g.tU3)).le
       linarith)

/-- C14, as the code has it: in a valid layout, for `iota ≥ 0`, a parameter
array with `r_i ≥ 0`, `p ≥ 0`, `rho ≤ 1`, `tCap > 0`, and the globals and
array that `ComputeParameterDependentVars (a)` leaves behind, with
`expT_i = exp (-tCap / tT_i)`, `expU_i = exp (-tCap / tU_i)`:
`Wcap (i, a, t) = 0` at every `tBac ≤ t ≤ tBac + tCap`; for each generation
`i` with `rho > 0` and positive `tT_i`, `tU_i`, `Wcap (i, a, t) ≥ 0` at every
`tBac ≤ t ≤ tCyc` when the ratio `rho * expT_i / expU_i` is below `1` and
`iota ≤ (1 - rho*expT_i/expU_i) * (1 - rho*expT_i) * (rho*expT_i) * (1 - expU_i)`,
and also when the ratio is at least `1` and
`0 < iota ≤ (1 - rho*expT_i) * (rho*expT_i) * (1 - expU_i)`; and for
`rho = 0`, `0 < iota < 1` and positive `tU_i`, `Wcap (i, a, t) ≥ 0` at every
`tBac ≤ t ≤ tCyc` and every `i`. -/
theorem Wcap_sign (c : CaseConsts ℝ) (ix : ParIndex) (g : Globals ℝ)
    (a : Nat → ℝ) (g' : Globals ℝ) (a' : Nat → ℝ)
    (hrun : ComputeParameterDependentVars Real.exp c ix g a = (g', a'))
    (hix : ix.Valid c.nPars)
    (hr1 : 0 ≤ a ix.r1) (hr2 : 0 ≤ a ix.r2) (hr3 : 0 ≤ a ix.r3)
    (hp0 : 0 ≤ a ix.p) (hrho1 : a ix.rho ≤ 1)
    (hCap : 0 < c.tCap) (hiota : 0 ≤ c.iota) :
    (∀ (i : Int) (t : ℝ), c.tBac ≤ t → t ≤ c.tBac + c.tCap →
        Wcap Real.exp c ix g' i a' t = 0)
    ∧ (0 < a ix.rho → 0 < g'.tT1 → 0 < g'.tU1 →
        a ix.rho * Real.exp (-c.tCap / g'.tT1) < Real.exp (-c.tCap / g'.tU1) →
        c.iota ≤ (1 - a ix.rho * Real.exp (-c.tCap / g'.tT1) / Real.exp (-c.tCap / g'.tU1))
          * (1 - a ix.rho * Real.exp (-c.tCap / g'.tT1))
          * (a ix.rho * Real.exp (-c.tCap / g'.tT1)) * (1 - Real.exp (-c.tCap / g'.tU1)) →
        ∀ t : ℝ, c.tBac ≤ t → t ≤ c.tCyc → 0 ≤ Wcap Real.exp c ix g' 1 a' t)
    ∧ (0 < a ix.rho → 0 < g'.tT2 → 0 < g'.tU2 →
        a ix.rho * Real.exp (-c.tCap / g'.tT2) < Real.exp (-c.tCap / g'.tU2) →
        c.iota ≤ (1 - a ix.rho * Real.exp (-c.tCap / g'.tT2) / Real.exp (-c.tCap / g'.tU2))
          * (1 - a ix.rho * Real.exp (-c.tCap / g'.tT2))
          * (a ix.rho * Real.exp (-c.tCap / g'.tT2)) * (1 - Real.exp (-c.tCap / g'.tU2)) →
        ∀ t : ℝ, c.tBac ≤ t → t ≤ c.tCyc → 0 ≤ Wcap Real.exp c ix g' 2 a' t)
    ∧ (0 < a ix.rho → 0 < g'.tT3 → 0 < g'.tU3 →
        a ix.rho * Real.exp (-c.tCap / g'.tT3) < Real.exp (-c.tCap / g'.tU3) →
        c.iota ≤ (1 - a ix.rho * Real.exp (-c.tCap / g'.tT3) / Real.exp (-c.tCap / g'.tU3))
          * (1 - a ix.rho * Real.exp (-c.tCap / g'.tT3))
          * (a ix.rho * Real.exp (-c.tCap / g'.tT3)) * (1 - Real.exp (-c.tCap / g'.tU3)) →
        ∀ t : ℝ, c.tBac ≤ t → t ≤ c.tCyc → 0 ≤ Wcap Real.exp c ix g' 3 a' t)
    ∧ (0 < a ix.rho → 0 < c.iota → 0 < g'.tT1 → 0 < g'.tU1 →
        Real.exp (-c.tCap / g'.tU1) ≤ a ix.rho * Real.exp (-c.tCap / g'.tT1) →
        c.iota ≤ (1 - a ix.rho * Real.exp (-c.tCap / g'.tT1))
          * (a ix.rho * Real.exp (-c.tCap / g'.tT1)) * (1 - Real.exp (-c.tCap / g'.tU1)) →
        ∀ t : ℝ, c.tBac ≤ t → t ≤ c.tCyc → 0 ≤ Wcap Real.exp c ix g' 1 a' t)
    ∧ (0 < a ix.rho → 0 < c.iota → 0 < g'.tT2 → 0 < g'.tU2 →
        Real.exp (-c.tCap / g'.tU2) ≤ a ix.rho * Real.exp (-c.tCap / g'.tT2) →
        c.iota ≤ (1 - a ix.rho * Real.exp (-c.tCap / g'.tT2))
          * (a ix.rho * Real.exp (-c.tCap / g'.tT2)) * (1 - Real.exp (-c.tCap / g'.tU2)) →
        ∀ t : ℝ, c.tBac ≤ t → t ≤ c.tCyc → 0 ≤ Wcap Real.exp c ix g' 2 a' t)
    ∧ (0 < a ix.rho → 0 < c.iota → 0 < g'.tT3 → 0 < g'.tU3 →
        Real.exp (-c.tCap / g'.tU3) ≤ a ix.rho * Real.exp (-c.tCap / g'.tT3) →
        c.iota ≤ (1 - a ix.rho * Real.exp (-c.tCap / g'.tT3))
          * (a ix.rho * Real.exp (-c.tCap / g'.tT3)) * (1 - Real.exp (-c.tCap / g'.tU3)) →
        ∀ t : ℝ, c.tBac ≤ t → t ≤ c.tCyc → 0 ≤ Wcap Real.exp c ix g' 3 a' t)
    ∧ (a ix.rho = 0 → 0 < c.iota → c.iota < 1 →
        0 < g'.tU1 → 0 < g'.tU2 → 0 < g'.tU3 →
        ∀ (i : Int) (t : ℝ), c.tBac ≤ t → t ≤ c.tCyc → 0 ≤ Wcap Real.exp c ix g' i a' t) := by
  obtain ⟨aW1, aW2, aW3⟩ := CPDV_ampW Real.exp c ix g a g' a' hrun
  obtain ⟨n1, n2, n3, n4, n5⟩ := ParIndex.Valid.rate_ne_gammaT3 ix c.nPars hix
  have ha : a' = (ComputeParameterDependentVars Real.exp c ix g a).2 := by rw [hrun]
  have q1 : a' ix.r1 = a ix.r1 := by rw [ha]; exact CPDV_array_of_ne _ _ _ _ _ _ n1
  have q2 : a' ix.r2 = a ix.r2 := by rw [ha]; exact CPDV_array_of_ne _ _ _ _ _ _ n2
  have q3 : a' ix.r3 = a ix.r3 := by rw [ha]; exact CPDV_array_of_ne _ _ _ _ _ _ n3
  have q4 : a' ix.p = a ix.p := by rw [ha]; exact CPDV_array_of_ne _ _ _ _ _ _ n4
  have q5 : a' ix.rho = a ix.rho := by rw [ha]; exact CPDV_array_of_ne _ _ _ _ _ _ n5
  rw [q1, q4, q5] at aW1
  rw [q2, q4, q5] at aW2
  rw [q3, q4, q5] at aW3
  have hq : 0 ≤ 1 - a ix.rho := by linarith
  have hW1 : 0 ≤ g'.ampW1 := by rw [aW1]; positivity
  have hW2 : 0 ≤ g'.ampW2 := by rw [aW2]; positivity
  have hW3 : 0 ≤ g'.ampW3 := by rw [aW3]; positivity
  refine ⟨fun i t h1 h2 => Wcap_first_interval c ix g' i a' t h1 h2,
    fun h0 hT hU hx hm t _ _ => ?_, fun h0 hT hU hx hm t _ _ => ?_,
    fun h0 hT hU hx hm t _ _ => ?_, fun h0 hi hT hU hx hm t _ _ => ?_,
    fun h0 hi hT hU hx hm t _ _ => ?_, fun h0 hi hT hU hx hm t _ _ => ?_,
    fun h0 hi0 hi1 hU1 hU2 hU3 i t _ _ => ?_⟩
  · refine Wcap_nonneg_of_SigmaW_nonneg c ix g' 1 a' t (fun _ => ?_)
      (fun h => absurd h (by decide)) (fun h => absurd h (by decide))
    rw [q5]
    exact mul_nonneg hW1 (SigmaW_nonneg_of_margin c _ _ _ _ hiota h0 hCap hT hU hx hm)
  · refine Wcap_nonneg_of_SigmaW_nonneg c ix g' 2 a' t (fun h => absurd h (by decide))
      (fun _ => ?_) (fun h => absurd h (by decide))
    rw [q5]
    exact mul_nonneg hW2 (SigmaW_nonneg_of_margin c _ _ _ _ hiota h0 hCap hT hU hx hm)
  · refine Wcap_nonneg_of_SigmaW_nonneg c ix g' 3 a' t (fun h => absurd h (by decide))
      (fun h => absurd h (by decide)) (fun _ => ?_)
    rw [q5]
    exact mul_nonneg hW3 (SigmaW_nonneg_of_margin c _ _ _ _ hiota h0 hCap hT hU hx hm)
  · refine Wcap_nonneg_of_SigmaW_nonneg c ix g' 1 a' t (fun _ => ?_)
      (fun h => absurd h (by decide)) (fun h => absurd h (by decide))
    rw [q5]
    exact mul_nonneg hW1
      (SigmaW_nonneg_of_ratio_ge_one c _ _ _ _ hi h0 hrho1 hCap hT hU hx hm)
  · refine Wcap_nonneg_of_SigmaW_nonneg c ix g' 2 a' t (fun h => absurd h (by decide))
      (fun _ => ?_) (fun h => absurd h (by decide))
    rw [q5]
    exact mul_nonneg hW2
      (SigmaW_nonneg_of_ratio_ge_one c _ _ _ _ hi h0 hrho1 hCap hT hU hx hm)
  · refine Wcap_nonneg_of_SigmaW_nonneg c ix g' 3 a' t (fun h => absurd h (by decide))
      (fun h => absurd h (by decide)) (fun _ => ?_)
    rw [q5]
    exact mul_nonneg hW3
      (SigmaW_nonneg_of_ratio_ge_one c _ _ _ _ hi h0 hrho1 hCap hT hU hx hm)
  · refine Wcap_nonneg_of_SigmaW_nonneg c ix g' i a' t (fun _ => ?_) (fun _ => ?_)
      (fun _ => ?_)
    · rw [q5, h0]
      exact mul_nonneg hW1 (SigmaW_nonneg_of_rho_eq_zero c _ _ _ hi0 hi1 hCap hU1)
    · rw [q5, h0]
      exact mul_nonneg hW2 (SigmaW_nonneg_of_rho_eq_zero c _ _ _ hi0 hi1 hCap hU2)
    · rw [q5, h0]
      exact mul_nonneg hW3 (SigmaW_nonneg_of_rho_eq_zero c _ _ _ hi0 hi1 hCap hU3)

/-- The run on `demoCaseT1` with `t1 = 6000 / ln 2` and `demoPar`: the array
is left as it is and `tT1 = tU1 = 6000 / ln 2`. -/
theorem demo_half_life_run :
    (ComputeParameterDependentVars Real.exp (demoCaseT1 ℝ (6000 / Real.log 2)) demoLayout
        (zeroGlobals ℝ) (demoPar ℝ)).1.tT1 = 6000 / Real.log 2
    ∧ (ComputeParameterDependentVars Real.exp (demoCaseT1 ℝ (6000 / Real.log 2)) demoLayout
        (zeroGlobals ℝ) (demoPar ℝ)).1.tU1 = 6000 / Real.log 2 := by
  have harr : (ComputeParameterDependentVars Real.exp (demoCaseT1 ℝ (6000 / Real.log 2))
      demoLayout (zeroGlobals ℝ) (demoPar ℝ)).2 = demoPar ℝ := by
    rw [CPDV_array]
    rfl
  obtain ⟨eT1, -, -, eU1, -⟩ := CPDV_lifetimes Real.exp (demoCaseT1 ℝ (6000 / Real.log 2))
    demoLayout (zeroGlobals ℝ) (demoPar ℝ)
    (ComputeParameterDependentVars Real.exp (demoCaseT1 ℝ (6000 / Real.log 2))
      demoLayout (zeroGlobals ℝ) (demoPar ℝ)).1
    (ComputeParameterDependentVars Real.exp (demoCaseT1 ℝ (6000 / Real.log 2))
      demoLayout (zeroGlobals ℝ) (demoPar ℝ)).2 rfl
  rw [harr] at eT1 eU1
  have hg1 : demoPar ℝ demoLayout.gammaT1 = 0 := by norm_num [demoLayout, demoPar]
  have hg4 : demoPar ℝ demoLayout.gammaU1 = 0 := by norm_num [demoLayout, demoPar]
  have ht1 : (demoCaseT1 ℝ (6000 / Real.log 2)).t1 = 6000 / Real.log 2 := rfl
  have hts : (1 : ℝ) / (1 / (6000 / Real.log 2) + 0 / 1000) = 6000 / Real.log 2 := by
    rw [zero_div, add_zero, one_div_one_div]
  rw [hg1, ht1, hts] at eT1
  rw [hg4, ht1, hts] at eU1
  exact ⟨eT1, eU1⟩

/-- Instance of the amended C14 with `iota = 1 / 1000000`: on `demoCaseT1`
with a half-life of `tCap` (`expT1 = expU1 = 1 / 2`) and `demoPar`
(`rho = 1 / 2`), the ratio is `1 / 2`, the bound on `iota` is `3 / 64`, and
`Wcap (1, a, t) ≥ 0` at `t = 113000`, where two injections are counted. -/
theorem Wcap_sign_witness :
    (demoLayout.Valid (demoCaseT1 ℝ (6000 / Real.log 2)).nPars
      ∧ (0 : ℝ) < (demoCaseT1 ℝ (6000 / Real.log 2)).tCap
      ∧ (0 : ℝ) < (demoCaseT1 ℝ (6000 / Real.log 2)).iota
      ∧ (0 : ℝ) < demoPar ℝ demoLayout.rho ∧ demoPar ℝ demoLayout.rho ≤ 1
      ∧ (demoCaseT1 ℝ (6000 / Real.log 2)).tBac ≤ 113000
      ∧ (113000 : ℝ) ≤ (demoCaseT1 ℝ (6000 / Real.log 2)).tCyc)
    ∧ 0 ≤ Wcap Real.exp (demoCaseT1 ℝ (6000 / Real.log 2)) demoLayout
        (ComputeParameterDependentVars Real.exp (demoCaseT1 ℝ (6000 / Real.log 2)) demoLayout
          (zeroGlobals ℝ) (demoPar ℝ)).1 1
        (ComputeParameterDependentVars Real.exp (demoCaseT1 ℝ (6000 / Real.log 2)) demoLayout
          (zeroGlobals ℝ) (demoPar ℝ)).2 113000 :=
  have hv : demoLayout.Valid (demoCaseT1 ℝ (6000 / Real.log 2)).nPars := by
    show demoLayout.Valid 20
    decide
  have hCap : (0 : ℝ) < (demoCaseT1 ℝ (6000 / Real.log 2)).tCap := by
    norm_num [demoCaseT1, demoCase]
  have hiota : (0 : ℝ) < (demoCaseT1 ℝ (6000 / Real.log 2)).iota := by
    norm_num [demoCaseT1, demoCase]
  have hrho : demoPar ℝ demoLayout.rho = 1 / 2 := by norm_num [demoPar, demoLayout]
  have hpos : (0 : ℝ) < 6000 / Real.log 2 := div_pos (by norm_num) (Real.log_pos (by norm_num))
  have he : Real.exp (-(demoCaseT1 ℝ (6000 / Real.log 2)).tCap / (6000 / Real.log 2))
      = 1 / 2 := exp_neg_div_div_log_two 6000 (by norm_num)
  have h1 : (demoCaseT1 ℝ (6000 / Real.log 2)).tBac ≤ 113000 := by
    norm_num [demoCaseT1, demoCase]
  have h2 : (113000 : ℝ) ≤ (demoCaseT1 ℝ (6000 / Real.log 2)).tCyc := by
    norm_num [demoCaseT1, demoCase]
  ⟨⟨hv, hCap, hiota, by rw [hrho]; norm_num, by rw [hrho]; norm_num, h1, h2⟩,
    (Wcap_sign (demoCaseT1 ℝ (6000 / Real.log 2)) demoLayout (zeroGlobals ℝ) (demoPar ℝ)
      (ComputeParameterDependentVars Real.exp (demoCaseT1 ℝ (6000 / Real.log 2)) demoLayout
        (zeroGlobals ℝ) (demoPar ℝ)).1
      (ComputeParameterDependentVars Real.exp (demoCaseT1 ℝ (6000 / Real.log 2)) demoLayout
        (zeroGlobals ℝ) (demoPar ℝ)).2 rfl hv
      demoPar_physical.1 demoPar_physical.2.1 demoPar_physical.2.2.1
      demoPar_physical.2.2.2.1 demoPar_physical.2.2.2.2.2.2
      hCap hiota.le).2.1
      (by rw [hrho]; norm_num)
      (by rw [demo_half_life_run.1]; exact hpos)
      (by rw [demo_half_life_run.2]; exact hpos)
      (by rw [demo_half_life_run.1, demo_half_life_run.2, he, hrho]; norm_num)
      (by
        rw [demo_half_life_run.1, demo_half_life_run.2, he, hrho]
        norm_num [demoCaseT1, demoCase])
      113000 h1 h2⟩

end BFitNamespace
